import Mathlib

/-!
# fos_frontend: session store, API client interceptors, route guard, order preview

A shallow embedding of the decision logic of the farmer fertilizer-ordering client:

* `src/utils/auth.js`      : the session store over `localStorage`
* `src/services/api.js`    : the axios request and response interceptors
* `src/App.jsx`            : `ProtectedRoute` and the route table
* `src/pages/farmer/FarmerDashboard.jsx` : the order calculation preview, the
  order submission
* `src/pages/farmer/FarmerLogin.jsx`, `src/pages/farmer/FarmerRegister.jsx`,
  `src/pages/admin/AdminLogin.jsx` : the login and registration handlers
* `src/pages/admin/AdminDashboard.jsx` : the review and catalog handlers

The platform is modelled explicitly: `localStorage` is a finite key/value store of
strings, JavaScript numbers are IEEE-754 binary64 values, and the built-in
`JSON.stringify` / `JSON.parse` pair is a parameter of the session store, with
`builtinJSON` the pair that ECMAScript defines (`SerializeJSONProperty`,
`QuoteJSONString`, `Number::toString` and the JSON grammar). Event handlers are
functions from the component state and the browser to their outcome, one function
for each stretch between two `await`s.
-/

namespace FosFrontend

/-! ## JavaScript numbers -/

/-- A JavaScript Number: `fin neg m e` is the value `(-1)^neg * m * 2^e`. -/
inductive JSNum where
  | nan
  | inf (neg : Bool)
  | fin (neg : Bool) (m : Nat) (e : Int)
  deriving DecidableEq, Repr

namespace JSNum

/-- Binary digit count by repeated halving; `fuel` bounds the number of halvings. -/
def bitLengthAux : Nat → Nat → Nat
  | 0, _ => 0
  | fuel + 1, m => if m = 0 then 0 else bitLengthAux fuel (m / 2) + 1

/-- Number of binary digits of a natural number (`0` for `0`). -/
def bitLength (m : Nat) : Nat := bitLengthAux m m

/-- Round-half-to-even division of `m` by `2^s`. -/
def shiftRoundEven (m s : Nat) : Nat :=
  let q := m / 2 ^ s
  let r := m % 2 ^ s
  if s = 0 then m
  else if r > 2 ^ (s - 1) then q + 1
  else if r = 2 ^ (s - 1) ∧ q % 2 = 1 then q + 1
  else q

/-- The binary64 value nearest to `(-1)^neg * m * 2^e` (ties to even), with
gradual underflow below `2^-1022` and overflow to infinity from `2^1024`. The result
is in normal form: a zero is `fin neg 0 0`, a subnormal has exponent `-1074`, every
other finite result has a significand of exactly 53 bits. -/
def round (neg : Bool) (m : Nat) (e : Int) : JSNum :=
  if m = 0 then fin neg 0 0
  else
    let target : Int := max (e + (bitLength m : Int) - 53) (-1074)
    if target ≤ e then
      let m1 := m * 2 ^ (e - target).toNat
      if (bitLength m1 : Int) + target > 1024 then inf neg else fin neg m1 target
    else
      let m1 := shiftRoundEven m (target - e).toNat
      if m1 = 0 then fin neg 0 0
      else if (bitLength m1 : Int) + target > 1024 then inf neg
      else if m1 = 2 ^ 53 then fin neg (2 ^ 52) (target + 1)
      else fin neg m1 target

/-- The `*` operator on Numbers (ECMAScript `Number::multiply`). -/
def mul : JSNum → JSNum → JSNum
  | nan, _ => nan
  | _, nan => nan
  | inf a, inf b => inf (a != b)
  | inf a, fin b m _ => if m = 0 then nan else inf (a != b)
  | fin a m _, inf b => if m = 0 then nan else inf (a != b)
  | fin a m1 e1, fin b m2 e2 => round (a != b) (m1 * m2) (e1 + e2)

/-- A finite Number. -/
def isFinite : JSNum → Bool
  | fin _ _ _ => true
  | _ => false

/-- A binary64 value: `NaN`, an infinity, or a finite Number with at most 53
significant bits and the exponent of its last place between `-1074` and `971`. -/
def isDouble : JSNum → Bool
  | fin _ m e => decide (m < 2 ^ 53) && decide (-1074 ≤ e) && decide (e ≤ 971)
  | _ => true

/-- Strictly positive (`x > 0` in JavaScript). -/
def isPos : JSNum → Bool
  | fin neg m _ => !neg && decide (0 < m)
  | inf neg => !neg
  | nan => false

end JSNum

/-! ## JavaScript values -/

/-- JavaScript values as far as the client inspects them: the JSON data it receives
from the backend and reads back from storage, plus `undefined`. -/
inductive JSVal where
  | undefined
  | null
  | bool (b : Bool)
  | num (n : JSNum)
  | str (s : String)
  | arr (items : List JSVal)
  | obj (fields : List (String × JSVal))

namespace JSVal

/-- Reading property `key` of a value, for a `key` that no built-in prototype
defines (`userType`, `landArea`, ...): own data properties of objects, `undefined`
on every other value. -/
def getProp (v : JSVal) (key : String) : JSVal :=
  match v with
  | obj fields => (fields.lookup key).getD undefined
  | _ => undefined

/-- Optional chaining `v?.key`. -/
def optChain (v : JSVal) (key : String) : JSVal :=
  match v with
  | undefined => undefined
  | null => undefined
  | w => getProp w key

/-- The comparison `v !== s` against a string `s`. -/
def strictNeStr (v : JSVal) (s : String) : Bool :=
  match v with
  | str t => t != s
  | _ => true

end JSVal

/-- ToBoolean on a string: only the empty string is falsy. -/
def truthyStr (s : String) : Bool := s != ""

/-- ToBoolean on a string-or-null (`null` is `none`). -/
def truthyOpt : Option String → Bool
  | some s => truthyStr s
  | none => false

/-! ## The platform: `JSON` and `localStorage` -/

/-- The built-in `JSON` object. `stringify` answers `none` for `undefined`;
`parse` throws a `SyntaxError` on text that is not JSON. -/
structure JSONBuiltin where
  stringify : JSVal → Option String
  parse : String → Except String JSVal

/-- The contents of `localStorage`: at most one entry per key. -/
abbrev Storage := List (String × String)

namespace Storage

/-- Method `localStorage.getItem(key)`; `none` is `null`. -/
def getItem (ls : Storage) (key : String) : Option String :=
  ls.lookup key

/-- Method `localStorage.removeItem(key)`. -/
def removeItem (ls : Storage) (key : String) : Storage :=
  ls.filter (fun kv => kv.1 != key)

/-- Method `localStorage.setItem(key, value)`. -/
def setItem (ls : Storage) (key value : String) : Storage :=
  (key, value) :: removeItem ls key

end Storage

/-- ToString of the result of `JSON.stringify`, as `setItem` applies it. -/
def storedText : Option String → String
  | some s => s
  | none => "undefined"

/-! ## `src/utils/auth.js` -/

def setAuthToken (J : JSONBuiltin) (token : String) (user : JSVal) (ls : Storage) : Storage :=
  let ls1 := ls.setItem "token" token
  ls1.setItem "user" (storedText (J.stringify user))

def getAuthToken (ls : Storage) : Option String :=
  ls.getItem "token"

def getUser (J : JSONBuiltin) (ls : Storage) : Except String JSVal :=
  let user := ls.getItem "user"
  match user with
  | some text => if truthyStr text then J.parse text else .ok JSVal.null
  | none => .ok JSVal.null

def isAuthenticated (ls : Storage) : Bool :=
  !!truthyOpt (getAuthToken ls)

def logout (ls : Storage) : Storage :=
  let ls1 := ls.removeItem "token"
  ls1.removeItem "user"

def getUserType (J : JSONBuiltin) (ls : Storage) : Except String JSVal :=
  match getUser J ls with
  | .ok user => .ok (user.optChain "userType")
  | .error err => .error err

/-! ## `src/services/api.js` -/

/-- An axios request configuration. -/
structure RequestConfig where
  url : String
  method : String
  baseURL : String
  headers : List (String × String)
  params : List (String × JSVal)
  data : JSVal

/-- An HTTP response as the interceptors see it. -/
structure Response where
  status : Nat
  data : JSVal

/-- The error axios rejects with; `response` is absent on a network failure. -/
structure AxiosError where
  message : String
  config : RequestConfig
  response : Option Response

/-- The part of the browser the client writes to: `localStorage` and
`window.location.href`. -/
structure Browser where
  localStorage : Storage
  href : String

/-- Property assignment `headers[key] = value`. -/
def assignHeader (headers : List (String × String)) (key value : String) :
    List (String × String) :=
  (key, value) :: headers.filter (fun kv => kv.1 != key)

/-- The request interceptor: `api.interceptors.request.use((config) => ...)`. -/
def requestInterceptor (ls : Storage) (config : RequestConfig) : RequestConfig :=
  let token := ls.getItem "token"
  match token with
  | some t =>
    if truthyStr t then
      { config with headers := assignHeader config.headers "Authorization" ("Bearer " ++ t) }
    else config
  | none => config

/-- The response interceptor on success: `(response) => response`. -/
def responseFulfilled (response : Response) : Response := response

/-- The response interceptor on failure: clears the session and forces a navigation
on status 401, and rejects with the same error in every case. -/
def responseRejected (error : AxiosError) (w : Browser) :
    Browser × Except AxiosError Response :=
  let w1 : Browser :=
    if error.response.map (fun r => r.status) = some 401 then
      { localStorage := (w.localStorage.removeItem "token").removeItem "user",
        href := "/login" }
    else w
  (w1, .error error)

/-! ## `src/App.jsx` -/

/-- What a route element renders to. -/
inductive Rendered (α : Type) where
  | navigate (toPath : String)
  | element (e : α)
  deriving DecidableEq, Repr

/-- The route guard. `requiredRole` is `none` when the prop is not passed. -/
def ProtectedRoute {α : Type} (J : JSONBuiltin) (ls : Storage) (element : α)
    (requiredRole : Option String) : Except String (Rendered α) :=
  if !isAuthenticated ls then .ok (.navigate "/farmer-login")
  else
    match requiredRole with
    | some role =>
      if truthyStr role then
        match getUserType J ls with
        | .ok userType =>
          if userType.strictNeStr role then .ok (.navigate "/not-found")
          else .ok (.element element)
        | .error err => .error err
      else .ok (.element element)
    | none => .ok (.element element)

/-- The page components. -/
inductive Page where
  | FarmerLogin | FarmerRegister | FarmerDashboard | AdminLogin | AdminDashboard | NotFound
  deriving DecidableEq, Repr

/-- The `element` prop of a `<Route>`. -/
inductive RouteElement where
  | page (p : Page)
  | navigate (toPath : String)
  | protectedRoute (p : Page) (requiredRole : String)
  deriving DecidableEq, Repr

/-- A `<Route path=... element=... />`. -/
structure Route where
  path : String
  element : RouteElement
  deriving DecidableEq, Repr

/-- The route table of `App`. -/
def routes : List Route :=
  [ ⟨"/farmer-login", .page .FarmerLogin⟩,
    ⟨"/farmer-register", .page .FarmerRegister⟩,
    ⟨"/farmer-dashboard", .protectedRoute .FarmerDashboard "farmer"⟩,
    ⟨"/admin-login", .page .AdminLogin⟩,
    ⟨"/admin-dashboard", .protectedRoute .AdminDashboard "admin"⟩,
    ⟨"/", .navigate "/farmer-login"⟩,
    ⟨"/not-found", .page .NotFound⟩ ]

/-- The paths for which `App` declares a route. -/
def routePaths : List String := routes.map (fun r => r.path)

/-! ## Decimal digits -/

/-- Decimal digits of `n`, least significant first; `fuel` bounds the digit count. -/
def decimalDigits : Nat → Nat → List Nat
  | 0, _ => []
  | fuel + 1, n => if n = 0 then [] else (n % 10) :: decimalDigits fuel (n / 10)

/-- The character of a decimal digit. -/
def digitChar (d : Nat) : Char := Char.ofNat (48 + d)

/-- The decimal representation of `n` as `toFixed` builds it: `"0"` for zero. -/
def decimalRepr (n : Nat) : List Char :=
  if n = 0 then ['0'] else ((decimalDigits (n + 1) n).reverse).map digitChar

/-! ## Numbers from ratios and decimals -/

namespace JSNum

/-- The global `isNaN` on a Number. -/
def isNaN : JSNum → Bool
  | nan => true
  | _ => false

/-- Positive or negative zero. -/
def isZero : JSNum → Bool
  | fin _ m _ => decide (m = 0)
  | _ => false

/-- The comparison `x <= 0`. -/
def leZero : JSNum → Bool
  | nan => false
  | inf neg => neg
  | fin neg m _ => neg || decide (m = 0)

/-- The binary64 value nearest to `(-1)^neg * p / q` for `q > 0`: the quotient is
taken with more than a thousand binary places and a sticky last bit, then rounded. -/
def roundRatio (neg : Bool) (p q : Nat) : JSNum :=
  if p = 0 then fin neg 0 0
  else
    let k := 1100 + bitLength q
    let n := p * 2 ^ k / q
    let sticky := if p * 2 ^ k % q = 0 then 0 else 1
    round neg (2 * n + sticky) (-((k : Int) + 1))

/-- The Number of the decimal `(-1)^neg * m * 10^k`. -/
def ofDecimal (neg : Bool) (m : Nat) (k : Int) : JSNum :=
  if 0 ≤ k then round neg (m * 10 ^ k.toNat) 0
  else roundRatio neg m (10 ^ (-k).toNat)

end JSNum

/-! ## Binary64 values in normal form -/

/-- The value of a finite Number; `0` for `NaN` and the infinities. -/
def JSNum.toRat : JSNum → ℚ
  | .fin neg m e => (if neg then -1 else 1) * ((m : ℚ) * (2 : ℚ) ^ e)
  | _ => 0

/-- The normal form of a non-zero binary64 significand and exponent. -/
def JSNum.Canon (m : Nat) (t : Int) : Prop :=
  (m < 2 ^ 52 ∧ t = -1074) ∨ (2 ^ 52 ≤ m ∧ m < 2 ^ 53 ∧ -1074 ≤ t ∧ t ≤ 971)

/-- Half the distance from `m * 2^t` (in normal form) down to the next binary64 value. -/
def JSNum.halfGapBelow (m : Nat) (t : Int) : ℚ :=
  if m = 2 ^ 52 ∧ -1074 < t then (2 : ℚ) ^ (t - 2) else (2 : ℚ) ^ (t - 1)

/-- Normal form: a zero is `fin _ 0 0`, a subnormal has exponent `-1074`, every other
finite Number has a significand of 53 bits and an exponent from `-1074` to `971`. -/
def JSNum.isCanonical : JSNum → Bool
  | .fin _ m e =>
    (decide (m = 0) && decide (e = 0)) ||
    (decide (0 < m) && decide (m < 2 ^ 52) && decide (e = -1074)) ||
    (decide (2 ^ 52 ≤ m) && decide (m < 2 ^ 53) && decide (-1074 ≤ e) && decide (e ≤ 971))
  | _ => true

/-! ## `Number::toString` -/

namespace JSNum

/-- The normal form of a Number: the binary64 value of a finite one. -/
def normalize : JSNum → JSNum
  | fin neg m e => round neg m e
  | x => x

/-- The number of decimal digits of `n`; `0` for `0`. -/
def decimalLength (n : Nat) : Nat := (decimalDigits (n + 1) n).length

/-- The `n` of `Number::toString` for the value `m * 2^e > 0`: the integer with
`10^(n-1) ≤ m * 2^e < 10^n`. -/
def decimalOrder (m : Nat) (e : Int) : Int :=
  if 0 ≤ e then (decimalLength (m * 2 ^ e.toNat) : Int)
  else if 2 ^ (-e).toNat ≤ m then (decimalLength (m / 2 ^ (-e).toNat) : Int)
  else 1 - (decimalLength ((2 ^ (-e).toNat - 1) / m) : Int)

/-- Numerator and denominator of `m * 2^e / 10^j`. -/
def scaled (m : Nat) (e j : Int) : Nat × Nat :=
  (m * 2 ^ e.toNat * 10 ^ (-j).toNat, 2 ^ (-e).toNat * 10 ^ j.toNat)

/-- The choice of `Number::toString` between the decimal just below and the decimal
just above the value: of those that read back as the value (`okBelow`, `okAbove`) the
nearer one, the one with the even last digit of two equally near; `none` when neither
reads back as the value. -/
def pickDigits (okBelow okAbove belowNearer aboveNearer belowEven : Bool)
    (below above : Nat × Int) : Option (Nat × Int) :=
  if okBelow && okAbove then
    if belowNearer then some below
    else if aboveNearer then some above
    else if belowEven then some below
    else some above
  else if okBelow then some below
  else if okAbove then some above
  else none

/-- The decimal just above `lo * 10^j` with at most `k` digits: `(lo + 1) * 10^j`,
written with `k` digits when `lo + 1` has reached `10^k`. -/
def digitsAbove (lo : Nat) (j : Int) (k : Nat) : Nat × Int :=
  if lo + 1 = 10 ^ k then (10 ^ (k - 1), j + 1) else (lo + 1, j)

/-- The decimal `s * 10^j` that `Number::toString` picks among those of `k` digits for
the value `x = m * 2^e` in normal form, `none` when no decimal of `k` digits has `x`
as its Number value: the candidates are the two multiples of `10^(n-k)` around `x`,
where `10^(n-1) ≤ x < 10^n`. -/
def digitsOfLength (m : Nat) (e : Int) (k : Nat) : Option (Nat × Int) :=
  let j := decimalOrder m e - (k : Int)
  let p := (scaled m e j).1
  let q := (scaled m e j).2
  let below : Nat × Int := (p / q, j)
  let above : Nat × Int := digitsAbove (p / q) j k
  pickDigits
    (decide (ofDecimal false below.1 below.2 = fin false m e))
    (decide (p % q ≠ 0) && decide (ofDecimal false above.1 above.2 = fin false m e))
    (decide (2 * (p % q) < q)) (decide (q < 2 * (p % q))) (decide (p / q % 2 = 0))
    below above

/-- The search for the least number of digits, from `k` on; `fuel` bounds the number
of lengths tried. -/
def shortestDigitsFrom (m : Nat) (e : Int) : Nat → Nat → Nat × Int
  | 0, _ => (0, 0)
  | fuel + 1, k =>
    match digitsOfLength m e k with
    | some r => r
    | none => shortestDigitsFrom m e fuel (k + 1)

/-- The digits `s` and the exponent `j` of `Number::toString` for the value
`m * 2^e` in normal form: the decimal `s * 10^j` with the fewest digits whose Number
value is `m * 2^e`. Seventeen digits always suffice for a binary64 value. -/
def shortestDigits (m : Nat) (e : Int) : Nat × Int :=
  shortestDigitsFrom m e 17 1

/-- The notation of `Number::toString` for the digits of `s` and the exponent `j`:
with `k` the number of digits and `n = j + k`, plain digits with trailing zeros for
`k ≤ n ≤ 21`, a point inside the digits for `0 < n ≤ 21`, leading zeros for
`-6 < n ≤ 0`, exponential notation otherwise. -/
def formatDecimal (s : Nat) (j : Int) : List Char :=
  let ds := decimalRepr s
  let k := ds.length
  let n := j + (k : Int)
  if (k : Int) ≤ n ∧ n ≤ 21 then ds ++ List.replicate (n - k).toNat '0'
  else if 0 < n ∧ n ≤ 21 then ds.take n.toNat ++ '.' :: ds.drop n.toNat
  else if -6 < n ∧ n ≤ 0 then '0' :: '.' :: (List.replicate (-n).toNat '0' ++ ds)
  else
    let sign := if 0 ≤ n - 1 then '+' else '-'
    let expDigits := decimalRepr (n - 1).natAbs
    if k = 1 then ds ++ 'e' :: sign :: expDigits
    else ds.take 1 ++ '.' :: (ds.drop 1 ++ 'e' :: sign :: expDigits)

/-- The operation `Number::toString(x, 10)`. -/
def numberToString (x : JSNum) : List Char :=
  match normalize x with
  | nan => "NaN".data
  | inf neg => if neg then "-Infinity".data else "Infinity".data
  | fin neg m e =>
    if m = 0 then ['0']
    else
      (if neg then ['-'] else []) ++
        formatDecimal (shortestDigits m e).1 (shortestDigits m e).2

end JSNum

/-! ## `Number.prototype.toFixed` -/

/-- The integer `n` for which `n / 10^f` is nearest to `m * 2^e`, the larger one of
two equally near. -/
def nearestScaled (m : Nat) (e : Int) (f : Nat) : Nat :=
  if 0 ≤ e then 10 ^ f * m * 2 ^ e.toNat
  else (2 * 10 ^ f * m + 2 ^ (-e).toNat) / 2 ^ ((-e).toNat + 1)

/-- Whether `m * 2^e ≥ 10^21`. -/
def atLeast1e21 (m : Nat) (e : Int) : Bool :=
  if 0 ≤ e then decide (10 ^ 21 ≤ m * 2 ^ e.toNat)
  else decide (10 ^ 21 * 2 ^ (-e).toNat ≤ m)

/-- The digits of `toFixed`: left-padded with zeros to `f + 1` characters, with a
point before the last `f` of them when `f ≠ 0`. -/
def fixedDigits (n f : Nat) : List Char :=
  let m := decimalRepr n
  if f = 0 then m
  else
    let k := m.length
    let m1 := if k ≤ f then List.replicate (f + 1 - k) '0' ++ m else m
    let k1 := if k ≤ f then f + 1 else k
    m1.take (k1 - f) ++ '.' :: m1.drop (k1 - f)

/-- Method `x.toFixed(f)`; `none` is the `RangeError` thrown for `f > 100`. From
`10^21` on the digits are those of `Number::toString`. -/
def toFixed (x : JSNum) (f : Nat) : Option String :=
  if 100 < f then none
  else
    match x with
    | .nan => some "NaN"
    | .inf neg => some (if neg then "-Infinity" else "Infinity")
    | .fin neg m e =>
      let s := if neg && decide (0 < m) then "-" else ""
      if atLeast1e21 m e then some (s ++ String.mk (JSNum.numberToString (.fin false m e)))
      else some (s ++ String.mk (fixedDigits (nearestScaled m e f) f))

/-! ## `src/pages/farmer/FarmerDashboard.jsx`: the calculation preview -/

/-- A user profile as the backend returns it; `landArea` is present for farmers. -/
structure UserProfile where
  id : String
  fullName : String
  phoneNumber : String
  userType : String
  landArea : Option JSNum

/-- The profile as a JavaScript object; an absent `landArea` is an absent property. -/
def UserProfile.toJS (u : UserProfile) : JSVal :=
  .obj ([("id", .str u.id), ("fullName", .str u.fullName),
         ("phoneNumber", .str u.phoneNumber), ("userType", .str u.userType)]
        ++ (match u.landArea with
            | some a => [("landArea", JSVal.num a)]
            | none => []))

/-- A catalog entry, as far as the preview reads it. -/
structure Fertilizer where
  id : String
  name : String
  ratePerHectare : JSNum
  unit : String

/-- ToNumber of `user?.landArea`: `NaN` when there is no user or no land area. -/
def landAreaNumber (user : Option UserProfile) : JSNum :=
  match user with
  | some u => (u.landArea).getD JSNum.nan
  | none => JSNum.nan

/-- The `preview-box` of one fertilizer: its key, the computed quantity and the text
of the `total` line (`none` where `toFixed` throws). -/
structure PreviewBox where
  key : String
  quantity : JSNum
  total : Option String
  deriving DecidableEq, Repr

/-- The children of `calculation-preview`: one entry per catalog item, `none` where
the callback returns `null`; empty when nothing is selected. -/
def calculationPreview (user : Option UserProfile) (fertilizers : List Fertilizer)
    (selectedFertilizer : String) : List (Option PreviewBox) :=
  if truthyStr selectedFertilizer then
    fertilizers.map (fun fert =>
      if fert.id = selectedFertilizer then
        let quantity := JSNum.mul (landAreaNumber user) fert.ratePerHectare
        some { key := fert.id,
               quantity := quantity,
               total := (toFixed quantity 2).map
                 (fun t => "Total Required: " ++ t ++ " " ++ fert.unit) }
      else none)
  else []

/-! ## Session operations as a transition system -/

/-- The events that touch the persisted session: the two writers of `auth.js` and
the two handlers of the response interceptor. -/
inductive SessionOp where
  | setAuthToken (token : String) (user : JSVal)
  | logout
  | responseFulfilled (response : Response)
  | responseRejected (error : AxiosError)

/-- The effect of one session operation on the browser. -/
def SessionOp.apply (J : JSONBuiltin) (w : Browser) : SessionOp → Browser
  | .setAuthToken token user =>
    { w with localStorage := FosFrontend.setAuthToken J token user w.localStorage }
  | .logout => { w with localStorage := FosFrontend.logout w.localStorage }
  | .responseFulfilled _ => w
  | .responseRejected error => (FosFrontend.responseRejected error w).1

/-- The browser after a sequence of session operations, from empty storage. -/
def runSessionOps (J : JSONBuiltin) (href : String) (ops : List SessionOp) : Browser :=
  ops.foldl (SessionOp.apply J) { localStorage := [], href := href }

/-- The token entry is present exactly when the user entry is. -/
def SessionPaired (w : Browser) : Prop :=
  (w.localStorage.getItem "token").isSome = (w.localStorage.getItem "user").isSome

/-- The two roles of the application. -/
inductive Role where
  | farmer
  | admin
  deriving DecidableEq, Repr

/-- The `userType` string of a role. -/
def Role.name : Role → String
  | .farmer => "farmer"
  | .admin => "admin"

/-! ## Example data -/

/-- A farmer with 2.5 hectares. -/
def exampleProfile : UserProfile :=
  { id := "u1", fullName := "Jane Farmer", phoneNumber := "0788000000",
    userType := "farmer", landArea := some (.fin false 5 (-1)) }

/-- An administrator. -/
def exampleAdminProfile : UserProfile :=
  { id := "a1", fullName := "Site Admin", phoneNumber := "25078815000",
    userType := "admin", landArea := none }

/-- The JSON text of `exampleProfile`. -/
def exampleProfileText : String :=
  "\x7b\"id\":\"u1\",\"fullName\":\"Jane Farmer\",\"phoneNumber\":\"0788000000\"," ++
  "\"userType\":\"farmer\",\"landArea\":2.5\x7d"

/-- A table of the built-in `JSON` on the one document the examples store. -/
def exampleJSON : JSONBuiltin :=
  { stringify := fun v =>
      match v with
      | .obj _ => some exampleProfileText
      | _ => none,
    parse := fun text =>
      if text = exampleProfileText then .ok exampleProfile.toJS
      else .error "SyntaxError" }

/-- A request for the admin metrics. -/
def exampleConfig : RequestConfig :=
  { url := "/admin/metrics", method := "get",
    baseURL := "https://fos-backend-8xu6.onrender.com",
    headers := [("Content-Type", "application/json")], params := [], data := .undefined }

/-- A 401 answer to the metrics request. -/
def exampleUnauthorized : AxiosError :=
  { message := "Request failed with status code 401", config := exampleConfig,
    response := some { status := 401, data := .null } }

/-! ## Strings and truthiness as JavaScript sees them -/

/-- UTF-16 code units of a character: two for a character beyond the basic plane. -/
def utf16Units (c : Char) : Nat :=
  if c.toNat < 65536 then 1 else 2

/-- The `length` of a string: its number of UTF-16 code units. -/
def jsLength (s : String) : Nat :=
  (s.data.map utf16Units).sum

/-- The characters `trim` and `parseFloat` strip: ECMAScript WhiteSpace and
LineTerminator. -/
def isJSWhitespace (c : Char) : Bool :=
  decide (c.toNat ∈ [9, 10, 11, 12, 13, 32, 160, 5760, 8232, 8233, 8239, 8287, 12288, 65279])
    || (decide (8192 ≤ c.toNat) && decide (c.toNat ≤ 8202))

/-- Method `String.prototype.trim`. -/
def jsTrim (s : String) : String :=
  String.mk (((s.data.dropWhile isJSWhitespace).reverse.dropWhile isJSWhitespace).reverse)


/-- ToBoolean. -/
def JSVal.truthy : JSVal → Bool
  | .undefined => false
  | .null => false
  | .bool b => b
  | .num n => !(n.isNaN || n.isZero)
  | .str s => truthyStr s
  | .arr _ => true
  | .obj _ => true

/-- The operator `a || b`. -/
def jsOr (a b : JSVal) : JSVal :=
  if a.truthy then a else b

/-! ## The global `parseFloat` -/

/-- A decimal digit. -/
def isDecimalDigit (c : Char) : Bool :=
  decide (48 ≤ c.toNat) && decide (c.toNat ≤ 57)

/-- The value of a run of decimal digits. -/
def digitsValue (ds : List Char) : Nat :=
  ds.foldl (fun n c => 10 * n + (c.toNat - 48)) 0

/-- The value of the ExponentPart that starts the text, `0` when there is none: an
`e` or `E`, an optional sign and at least one digit. -/
def parseExponent (cs : List Char) : Int :=
  match cs with
  | [] => 0
  | c :: rest =>
    if c = 'e' || c = 'E' then
      match rest with
      | '+' :: r =>
        if (r.takeWhile isDecimalDigit).isEmpty then 0
        else (digitsValue (r.takeWhile isDecimalDigit) : Int)
      | '-' :: r =>
        if (r.takeWhile isDecimalDigit).isEmpty then 0
        else -(digitsValue (r.takeWhile isDecimalDigit) : Int)
      | r =>
        if (r.takeWhile isDecimalDigit).isEmpty then 0
        else (digitsValue (r.takeWhile isDecimalDigit) : Int)
    else 0

/-- The Number of the longest StrUnsignedDecimalLiteral that starts the text, with
sign `neg`; `NaN` when no prefix is one. -/
def parseUnsignedDecimal (neg : Bool) (cs : List Char) : JSNum :=
  if "Infinity".data.isPrefixOf cs then .inf neg
  else
    let intDigits := cs.takeWhile isDecimalDigit
    let rest := cs.dropWhile isDecimalDigit
    let fracDigits :=
      match rest with
      | '.' :: r => r.takeWhile isDecimalDigit
      | _ => []
    let afterFrac :=
      match rest with
      | '.' :: r => r.dropWhile isDecimalDigit
      | _ => rest
    if intDigits.isEmpty && fracDigits.isEmpty then .nan
    else
      JSNum.ofDecimal neg (digitsValue (intDigits ++ fracDigits))
        (parseExponent afterFrac - (fracDigits.length : Int))

/-- The global `parseFloat` on a string: leading white space is skipped, the longest
prefix that is a StrDecimalLiteral is read, the rest is ignored. -/
def parseFloat (s : String) : JSNum :=
  match s.data.dropWhile isJSWhitespace with
  | '+' :: r => parseUnsignedDecimal false r
  | '-' :: r => parseUnsignedDecimal true r
  | r => parseUnsignedDecimal false r

/-! ## The built-in `JSON` -/

namespace JSON

/-- The character `"`. -/
def quote : Char := Char.ofNat 34

/-- The character `\`. -/
def backslash : Char := Char.ofNat 92

/-- The character that opens an object. -/
def openBrace : Char := Char.ofNat 123

/-- The character that closes an object. -/
def closeBrace : Char := Char.ofNat 125

/-- A hexadecimal digit, in lower case. -/
def hexDigit (d : Nat) : Char :=
  if d < 10 then Char.ofNat (48 + d) else Char.ofNat (87 + d)

/-- The value of a hexadecimal digit. -/
def hexValue (c : Char) : Option Nat :=
  if 48 ≤ c.toNat ∧ c.toNat ≤ 57 then some (c.toNat - 48)
  else if 97 ≤ c.toNat ∧ c.toNat ≤ 102 then some (c.toNat - 87)
  else if 65 ≤ c.toNat ∧ c.toNat ≤ 70 then some (c.toNat - 55)
  else none

/-- The operation `QuoteJSONString` on one code point. -/
def quoteChar (c : Char) : List Char :=
  if c.toNat = 8 then [backslash, 'b']
  else if c.toNat = 9 then [backslash, 't']
  else if c.toNat = 10 then [backslash, 'n']
  else if c.toNat = 12 then [backslash, 'f']
  else if c.toNat = 13 then [backslash, 'r']
  else if c.toNat = 34 then [backslash, quote]
  else if c.toNat = 92 then [backslash, backslash]
  else if c.toNat < 32 then
    [backslash, 'u', '0', '0', hexDigit (c.toNat / 16), hexDigit (c.toNat % 16)]
  else [c]

/-- The characters between the quotes of `QuoteJSONString`. -/
def quoteBody (cs : List Char) : List Char :=
  match cs with
  | [] => []
  | c :: rest => quoteChar c ++ quoteBody rest

/-- The operation `QuoteJSONString`. -/
def quoteJSONString (s : String) : List Char :=
  quote :: (quoteBody s.data ++ [quote])

mutual
/-- The operation `SerializeJSONProperty` without replacer and without indentation;
`none` is `undefined`. -/
def serialize : JSVal → Option (List Char)
  | .undefined => none
  | .null => some "null".data
  | .bool b => some (if b then "true".data else "false".data)
  | .num n => some (if (JSNum.normalize n).isFinite then JSNum.numberToString n else "null".data)
  | .str s => some (quoteJSONString s)
  | .arr items => some ('[' :: (serializeElements items ++ [']']))
  | .obj fields => some (openBrace :: (serializeMembers fields true ++ [closeBrace]))
/-- The elements of an array, separated by commas; `undefined` is written `null`. -/
def serializeElements : List JSVal → List Char
  | [] => []
  | [v] => (serialize v).getD "null".data
  | v :: w :: rest => (serialize v).getD "null".data ++ ',' :: serializeElements (w :: rest)
/-- The members of an object, separated by commas; a property whose value is
`undefined` is left out. `first` tells that no member has been written yet. -/
def serializeMembers : List (String × JSVal) → Bool → List Char
  | [], _ => []
  | (key, v) :: rest, first =>
    match serialize v with
    | some text =>
      (if first then [] else [',']) ++ quoteJSONString key ++ ':' :: text ++
        serializeMembers rest false
    | none => serializeMembers rest first
end

/-- The function `JSON.stringify(value)`; `none` is `undefined`. -/
def stringify (v : JSVal) : Option String :=
  (serialize v).map String.mk

/-- JSON white space. -/
def isWhitespace (c : Char) : Bool :=
  decide (c.toNat = 9) || decide (c.toNat = 10) || decide (c.toNat = 13) ||
    decide (c.toNat = 32)

/-- The rest of the text after leading white space. -/
def skipWhitespace (cs : List Char) : List Char :=
  cs.dropWhile isWhitespace

/-- The character a single-character escape stands for. -/
def unescape (c : Char) : Option Char :=
  if c = quote then some quote
  else if c = backslash then some backslash
  else if c = '/' then some '/'
  else if c = 'b' then some (Char.ofNat 8)
  else if c = 'f' then some (Char.ofNat 12)
  else if c = 'n' then some (Char.ofNat 10)
  else if c = 'r' then some (Char.ofNat 13)
  else if c = 't' then some (Char.ofNat 9)
  else none

/-- The code unit of four hexadecimal digits. -/
def hex4 (a b c d : Char) : Option Nat :=
  match hexValue a, hexValue b, hexValue c, hexValue d with
  | some x, some y, some z, some w => some (((x * 16 + y) * 16 + z) * 16 + w)
  | _, _, _, _ => none

/-- The characters of a JSON string after its opening quote, up to the closing one:
the string value and the rest of the text. A `\u` escape of a high surrogate joins
the low one that follows it; a surrogate on its own has no counterpart in `String`
and is reported as an error. -/
def parseStringBody : Nat → List Char → List Char → Except String (String × List Char)
  | 0, _, _ => .error "SyntaxError"
  | fuel + 1, cs, acc =>
    match cs with
    | [] => .error "SyntaxError"
    | c :: rest =>
      if c = quote then .ok (String.mk acc, rest)
      else if c = backslash then
        match rest with
        | [] => .error "SyntaxError"
        | d :: rest1 =>
          if d = 'u' then
            match rest1 with
            | h1 :: h2 :: h3 :: h4 :: rest2 =>
              match hex4 h1 h2 h3 h4 with
              | none => .error "SyntaxError"
              | some code =>
                if 55296 ≤ code ∧ code < 56320 then
                  match rest2 with
                  | b :: u :: l1 :: l2 :: l3 :: l4 :: rest3 =>
                    if b = backslash ∧ u = 'u' then
                      match hex4 l1 l2 l3 l4 with
                      | none => .error "SyntaxError"
                      | some low =>
                        if 56320 ≤ low ∧ low < 57344 then
                          parseStringBody fuel rest3
                            (acc ++ [Char.ofNat (65536 + (code - 55296) * 1024 + (low - 56320))])
                        else .error "unpaired surrogate"
                    else .error "unpaired surrogate"
                  | _ => .error "unpaired surrogate"
                else if 56320 ≤ code ∧ code < 57344 then .error "unpaired surrogate"
                else parseStringBody fuel rest2 (acc ++ [Char.ofNat code])
            | _ => .error "SyntaxError"
          else
            match unescape d with
            | some ch => parseStringBody fuel rest1 (acc ++ [ch])
            | none => .error "SyntaxError"
      else if c.toNat < 32 then .error "SyntaxError"
      else parseStringBody fuel rest (acc ++ [c])

/-- The exponent part at the head of the text: its value and the rest; `none` when
an `e` is not followed by digits. -/
def parseExponentPart (cs : List Char) : Option (Int × List Char) :=
  match cs with
  | c :: rest =>
    if c = 'e' ∨ c = 'E' then
      match rest with
      | '+' :: r =>
        if (r.takeWhile isDecimalDigit).isEmpty then none
        else some ((digitsValue (r.takeWhile isDecimalDigit) : Int), r.dropWhile isDecimalDigit)
      | '-' :: r =>
        if (r.takeWhile isDecimalDigit).isEmpty then none
        else some (-(digitsValue (r.takeWhile isDecimalDigit) : Int), r.dropWhile isDecimalDigit)
      | r =>
        if (r.takeWhile isDecimalDigit).isEmpty then none
        else some ((digitsValue (r.takeWhile isDecimalDigit) : Int), r.dropWhile isDecimalDigit)
    else some (0, cs)
  | [] => some (0, [])

/-- The digits of a JSON number after its sign: the Number and the rest of the text;
`none` when the text does not start with a number. -/
def parseUnsignedNumber (neg : Bool) (cs : List Char) : Option (JSNum × List Char) :=
  let intDigits := cs.takeWhile isDecimalDigit
  let rest := cs.dropWhile isDecimalDigit
  if intDigits.isEmpty then none
  else if 1 < intDigits.length ∧ intDigits.head? = some '0' then none
  else
    match rest with
    | '.' :: r =>
      let fracDigits := r.takeWhile isDecimalDigit
      if fracDigits.isEmpty then none
      else
        match parseExponentPart (r.dropWhile isDecimalDigit) with
        | some (ex, rest1) =>
          some (JSNum.ofDecimal neg (digitsValue (intDigits ++ fracDigits))
            (ex - (fracDigits.length : Int)), rest1)
        | none => none
    | _ =>
      match parseExponentPart rest with
      | some (ex, rest1) => some (JSNum.ofDecimal neg (digitsValue intDigits) ex, rest1)
      | none => none

/-- A JSON number at the head of the text. -/
def parseNumber (cs : List Char) : Option (JSNum × List Char) :=
  match cs with
  | '-' :: r => parseUnsignedNumber true r
  | r => parseUnsignedNumber false r

/-- The index of a property key that is an array index: the canonical decimal of a
natural number below `2^32 - 1`. -/
def arrayIndex (key : String) : Option Nat :=
  if key.data.all isDecimalDigit ∧ ¬ key.data.isEmpty ∧
      decimalRepr (digitsValue key.data) = key.data ∧ digitsValue key.data < 4294967295 then
    some (digitsValue key.data)
  else none

/-- Whether a property with key `key` comes before the property with key `other` that
was created earlier: array indices come first, in ascending order. -/
def keyBefore (key other : String) : Bool :=
  match arrayIndex key, arrayIndex other with
  | some i, some j => decide (i < j)
  | some _, none => true
  | none, _ => false

/-- A new property at its place in the order of the own property keys. -/
def insertField (fields : List (String × JSVal)) (key : String) (v : JSVal) :
    List (String × JSVal) :=
  match fields with
  | [] => [(key, v)]
  | (other, w) :: rest =>
    if keyBefore key other then (key, v) :: (other, w) :: rest
    else (other, w) :: insertField rest key v

/-- The operation `CreateDataProperty` on the fields of an object: the value of an
existing property is replaced where the property stands, a new property takes its
place in the order of the keys. -/
def setField (fields : List (String × JSVal)) (key : String) (v : JSVal) :
    List (String × JSVal) :=
  if (fields.lookup key).isSome then
    fields.map (fun kv => if kv.1 = key then (key, v) else kv)
  else insertField fields key v

/-- The elements of an array from the first one on, with the closing bracket. -/
def parseElements (parseValue : List Char → Except String (JSVal × List Char)) :
    Nat → List Char → List JSVal → Except String (JSVal × List Char)
  | 0, _, _ => .error "SyntaxError"
  | fuel + 1, cs, acc =>
    match parseValue cs with
    | .error err => .error err
    | .ok (v, rest) =>
      match skipWhitespace rest with
      | ',' :: rest1 => parseElements parseValue fuel rest1 (acc ++ [v])
      | ']' :: rest1 => .ok (.arr (acc ++ [v]), rest1)
      | _ => .error "SyntaxError"

/-- The members of an object from the first one on, with the closing brace. -/
def parseMembers (parseValue : List Char → Except String (JSVal × List Char)) :
    Nat → List Char → List (String × JSVal) → Except String (JSVal × List Char)
  | 0, _, _ => .error "SyntaxError"
  | fuel + 1, cs, acc =>
    match skipWhitespace cs with
    | c :: rest =>
      if c = quote then
        match parseStringBody rest.length rest [] with
        | .error err => .error err
        | .ok (key, rest1) =>
          match skipWhitespace rest1 with
          | ':' :: rest2 =>
            match parseValue rest2 with
            | .error err => .error err
            | .ok (v, rest3) =>
              match skipWhitespace rest3 with
              | d :: rest4 =>
                if d = ',' then parseMembers parseValue fuel rest4 (setField acc key v)
                else if d = closeBrace then .ok (.obj (setField acc key v), rest4)
                else .error "SyntaxError"
              | [] => .error "SyntaxError"
          | _ => .error "SyntaxError"
      else .error "SyntaxError"
    | [] => .error "SyntaxError"

/-- A JSON value at the head of the text, after white space: the value and the rest
of the text. `fuel` bounds the nesting and the number of members and elements. -/
def parseValue : Nat → List Char → Except String (JSVal × List Char)
  | 0, _ => .error "SyntaxError"
  | fuel + 1, cs =>
    match skipWhitespace cs with
    | [] => .error "SyntaxError"
    | c :: rest =>
      if c = openBrace then
        match skipWhitespace rest with
        | d :: rest1 =>
          if d = closeBrace then .ok (.obj [], rest1)
          else parseMembers (parseValue fuel) fuel rest []
        | [] => .error "SyntaxError"
      else if c = '[' then
        match skipWhitespace rest with
        | d :: rest1 =>
          if d = ']' then .ok (.arr [], rest1)
          else parseElements (parseValue fuel) fuel rest []
        | [] => .error "SyntaxError"
      else if c = quote then
        match parseStringBody rest.length rest [] with
        | .ok (s, rest1) => .ok (.str s, rest1)
        | .error err => .error err
      else if "true".data.isPrefixOf (c :: rest) then .ok (.bool true, (c :: rest).drop 4)
      else if "false".data.isPrefixOf (c :: rest) then .ok (.bool false, (c :: rest).drop 5)
      else if "null".data.isPrefixOf (c :: rest) then .ok (.null, (c :: rest).drop 4)
      else
        match parseNumber (c :: rest) with
        | some (x, rest1) => .ok (.num x, rest1)
        | none => .error "SyntaxError"

/-- The function `JSON.parse(text)` without reviver; a `SyntaxError` is an error. -/
def parse (text : String) : Except String JSVal :=
  match parseValue (text.data.length + 1) text.data with
  | .error err => .error err
  | .ok (v, rest) =>
    if (skipWhitespace rest).isEmpty then .ok v else .error "SyntaxError"

end JSON

/-- The built-in `JSON` object of the platform. -/
def builtinJSON : JSONBuiltin :=
  { stringify := JSON.stringify, parse := JSON.parse }

/-- The text ends a number: what follows is neither a digit, nor a point, nor an
exponent mark. -/
def JSON.NumberEnd (rest : List Char) : Prop :=
  ∀ c, rest.head? = some c →
    isDecimalDigit c = false ∧ c ≠ '.' ∧ c ≠ 'e' ∧ c ≠ 'E'

/-- The text of the members of a profile after `userType`. -/
def JSON.profileTail (land : Option JSNum) : List Char :=
  match land with
  | none => [JSON.closeBrace]
  | some a =>
    ',' :: (JSON.quoteJSONString "landArea" ++ ':' ::
      (JSNum.numberToString a ++ [JSON.closeBrace]))

/-- The text of a profile. -/
def JSON.profileText (u : UserProfile) : List Char :=
  JSON.openBrace :: (JSON.quoteJSONString "id" ++ ':' :: (JSON.quoteJSONString u.id ++
    ',' :: (JSON.quoteJSONString "fullName" ++ ':' :: (JSON.quoteJSONString u.fullName ++
    ',' :: (JSON.quoteJSONString "phoneNumber" ++ ':' :: (JSON.quoteJSONString u.phoneNumber ++
    ',' :: (JSON.quoteJSONString "userType" ++ ':' :: (JSON.quoteJSONString u.userType ++
    JSON.profileTail u.landArea))))))))

/-! ## `src/services/api.js`: the endpoints -/

/-- The base URL the client falls back to when `VITE_API_URL` is not set. -/
def API_BASE_URL : String := "https://fos-backend-8xu6.onrender.com"

/-- The configuration of `api.post(url, data)` as it enters the interceptors. -/
def api.post (url : String) (data : JSVal) : RequestConfig :=
  { url := url, method := "post", baseURL := API_BASE_URL,
    headers := [("Content-Type", "application/json")], params := [], data := data }

/-- The configuration of `api.put(url, data)`. -/
def api.put (url : String) (data : JSVal) : RequestConfig :=
  { url := url, method := "put", baseURL := API_BASE_URL,
    headers := [("Content-Type", "application/json")], params := [], data := data }

/-- The configuration of `api.get(url, { params })`. -/
def api.get (url : String) (params : List (String × JSVal)) : RequestConfig :=
  { url := url, method := "get", baseURL := API_BASE_URL,
    headers := [("Content-Type", "application/json")], params := params,
    data := .undefined }

namespace authAPI

def registerFarmer (data : JSVal) : RequestConfig :=
  api.post "/auth/register-farmer" data

def verifyOTP (phoneNumber otp : String) : RequestConfig :=
  api.post "/auth/verify-otp" (.obj [("phoneNumber", .str phoneNumber), ("otp", .str otp)])

def requestOTP (phoneNumber : String) : RequestConfig :=
  api.post "/auth/request-otp" (.obj [("phoneNumber", .str phoneNumber)])

def adminLogin (phoneNumber otp : String) : RequestConfig :=
  api.post "/auth/admin-login" (.obj [("phoneNumber", .str phoneNumber), ("otp", .str otp)])

end authAPI

namespace farmerAPI

def submitOrder (fertilizerId : String) : RequestConfig :=
  api.post "/farmer/submit-order" (.obj [("fertilizerId", .str fertilizerId)])

def getMyOrders : RequestConfig := api.get "/farmer/my-orders" []

def getFertilizers : RequestConfig := api.get "/farmer/fertilizers" []

def getProfile : RequestConfig := api.get "/farmer/profile" []

end farmerAPI

namespace adminAPI

def getOrders (status : String) (page : Nat) : RequestConfig :=
  api.get "/admin/orders" [("status", .str status), ("page", .num (.fin false page 0))]

def approveOrder (orderId remarks : String) : RequestConfig :=
  api.post ("/admin/approve-order/" ++ orderId) (.obj [("remarks", .str remarks)])

def declineOrder (orderId remarks : String) : RequestConfig :=
  api.post ("/admin/decline-order/" ++ orderId) (.obj [("remarks", .str remarks)])

def getMetrics : RequestConfig := api.get "/admin/metrics" []

def getFertilizers : RequestConfig := api.get "/admin/fertilizers" []

def addFertilizer (data : JSVal) : RequestConfig :=
  api.post "/admin/fertilizers" data

def updateFertilizer (fertilizerId : String) (data : JSVal) : RequestConfig :=
  api.put ("/admin/fertilizers/" ++ fertilizerId) data

end adminAPI

/-- The expression `err.response?.data?.message`. -/
def responseMessage (err : AxiosError) : JSVal :=
  match err.response with
  | some response => response.data.optChain "message"
  | none => .undefined

/-! ## Event handlers

A handler is modelled phase by phase. The phase that carries the name of the handler
runs from the event to the first `await` (or to an early `return`); the phase
`...Resolved` is the rest of the `try` block followed by `finally`, run when the
awaited call succeeds, and `...Rejected` is the `catch` block followed by `finally`.
Every phase maps the component state and the browser to an `Outcome`. -/

/-- What a handler phase leaves behind: the component state after its `set...`
calls, the browser, the requests it passed to the API client, the route it handed
to `navigate`, and the delays of the callbacks it scheduled with `setTimeout`. -/
structure Outcome (σ : Type) where
  state : σ
  browser : Browser
  requests : List RequestConfig
  navigate : Option String
  timeouts : List Nat

/-- A phase that only sets state. -/
def Outcome.stay {σ : Type} (st : σ) (w : Browser) : Outcome σ :=
  { state := st, browser := w, requests := [], navigate := none, timeouts := [] }

/-- A phase that sets state and issues requests. -/
def Outcome.send {σ : Type} (st : σ) (w : Browser) (requests : List RequestConfig) :
    Outcome σ :=
  { state := st, browser := w, requests := requests, navigate := none, timeouts := [] }

/-- The `{ token, user }` of a successful verify-OTP or admin-login response;
`token` is `none` when the response carries none. -/
structure SessionPayload where
  token : Option String
  user : JSVal

/-- The data of a successful register-farmer response. -/
structure RegisterPayload where
  token : Option String
  user : JSVal
  otp : JSVal

/-- An order as the dashboards list it. -/
structure Order where
  id : String
  farmerName : String
  farmerPhone : String
  landArea : JSNum
  fertilizer : String
  quantity : JSNum
  ratePerUnit : JSNum
  status : String
  remarks : Option String
  createdAt : String
  deriving DecidableEq, Repr

/-! ## `src/pages/farmer/FarmerLogin.jsx` -/

namespace FarmerLogin

/-- The values of `step`. -/
inductive Step where
  | phone
  | otp
  deriving DecidableEq, Repr

/-- The component state. -/
structure State where
  step : Step
  phoneNumber : String
  otp : String
  generatedOtp : JSVal
  error : JSVal
  loading : Bool

/-- The state on mount. -/
def initial : State :=
  { step := .phone, phoneNumber := "", otp := "", generatedOtp := .str "",
    error := .str "", loading := false }

def handlePhoneSubmit (st : State) (w : Browser) : Outcome State :=
  let st1 := { st with error := .str "" }
  if !truthyStr st.phoneNumber || decide (jsLength st.phoneNumber < 10) then
    Outcome.stay { st1 with error := .str "Please enter a valid phone number" } w
  else
    Outcome.send { st1 with loading := true } w [authAPI.requestOTP st.phoneNumber]

/-- The request-OTP call succeeded with `response.data.otp = otp`. -/
def handlePhoneSubmitResolved (st : State) (w : Browser) (otp : JSVal) : Outcome State :=
  Outcome.stay { st with generatedOtp := otp, step := .otp, error := .str "", loading := false } w

/-- The request-OTP call failed. -/
def handlePhoneSubmitRejected (st : State) (w : Browser) (err : AxiosError) : Outcome State :=
  Outcome.stay
    { st with error := jsOr (responseMessage err) (.str "Failed to send OTP"),
              loading := false } w

def handleOTPSubmit (st : State) (w : Browser) : Outcome State :=
  let st1 := { st with error := .str "" }
  if !truthyStr st.otp || decide (jsLength st.otp < 4) then
    Outcome.stay { st1 with error := .str "Please enter a valid OTP" } w
  else
    Outcome.send { st1 with loading := true } w [authAPI.verifyOTP st.phoneNumber st.otp]

/-- The verify-OTP call succeeded. -/
def handleOTPSubmitResolved (J : JSONBuiltin) (st : State) (w : Browser)
    (payload : SessionPayload) : Outcome State :=
  { state := { st with loading := false },
    browser :=
      { w with localStorage :=
          setAuthToken J (storedText payload.token) payload.user w.localStorage },
    requests := [], navigate := some "/farmer-dashboard", timeouts := [] }

/-- The verify-OTP call failed. -/
def handleOTPSubmitRejected (st : State) (w : Browser) (err : AxiosError) : Outcome State :=
  Outcome.stay
    { st with error := jsOr (responseMessage err) (.str "OTP verification failed"),
              loading := false } w

/-- The `onClick` of the Back button. -/
def handleBack (st : State) (w : Browser) : Outcome State :=
  Outcome.stay { st with step := .phone, otp := "", generatedOtp := .str "" } w

end FarmerLogin

/-! ## `src/pages/farmer/FarmerRegister.jsx` -/

namespace FarmerRegister

/-- The values of `step`. -/
inductive Step where
  | details
  | otp
  deriving DecidableEq, Repr

/-- The object held in `formData`; every field is the text of an input. -/
structure FormData where
  phoneNumber : String
  fullName : String
  landArea : String
  email : String
  deriving DecidableEq, Repr

/-- The form data as the request body. -/
def FormData.toJS (d : FormData) : JSVal :=
  .obj [("phoneNumber", .str d.phoneNumber), ("fullName", .str d.fullName),
        ("landArea", .str d.landArea), ("email", .str d.email)]

/-- The component state. -/
structure State where
  step : Step
  formData : FormData
  otp : String
  generatedOtp : JSVal
  error : JSVal
  loading : Bool

/-- The state on mount. -/
def initial : State :=
  { step := .details,
    formData := { phoneNumber := "", fullName := "", landArea := "", email := "" },
    otp := "", generatedOtp := .str "", error := .str "", loading := false }

/-- The `onChange` of the four inputs, whose names are the four keys of `formData`. -/
def handleInputChange (st : State) (name value : String) : State :=
  if name = "phoneNumber" then { st with formData := { st.formData with phoneNumber := value } }
  else if name = "fullName" then { st with formData := { st.formData with fullName := value } }
  else if name = "landArea" then { st with formData := { st.formData with landArea := value } }
  else if name = "email" then { st with formData := { st.formData with email := value } }
  else st

def handleRegister (st : State) (w : Browser) : Outcome State :=
  let st1 := { st with error := .str "" }
  if !truthyStr st.formData.phoneNumber || !truthyStr st.formData.fullName
      || !truthyStr st.formData.landArea then
    Outcome.stay
      { st1 with error := .str "Phone number, name, and land area are required" } w
  else if (parseFloat st.formData.landArea).isNaN
      || (parseFloat st.formData.landArea).leZero then
    Outcome.stay { st1 with error := .str "Please enter a valid land area in hectares" } w
  else
    Outcome.send { st1 with loading := true } w [authAPI.registerFarmer st.formData.toJS]

/-- The register-farmer call succeeded. -/
def handleRegisterResolved (J : JSONBuiltin) (st : State) (w : Browser)
    (payload : RegisterPayload) : Outcome State :=
  if truthyOpt payload.token then
    { state := { st with error := .str "", loading := false },
      browser :=
        { w with localStorage :=
            setAuthToken J (storedText payload.token) payload.user w.localStorage },
      requests := [], navigate := some "/farmer-dashboard", timeouts := [] }
  else
    Outcome.stay
      { st with generatedOtp := payload.otp, step := .otp, error := .str "",
                loading := false } w

/-- The register-farmer call failed. -/
def handleRegisterRejected (st : State) (w : Browser) (err : AxiosError) : Outcome State :=
  Outcome.stay
    { st with error := jsOr (responseMessage err) (.str "Registration failed"),
              loading := false } w

def handleOTPSubmit (st : State) (w : Browser) : Outcome State :=
  let st1 := { st with error := .str "" }
  if !truthyStr st.otp || decide (jsLength st.otp < 4) then
    Outcome.stay { st1 with error := .str "Please enter a valid OTP" } w
  else
    Outcome.send { st1 with loading := true } w
      [authAPI.verifyOTP st.formData.phoneNumber st.otp]

/-- The verify-OTP call succeeded. -/
def handleOTPSubmitResolved (J : JSONBuiltin) (st : State) (w : Browser)
    (payload : SessionPayload) : Outcome State :=
  { state := { st with loading := false },
    browser :=
      { w with localStorage :=
          setAuthToken J (storedText payload.token) payload.user w.localStorage },
    requests := [], navigate := some "/farmer-dashboard", timeouts := [] }

/-- The verify-OTP call failed. -/
def handleOTPSubmitRejected (st : State) (w : Browser) (err : AxiosError) : Outcome State :=
  Outcome.stay
    { st with error := jsOr (responseMessage err) (.str "OTP verification failed"),
              loading := false } w

/-- The `onClick` of the Back button. -/
def handleBack (st : State) (w : Browser) : Outcome State :=
  Outcome.stay { st with step := .details, otp := "", generatedOtp := .str "" } w

end FarmerRegister

/-! ## `src/pages/admin/AdminLogin.jsx` -/

namespace AdminLogin

/-- The component state. -/
structure State where
  phoneNumber : String
  otp : String
  error : JSVal
  loading : Bool

/-- The state on mount. -/
def initial : State :=
  { phoneNumber := "", otp := "", error := .str "", loading := false }

def handleSubmit (st : State) (w : Browser) : Outcome State :=
  let st1 := { st with error := .str "" }
  if !truthyStr st.phoneNumber || !truthyStr st.otp then
    Outcome.stay { st1 with error := .str "Phone number and OTP are required" } w
  else
    Outcome.send { st1 with loading := true } w [authAPI.adminLogin st.phoneNumber st.otp]

/-- The admin-login call succeeded. -/
def handleSubmitResolved (J : JSONBuiltin) (st : State) (w : Browser)
    (payload : SessionPayload) : Outcome State :=
  { state := { st with loading := false },
    browser :=
      { w with localStorage :=
          setAuthToken J (storedText payload.token) payload.user w.localStorage },
    requests := [], navigate := some "/admin-dashboard", timeouts := [] }

/-- The admin-login call failed. -/
def handleSubmitRejected (st : State) (w : Browser) (err : AxiosError) : Outcome State :=
  Outcome.stay
    { st with error := jsOr (responseMessage err) (.str "Invalid credentials"),
              loading := false } w

end AdminLogin

/-! ## `src/pages/farmer/FarmerDashboard.jsx`: state and handlers -/

namespace FarmerDashboard

/-- The values of `tab`: `'orders'` and `'new-order'`. -/
inductive Tab where
  | orders
  | newOrder
  deriving DecidableEq, Repr

/-- The component state. -/
structure State where
  user : Option UserProfile
  tab : Tab
  orders : List Order
  fertilizers : List Fertilizer
  selectedFertilizer : String
  loading : Bool
  error : JSVal
  success : String

/-- The state on mount. -/
def initial : State :=
  { user := none, tab := .orders, orders := [], fertilizers := [],
    selectedFertilizer := "", loading := false, error := .str "", success := "" }

def fetchOrders (st : State) (w : Browser) : Outcome State :=
  Outcome.send { st with loading := true } w [farmerAPI.getMyOrders]

/-- The my-orders call succeeded with `response.data.orders = orders`. -/
def fetchOrdersResolved (st : State) (w : Browser) (orders : List Order) : Outcome State :=
  Outcome.stay { st with orders := orders, error := .str "", loading := false } w

/-- The my-orders call failed. -/
def fetchOrdersRejected (st : State) (w : Browser) (_err : AxiosError) : Outcome State :=
  Outcome.stay { st with error := .str "Failed to fetch orders", loading := false } w

def fetchFertilizers (st : State) (w : Browser) : Outcome State :=
  Outcome.send st w [farmerAPI.getFertilizers]

/-- The fertilizers call succeeded with `response.data.fertilizers = fertilizers`. -/
def fetchFertilizersResolved (st : State) (w : Browser) (fertilizers : List Fertilizer) :
    Outcome State :=
  Outcome.stay { st with fertilizers := fertilizers } w

/-- The fertilizers call failed: the error goes to the console only. -/
def fetchFertilizersRejected (st : State) (w : Browser) (_err : AxiosError) : Outcome State :=
  Outcome.stay st w

def handleSubmitOrder (st : State) (w : Browser) : Outcome State :=
  let st1 := { st with error := .str "", success := "" }
  if !truthyStr st.selectedFertilizer then
    Outcome.stay { st1 with error := .str "Please select a fertilizer" } w
  else
    Outcome.send { st1 with loading := true } w [farmerAPI.submitOrder st.selectedFertilizer]

/-- The submit-order call succeeded; a callback is scheduled after 1500 ms. -/
def handleSubmitOrderResolved (st : State) (w : Browser) : Outcome State :=
  { state := { st with success := "Order submitted successfully!",
                       selectedFertilizer := "", loading := false },
    browser := w, requests := [], navigate := none, timeouts := [1500] }

/-- The submit-order call failed. -/
def handleSubmitOrderRejected (st : State) (w : Browser) (err : AxiosError) : Outcome State :=
  Outcome.stay
    { st with error := jsOr (responseMessage err) (.str "Failed to submit order"),
              loading := false } w

/-- The callback scheduled by a successful submission: back to the orders tab, and
`fetchOrders()` up to its `await`. -/
def submitOrderTimeout (st : State) (w : Browser) : Outcome State :=
  fetchOrders { st with tab := .orders } w

def handleLogout (st : State) (w : Browser) : Outcome State :=
  { state := st, browser := { w with localStorage := logout w.localStorage },
    requests := [], navigate := some "/farmer-login", timeouts := [] }

end FarmerDashboard

/-! ## `src/pages/admin/AdminDashboard.jsx` -/

namespace AdminDashboard

/-- The values of `tab`. -/
inductive Tab where
  | dashboard
  | orders
  | fertilizers
  deriving DecidableEq, Repr

/-- The object held in `newFertilizer`; every field is the text of a form control. -/
structure NewFertilizer where
  name : String
  ratePerHectare : String
  unit : String
  description : String
  deriving DecidableEq, Repr

/-- The form object as the request body. -/
def NewFertilizer.toJS (f : NewFertilizer) : JSVal :=
  .obj [("name", .str f.name), ("ratePerHectare", .str f.ratePerHectare),
        ("unit", .str f.unit), ("description", .str f.description)]

/-- The empty form: `{ name: '', ratePerHectare: '', unit: 'kg', description: '' }`. -/
def NewFertilizer.empty : NewFertilizer :=
  { name := "", ratePerHectare := "", unit := "kg", description := "" }

/-- A catalog entry as the admin lists it. -/
structure FertilizerRecord where
  id : String
  name : String
  ratePerHectare : JSNum
  unit : String
  description : Option String
  isActive : Bool
  updatedAt : String
  deriving DecidableEq, Repr

/-- The component state. -/
structure State where
  user : JSVal
  tab : Tab
  orders : List Order
  fertilizers : List FertilizerRecord
  metrics : JSVal
  selectedOrder : Option Order
  remarks : String
  loading : Bool
  error : JSVal
  success : String
  currentPage : Nat
  filterStatus : String
  newFertilizer : NewFertilizer

/-- The state on mount. -/
def initial : State :=
  { user := .null, tab := .dashboard, orders := [], fertilizers := [], metrics := .null,
    selectedOrder := none, remarks := "", loading := false, error := .str "",
    success := "", currentPage := 1, filterStatus := "",
    newFertilizer := NewFertilizer.empty }

def fetchMetrics (st : State) (w : Browser) : Outcome State :=
  Outcome.send st w [adminAPI.getMetrics]

/-- The metrics call succeeded with `response.data.metrics = metrics`. -/
def fetchMetricsResolved (st : State) (w : Browser) (metrics : JSVal) : Outcome State :=
  Outcome.stay { st with metrics := metrics } w

/-- The metrics call failed: the error goes to the console only. -/
def fetchMetricsRejected (st : State) (w : Browser) (_err : AxiosError) : Outcome State :=
  Outcome.stay st w

/-- The function `fetchOrders` of the render `captured`, run on the current state `st`
up to its `await`: the filter and the page are the ones that render closed over. -/
def fetchOrders (captured st : State) (w : Browser) : Outcome State :=
  Outcome.send { st with loading := true } w
    [adminAPI.getOrders captured.filterStatus captured.currentPage]

/-- The orders call succeeded with `response.data.orders = orders`. -/
def fetchOrdersResolved (st : State) (w : Browser) (orders : List Order) : Outcome State :=
  Outcome.stay { st with orders := orders, error := .str "", loading := false } w

/-- The orders call failed. -/
def fetchOrdersRejected (st : State) (w : Browser) (_err : AxiosError) : Outcome State :=
  Outcome.stay { st with error := .str "Failed to fetch orders", loading := false } w

def fetchFertilizers (st : State) (w : Browser) : Outcome State :=
  Outcome.send st w [adminAPI.getFertilizers]

/-- The fertilizers call succeeded with `response.data.fertilizers = fertilizers`. -/
def fetchFertilizersResolved (st : State) (w : Browser)
    (fertilizers : List FertilizerRecord) : Outcome State :=
  Outcome.stay { st with fertilizers := fertilizers } w

/-- The fertilizers call failed: the error goes to the console only. -/
def fetchFertilizersRejected (st : State) (w : Browser) (_err : AxiosError) : Outcome State :=
  Outcome.stay st w

def handleApproveOrder (st : State) (w : Browser) (orderId : String) : Outcome State :=
  Outcome.send { st with loading := true } w [adminAPI.approveOrder orderId st.remarks]

/-- The rest of the `try` block of `handleApproveOrder` and of `handleDeclineOrder`
after the success message, then `finally`: the dialog is closed, the remarks are
cleared, `fetchOrders()` and `fetchMetrics()` run up to their `await`. -/
def afterReview (captured st : State) (w : Browser) (success : String) : Outcome State :=
  let st1 := { st with success := success, selectedOrder := none, remarks := "" }
  let o1 := fetchOrders captured st1 w
  let o2 := fetchMetrics o1.state o1.browser
  { state := { o2.state with loading := false }, browser := o2.browser,
    requests := o1.requests ++ o2.requests, navigate := none, timeouts := [] }

/-- The approve-order call succeeded; `captured` is the state of the render whose
handler was invoked. -/
def handleApproveOrderResolved (captured st : State) (w : Browser) : Outcome State :=
  afterReview captured st w "Order approved successfully!"

/-- The approve-order call failed. -/
def handleApproveOrderRejected (st : State) (w : Browser) (err : AxiosError) :
    Outcome State :=
  Outcome.stay
    { st with error := jsOr (responseMessage err) (.str "Failed to approve order"),
              loading := false } w

def handleDeclineOrder (st : State) (w : Browser) (orderId : String) : Outcome State :=
  if !truthyStr (jsTrim st.remarks) then
    Outcome.stay { st with error := .str "Please provide remarks for declining" } w
  else
    Outcome.send { st with loading := true } w [adminAPI.declineOrder orderId st.remarks]

/-- The decline-order call succeeded; `captured` is the state of the render whose
handler was invoked. -/
def handleDeclineOrderResolved (captured st : State) (w : Browser) : Outcome State :=
  afterReview captured st w "Order declined successfully!"

/-- The decline-order call failed. -/
def handleDeclineOrderRejected (st : State) (w : Browser) (err : AxiosError) :
    Outcome State :=
  Outcome.stay
    { st with error := jsOr (responseMessage err) (.str "Failed to decline order"),
              loading := false } w

def handleAddFertilizer (st : State) (w : Browser) : Outcome State :=
  let st1 := { st with error := .str "", success := "" }
  if !truthyStr st.newFertilizer.name || !truthyStr st.newFertilizer.ratePerHectare then
    Outcome.stay { st1 with error := .str "Name and rate are required" } w
  else
    Outcome.send { st1 with loading := true } w [adminAPI.addFertilizer st.newFertilizer.toJS]

/-- The add-fertilizer call succeeded. -/
def handleAddFertilizerResolved (st : State) (w : Browser) : Outcome State :=
  let st1 := { st with success := "Fertilizer added successfully!",
                       newFertilizer := NewFertilizer.empty }
  let o1 := fetchFertilizers st1 w
  { state := { o1.state with loading := false }, browser := o1.browser,
    requests := o1.requests, navigate := none, timeouts := [] }

/-- The add-fertilizer call failed. -/
def handleAddFertilizerRejected (st : State) (w : Browser) (err : AxiosError) :
    Outcome State :=
  Outcome.stay
    { st with error := jsOr (responseMessage err) (.str "Failed to add fertilizer"),
              loading := false } w

def handleLogout (st : State) (w : Browser) : Outcome State :=
  { state := st, browser := { w with localStorage := logout w.localStorage },
    requests := [], navigate := some "/admin-login", timeouts := [] }

/-- The `onClick` of a Review button. -/
def handleReview (st : State) (w : Browser) (order : Order) : Outcome State :=
  Outcome.stay { st with selectedOrder := some order } w

/-- The `onClick` of the Cancel button of the dialog. -/
def handleCancel (st : State) (w : Browser) : Outcome State :=
  Outcome.stay { st with selectedOrder := none, remarks := "" } w

/-- The `onChange` of the status filter. -/
def handleFilterChange (st : State) (w : Browser) (value : String) : Outcome State :=
  Outcome.stay { st with filterStatus := value, currentPage := 1 } w

/-- What the Action cell of an order row holds. -/
inductive RowAction where
  | reviewButton
  | resolvedBadge
  deriving DecidableEq, Repr

/-- The Action cell of the row of `order`. -/
def rowAction (order : Order) : RowAction :=
  if order.status = "pending" then .reviewButton else .resolvedBadge

/-- Whether the orders table is rendered: on the orders tab, when not loading and
with at least one order. -/
def ordersTableShown (st : State) : Bool :=
  decide (st.tab = .orders) && !st.loading && !st.orders.isEmpty

/-- The orders for which the view renders a Review button. -/
def reviewButtons (st : State) : List Order :=
  if ordersTableShown st then st.orders.filter (fun order => rowAction order = .reviewButton)
  else []

/-- Whether the review dialog is rendered. -/
def reviewDialogShown (st : State) : Bool :=
  decide (st.tab = .orders) && st.selectedOrder.isSome

end AdminDashboard

/-! ## `src/App.jsx`: which route a location selects -/

/-- Lower case of an ASCII letter; other characters are left as they are. -/
def asciiLower (c : Char) : Char :=
  if 65 ≤ c.toNat ∧ c.toNat ≤ 90 then Char.ofNat (c.toNat + 32) else c

/-- The text without its trailing slashes. -/
def stripTrailingSlashes (cs : List Char) : List Char :=
  (cs.reverse.dropWhile (fun c => c = '/')).reverse

/-- The router's test of a decoded location path against the `path` of a route, for
the patterns a route table without parameters uses: `*` matches every path, any
other pattern matches the paths equal to it up to the case of ASCII letters and
trailing slashes. -/
def matchPath (pattern pathname : String) : Bool :=
  pattern = "*" ||
    stripTrailingSlashes (pathname.data.map asciiLower)
      = stripTrailingSlashes (pattern.data.map asciiLower)

/-- The route of `App` that a location path selects, if any. -/
def resolveRoute (pathname : String) : Option Route :=
  routes.find? (fun r => matchPath r.path pathname)

/-- A rejected admin login: status 400 with a message. -/
def exampleRejectedLogin : AxiosError :=
  { message := "Request failed with status code 400",
    config := authAPI.adminLogin "25078815000" "9999",
    response := some { status := 400, data := .obj [("message", .str "Invalid OTP")] } }

/-- A pending order. -/
def exampleOrder : Order :=
  { id := "o1", farmerName := "Jane Farmer", farmerPhone := "0788000000",
    landArea := .fin false 5 (-1), fertilizer := "Urea",
    quantity := .fin false 100 0, ratePerUnit := .fin false 40 0,
    status := "pending", remarks := none, createdAt := "2024-01-01T00:00:00.000Z" }

/-- The admin dashboard with the review dialog open on the pending `exampleOrder`. -/
def exampleReviewState : AdminDashboard.State :=
  { AdminDashboard.initial with
    tab := .orders, orders := [exampleOrder], selectedOrder := some exampleOrder }

/-- The state after Approve was clicked in `exampleReviewState` and the call
succeeded. -/
def exampleAfterApprove : AdminDashboard.State :=
  (AdminDashboard.handleApproveOrderResolved exampleReviewState
    (AdminDashboard.handleApproveOrder exampleReviewState
      { localStorage := [], href := "/admin-dashboard" } "o1").state
    { localStorage := [], href := "/admin-dashboard" }).state


/-! ## The farmer login as a transition system

The component with its calls in flight. An event is enabled when the control that
raises it is rendered and not disabled, or, for the completion of a call, when that
call is in flight. A failed call passes through the response interceptor before
the `catch` block runs. -/

namespace FarmerLogin

/-- The calls the component awaits. -/
inductive Call where
  | requestOTP
  | verifyOTP
  deriving DecidableEq, Repr

/-- The component, the browser, the calls in flight, every request issued so far
(newest first) and the route handed to `navigate`, after which the component is
gone. -/
structure Config where
  state : State
  browser : Browser
  pending : List Call
  sent : List RequestConfig
  navigated : Option String

/-- The component as mounted on browser `w`. -/
def Config.mounted (w : Browser) : Config :=
  { state := initial, browser := w, pending := [], sent := [], navigated := none }

/-- What can happen to the mounted component. -/
inductive Event where
  | editPhone (value : String)
  | phoneSubmit
  | requestResolved (otp : JSVal)
  | requestRejected (err : AxiosError)
  | editOtp (value : String)
  | otpSubmit
  | verifyResolved (payload : SessionPayload)
  | verifyRejected (err : AxiosError)
  | back
  | dismissError

/-- The configuration after a handler phase with outcome `out`; `call` is the call the
phase awaits when it issued a request. -/
def Config.advance (cfg : Config) (out : Outcome State) (call : Call) : Config :=
  { state := out.state, browser := out.browser,
    pending := if out.requests.isEmpty then cfg.pending else cfg.pending ++ [call],
    sent := out.requests.reverse ++ cfg.sent,
    navigated := out.navigate }

/-- One event. `none` when the event is not enabled: the phone form is rendered at
step `phone`, the OTP form with its Back button at step `otp`; inputs and submit
buttons are disabled while `loading`; the error timer runs while an error is shown. -/
def step (J : JSONBuiltin) (cfg : Config) (ev : Event) : Option Config :=
  if cfg.navigated.isSome then none
  else
    match ev with
    | .editPhone value =>
      if cfg.state.step = .phone ∧ cfg.state.loading = false then
        some { cfg with state := { cfg.state with phoneNumber := value } }
      else none
    | .phoneSubmit =>
      if cfg.state.step = .phone ∧ cfg.state.loading = false then
        some (cfg.advance (handlePhoneSubmit cfg.state cfg.browser) .requestOTP)
      else none
    | .requestResolved otp =>
      if Call.requestOTP ∈ cfg.pending then
        some ({ cfg with pending := cfg.pending.erase .requestOTP }.advance
          (handlePhoneSubmitResolved cfg.state cfg.browser otp) .requestOTP)
      else none
    | .requestRejected err =>
      if Call.requestOTP ∈ cfg.pending then
        some ({ cfg with pending := cfg.pending.erase .requestOTP }.advance
          (handlePhoneSubmitRejected cfg.state (responseRejected err cfg.browser).1 err)
          .requestOTP)
      else none
    | .editOtp value =>
      if cfg.state.step = .otp ∧ cfg.state.loading = false then
        some { cfg with state := { cfg.state with otp := value } }
      else none
    | .otpSubmit =>
      if cfg.state.step = .otp ∧ cfg.state.loading = false then
        some (cfg.advance (handleOTPSubmit cfg.state cfg.browser) .verifyOTP)
      else none
    | .verifyResolved payload =>
      if Call.verifyOTP ∈ cfg.pending then
        some ({ cfg with pending := cfg.pending.erase .verifyOTP }.advance
          (handleOTPSubmitResolved J cfg.state cfg.browser payload) .verifyOTP)
      else none
    | .verifyRejected err =>
      if Call.verifyOTP ∈ cfg.pending then
        some ({ cfg with pending := cfg.pending.erase .verifyOTP }.advance
          (handleOTPSubmitRejected cfg.state (responseRejected err cfg.browser).1 err)
          .verifyOTP)
      else none
    | .back =>
      if cfg.state.step = .otp then
        some (cfg.advance (handleBack cfg.state cfg.browser) .verifyOTP)
      else none
    | .dismissError =>
      if cfg.state.error.truthy then
        some { cfg with state := { cfg.state with error := .str "" } }
      else none

/-- The configuration after a sequence of events, `none` when one was not enabled. -/
def run (J : JSONBuiltin) (cfg : Config) : List Event → Option Config
  | [] => some cfg
  | ev :: rest =>
    match step J cfg ev with
    | some next => run J next rest
    | none => none

/-- The phone number in the body of the most recent request-OTP call. -/
def requestedPhone (sent : List RequestConfig) : Option JSVal :=
  (sent.find? (fun r => r.url = "/auth/request-otp")).map
    (fun r => r.data.getProp "phoneNumber")

end FarmerLogin

namespace FarmerLogin

/-- What holds in every configuration the login reaches: at most one call is in
flight, and then `loading` is set; a request-OTP call is in flight at step `phone`
only; at step `otp`, and while a request-OTP call is in flight, the phone number
has at least 10 code units and is the one of the most recent request-OTP call;
every verify-OTP call issued carried a phone number of at least 10 code units. -/
def Safe (cfg : Config) : Prop :=
  (cfg.pending = [] ∨
    (cfg.state.loading = true ∧
      (cfg.pending = [.requestOTP] ∨ cfg.pending = [.verifyOTP]))) ∧
  (cfg.pending = [.requestOTP] → cfg.state.step = .phone) ∧
  ((cfg.state.step = .otp ∨ cfg.pending = [.requestOTP]) →
    10 ≤ jsLength cfg.state.phoneNumber ∧
    requestedPhone cfg.sent = some (.str cfg.state.phoneNumber)) ∧
  (∀ r ∈ cfg.sent, r.url = "/auth/verify-otp" →
    ∃ phone otp, r = authAPI.verifyOTP phone otp ∧ 10 ≤ jsLength phone)

end FarmerLogin

/-! ## The dashboards as transition systems

As for the login: the component with its calls in flight. The effect that runs on
mount reads `getUser()`; its result is a parameter. The two message timers are
events that are enabled while their message is shown. -/

namespace FarmerDashboard

/-- The calls the component awaits. -/
inductive Call where
  | getMyOrders
  | getFertilizers
  | submitOrder
  deriving DecidableEq, Repr

/-- The component, the browser, the calls in flight, every request issued so far
(newest first), the number of scheduled submission callbacks, and the route handed
to `navigate`, after which the component is gone. -/
structure Config where
  state : State
  browser : Browser
  pending : List Call
  sent : List RequestConfig
  timers : Nat
  navigated : Option String

/-- The configuration after a handler phase with outcome `out`; `calls` are the calls
the phase awaits when it issued requests. -/
def Config.advance (cfg : Config) (out : Outcome State) (calls : List Call) : Config :=
  { state := out.state, browser := out.browser,
    pending := if out.requests.isEmpty then cfg.pending else cfg.pending ++ calls,
    sent := out.requests.reverse ++ cfg.sent,
    timers := cfg.timers + out.timeouts.length,
    navigated := out.navigate }

/-- The component after the effect that runs on mount, where `getUser()` returned
`currentUser` (`none` for `null`): without a user it navigates to the login, with one
it stores it and starts `fetchOrders()` and `fetchFertilizers()`. -/
def Config.mounted (currentUser : Option UserProfile) (w : Browser) : Config :=
  match currentUser with
  | none =>
    { state := initial, browser := w, pending := [], sent := [], timers := 0,
      navigated := some "/farmer-login" }
  | some user =>
    let o1 := fetchOrders { initial with user := some user } w
    let o2 := fetchFertilizers o1.state o1.browser
    { state := o2.state, browser := o2.browser,
      pending := [.getMyOrders, .getFertilizers],
      sent := o2.requests.reverse ++ o1.requests.reverse, timers := 0, navigated := none }

/-- What can happen to the mounted component. -/
inductive Event where
  | selectTab (tab : Tab)
  | selectFertilizer (value : String)
  | submit
  | ordersResolved (orders : List Order)
  | ordersRejected (err : AxiosError)
  | fertilizersResolved (fertilizers : List Fertilizer)
  | fertilizersRejected (err : AxiosError)
  | submitResolved
  | submitRejected (err : AxiosError)
  | timeout
  | dismissError
  | dismissSuccess
  | logout

/-- One event. `none` when the event is not enabled: the order form is rendered on
the new-order tab, its select is disabled while `loading` and offers the empty
choice and the ids of the catalog, its button is disabled while `loading` or while
nothing is selected. -/
def step (cfg : Config) (ev : Event) : Option Config :=
  if cfg.navigated.isSome then none
  else
    match ev with
    | .selectTab tab => some { cfg with state := { cfg.state with tab := tab } }
    | .selectFertilizer value =>
      if cfg.state.tab = .newOrder ∧ cfg.state.loading = false ∧
          (value = "" ∨ value ∈ cfg.state.fertilizers.map (fun fert => fert.id)) then
        some { cfg with state := { cfg.state with selectedFertilizer := value } }
      else none
    | .submit =>
      if cfg.state.tab = .newOrder ∧ cfg.state.loading = false ∧
          truthyStr cfg.state.selectedFertilizer = true then
        some (cfg.advance (handleSubmitOrder cfg.state cfg.browser) [.submitOrder])
      else none
    | .ordersResolved orders =>
      if Call.getMyOrders ∈ cfg.pending then
        some ({ cfg with pending := cfg.pending.erase .getMyOrders }.advance
          (fetchOrdersResolved cfg.state cfg.browser orders) [])
      else none
    | .ordersRejected err =>
      if Call.getMyOrders ∈ cfg.pending then
        some ({ cfg with pending := cfg.pending.erase .getMyOrders }.advance
          (fetchOrdersRejected cfg.state (responseRejected err cfg.browser).1 err) [])
      else none
    | .fertilizersResolved fertilizers =>
      if Call.getFertilizers ∈ cfg.pending then
        some ({ cfg with pending := cfg.pending.erase .getFertilizers }.advance
          (fetchFertilizersResolved cfg.state cfg.browser fertilizers) [])
      else none
    | .fertilizersRejected err =>
      if Call.getFertilizers ∈ cfg.pending then
        some ({ cfg with pending := cfg.pending.erase .getFertilizers }.advance
          (fetchFertilizersRejected cfg.state (responseRejected err cfg.browser).1 err) [])
      else none
    | .submitResolved =>
      if Call.submitOrder ∈ cfg.pending then
        some ({ cfg with pending := cfg.pending.erase .submitOrder }.advance
          (handleSubmitOrderResolved cfg.state cfg.browser) [])
      else none
    | .submitRejected err =>
      if Call.submitOrder ∈ cfg.pending then
        some ({ cfg with pending := cfg.pending.erase .submitOrder }.advance
          (handleSubmitOrderRejected cfg.state (responseRejected err cfg.browser).1 err) [])
      else none
    | .timeout =>
      if 0 < cfg.timers then
        some ({ cfg with timers := cfg.timers - 1 }.advance
          (submitOrderTimeout cfg.state cfg.browser) [.getMyOrders])
      else none
    | .dismissError =>
      if cfg.state.error.truthy then
        some { cfg with state := { cfg.state with error := .str "" } }
      else none
    | .dismissSuccess =>
      if truthyStr cfg.state.success then
        some { cfg with state := { cfg.state with success := "" } }
      else none
    | .logout => some (cfg.advance (handleLogout cfg.state cfg.browser) [])

/-- The configuration after a sequence of events, `none` when one was not enabled. -/
def run (cfg : Config) : List Event → Option Config
  | [] => some cfg
  | ev :: rest =>
    match step cfg ev with
    | some next => run next rest
    | none => none

end FarmerDashboard

namespace AdminDashboard

/-- The calls the component awaits; a review call keeps the state of the render whose
button was clicked, which its continuation reads the filter and the page from. -/
inductive Call where
  | getMetrics
  | getOrders
  | getFertilizers
  | approveOrder (captured : State)
  | declineOrder (captured : State)
  | addFertilizer

/-- The data of a successful response, by call. -/
inductive Payload where
  | metrics (metrics : JSVal)
  | orders (orders : List Order)
  | fertilizers (fertilizers : List FertilizerRecord)
  | done

/-- The component, the browser, the calls in flight (oldest first), every request
issued so far (newest first), and the route handed to `navigate`, after which the
component is gone. -/
structure Config where
  state : State
  browser : Browser
  pending : List Call
  sent : List RequestConfig
  navigated : Option String

/-- The configuration after a handler phase with outcome `out`; `calls` are the calls
the phase awaits when it issued requests. -/
def Config.advance (cfg : Config) (out : Outcome State) (calls : List Call) : Config :=
  { state := out.state, browser := out.browser,
    pending := if out.requests.isEmpty then cfg.pending else cfg.pending ++ calls,
    sent := out.requests.reverse ++ cfg.sent,
    navigated := out.navigate }

/-- The body of the effect that runs on mount and on every change of the filter,
where `getUser()` returned `currentUser`: without an admin it navigates to the
login, with one it stores the user and starts `fetchMetrics()`, `fetchOrders()` and
`fetchFertilizers()`. -/
def Config.effect (cfg : Config) (currentUser : JSVal) : Config :=
  if !currentUser.truthy || (currentUser.getProp "userType").strictNeStr "admin" then
    { cfg with navigated := some "/admin-login" }
  else
    let o1 := fetchMetrics { cfg.state with user := currentUser } cfg.browser
    let o2 := fetchOrders o1.state o1.state o1.browser
    let o3 := fetchFertilizers o2.state o2.browser
    { state := o3.state, browser := o3.browser,
      pending := cfg.pending ++ [.getMetrics, .getOrders, .getFertilizers],
      sent := o3.requests.reverse ++ (o2.requests.reverse ++ (o1.requests.reverse ++ cfg.sent)),
      navigated := none }

/-- The component after the effect has run on mount. -/
def Config.mounted (currentUser : JSVal) (w : Browser) : Config :=
  Config.effect
    { state := initial, browser := w, pending := [], sent := [], navigated := none }
    currentUser

/-- What can happen to the mounted component; a completion names the call by its
position among the calls in flight. -/
inductive Event where
  | selectTab (tab : Tab)
  | filterChange (value : String) (currentUser : JSVal)
  | review (order : Order)
  | editRemarks (value : String)
  | approve
  | decline
  | cancel
  | overlayClick
  | editNewFertilizer (form : NewFertilizer)
  | addFertilizer
  | resolved (index : Nat) (payload : Payload)
  | rejected (index : Nat) (err : AxiosError)
  | dismissError
  | dismissSuccess
  | logout

/-- The continuation of the call `call` on success with `payload`; `none` when the
payload is not the one of that call. -/
def resolve (cfg : Config) (call : Call) (payload : Payload) : Option Config :=
  match call, payload with
  | .getMetrics, .metrics metrics =>
    some (cfg.advance (fetchMetricsResolved cfg.state cfg.browser metrics) [])
  | .getOrders, .orders orders =>
    some (cfg.advance (fetchOrdersResolved cfg.state cfg.browser orders) [])
  | .getFertilizers, .fertilizers fertilizers =>
    some (cfg.advance (fetchFertilizersResolved cfg.state cfg.browser fertilizers) [])
  | .approveOrder captured, .done =>
    some (cfg.advance (handleApproveOrderResolved captured cfg.state cfg.browser)
      [.getOrders, .getMetrics])
  | .declineOrder captured, .done =>
    some (cfg.advance (handleDeclineOrderResolved captured cfg.state cfg.browser)
      [.getOrders, .getMetrics])
  | .addFertilizer, .done =>
    some (cfg.advance (handleAddFertilizerResolved cfg.state cfg.browser) [.getFertilizers])
  | _, _ => none

/-- The continuation of the call `call` on failure, on the browser the response
interceptor left. -/
def reject (cfg : Config) (call : Call) (err : AxiosError) : Config :=
  let w := (responseRejected err cfg.browser).1
  match call with
  | .getMetrics => cfg.advance (fetchMetricsRejected cfg.state w err) []
  | .getOrders => cfg.advance (fetchOrdersRejected cfg.state w err) []
  | .getFertilizers => cfg.advance (fetchFertilizersRejected cfg.state w err) []
  | .approveOrder _ => cfg.advance (handleApproveOrderRejected cfg.state w err) []
  | .declineOrder _ => cfg.advance (handleDeclineOrderRejected cfg.state w err) []
  | .addFertilizer => cfg.advance (handleAddFertilizerRejected cfg.state w err) []

/-- One event. `none` when the event is not enabled: the filter and the table are
rendered on the orders tab, a Review button where `reviewButtons` says, the dialog
while an order is selected, with its text area and buttons disabled while `loading`;
the catalog form is rendered on the fertilizers tab and disabled while `loading`. -/
def step (cfg : Config) (ev : Event) : Option Config :=
  if cfg.navigated.isSome then none
  else
    match ev with
    | .selectTab tab => some { cfg with state := { cfg.state with tab := tab } }
    | .filterChange value currentUser =>
      if cfg.state.tab = .orders ∧ value ≠ cfg.state.filterStatus ∧
          value ∈ ["", "pending", "approved", "declined"] then
        some (Config.effect (cfg.advance (handleFilterChange cfg.state cfg.browser value) [])
          currentUser)
      else none
    | .review order =>
      if order ∈ reviewButtons cfg.state then
        some (cfg.advance (handleReview cfg.state cfg.browser order) [])
      else none
    | .editRemarks value =>
      if reviewDialogShown cfg.state = true ∧ cfg.state.loading = false then
        some { cfg with state := { cfg.state with remarks := value } }
      else none
    | .approve =>
      match cfg.state.selectedOrder with
      | some order =>
        if reviewDialogShown cfg.state = true ∧ cfg.state.loading = false then
          some (cfg.advance (handleApproveOrder cfg.state cfg.browser order.id)
            [.approveOrder cfg.state])
        else none
      | none => none
    | .decline =>
      match cfg.state.selectedOrder with
      | some order =>
        if reviewDialogShown cfg.state = true ∧ cfg.state.loading = false then
          some (cfg.advance (handleDeclineOrder cfg.state cfg.browser order.id)
            [.declineOrder cfg.state])
        else none
      | none => none
    | .cancel =>
      if reviewDialogShown cfg.state = true ∧ cfg.state.loading = false then
        some (cfg.advance (handleCancel cfg.state cfg.browser) [])
      else none
    | .overlayClick =>
      if reviewDialogShown cfg.state = true then
        some { cfg with state := { cfg.state with selectedOrder := none } }
      else none
    | .editNewFertilizer form =>
      if cfg.state.tab = .fertilizers ∧ cfg.state.loading = false then
        some { cfg with state := { cfg.state with newFertilizer := form } }
      else none
    | .addFertilizer =>
      if cfg.state.tab = .fertilizers ∧ cfg.state.loading = false then
        some (cfg.advance (handleAddFertilizer cfg.state cfg.browser) [.addFertilizer])
      else none
    | .resolved index payload =>
      match cfg.pending.get? index with
      | some call => resolve { cfg with pending := cfg.pending.eraseIdx index } call payload
      | none => none
    | .rejected index err =>
      match cfg.pending.get? index with
      | some call => some (reject { cfg with pending := cfg.pending.eraseIdx index } call err)
      | none => none
    | .dismissError =>
      if cfg.state.error.truthy then
        some { cfg with state := { cfg.state with error := .str "" } }
      else none
    | .dismissSuccess =>
      if truthyStr cfg.state.success then
        some { cfg with state := { cfg.state with success := "" } }
      else none
    | .logout => some (cfg.advance (handleLogout cfg.state cfg.browser) [])

/-- The configuration after a sequence of events, `none` when one was not enabled. -/
def run (cfg : Config) : List Event → Option Config
  | [] => some cfg
  | ev :: rest =>
    match step cfg ev with
    | some next => run next rest
    | none => none

end AdminDashboard

/-! ## Example runs -/

/-- The error and the success message of a configuration, as shown. -/
def AdminDashboard.Config.messages (cfg : AdminDashboard.Config) : Bool × String :=
  (cfg.state.error.truthy, cfg.state.success)

/-- The error and the success message of a configuration, as shown. -/
def FarmerDashboard.Config.messages (cfg : FarmerDashboard.Config) : Bool × String :=
  (cfg.state.error.truthy, cfg.state.success)

/-- A network failure: no response. -/
def exampleNetworkError : AxiosError :=
  { message := "Network Error", config := exampleConfig, response := none }

/-- The profile of an admin. -/
def exampleAdmin : JSVal :=
  .obj [("id", .str "a1"), ("fullName", .str "Admin"), ("phoneNumber", .str "25078815000"),
        ("userType", .str "admin")]

/-- A farmer enters a phone number, requests the OTP and receives it. -/
def exampleLoginRun : List FarmerLogin.Event :=
  [.editPhone "0788000000", .phoneSubmit, .requestResolved (.str "1234")]

/-- An admin opens the orders tab once the orders have arrived, reviews and approves
the pending order; the approval succeeds and the refetch of the orders fails. -/
def exampleApproveRun : List AdminDashboard.Event :=
  [.resolved 1 (.orders [exampleOrder]), .selectTab .orders, .review exampleOrder,
   .approve, .resolved 2 .done, .rejected 2 exampleNetworkError]

/-- A farmer selects a fertilizer once catalog and orders have arrived and submits;
the submission succeeds, the scheduled callback refetches the orders and that call
fails. -/
def exampleSubmitRun : List FarmerDashboard.Event :=
  [.ordersResolved [],
   .fertilizersResolved
     [{ id := "f1", name := "Urea", ratePerHectare := .fin false 40 0, unit := "kg" }],
   .selectTab .newOrder, .selectFertilizer "f1", .submit, .submitResolved, .timeout,
   .ordersRejected exampleNetworkError]

/-- The background calls of the admin dashboard: the metrics and the catalog. -/
def AdminDashboard.Call.isBackground : AdminDashboard.Call → Bool
  | .getMetrics => true
  | .getFertilizers => true
  | _ => false

/-- The browser of the examples: empty storage, at the application root. -/
def exampleBrowser : Browser :=
  { localStorage := [], href := "/" }

/-! ## Storage lemmas -/

theorem Storage.getItem_removeItem_self (ls : Storage) (key : String) :
    (ls.removeItem key).getItem key = none := by
  induction ls with
  | nil => rfl
  | cons kv rest ih =>
    obtain ⟨k, v⟩ := kv
    simp only [Storage.removeItem, Storage.getItem] at ih ⊢
    by_cases h : k = key
    · simp [List.filter_cons, h, ih]
    · have hne : (key == k) = false := by simpa using fun hk => h hk.symm
      simp [List.filter_cons, h, List.lookup_cons, hne, ih]

theorem Storage.getItem_removeItem_ne (ls : Storage) (key other : String) (h : other ≠ key) :
    (ls.removeItem key).getItem other = ls.getItem other := by
  induction ls with
  | nil => rfl
  | cons kv rest ih =>
    obtain ⟨k, v⟩ := kv
    simp only [Storage.removeItem, Storage.getItem] at ih ⊢
    by_cases hk : k = key
    · have hne : (other == key) = false := by simpa using h
      simp [List.filter_cons, hk, List.lookup_cons, hne, ih]
    · by_cases ho : other = k
      · simp [List.filter_cons, hk, List.lookup_cons, ho]
      · have hne : (other == k) = false := by simpa using ho
        simp [List.filter_cons, hk, List.lookup_cons, hne, ih]

theorem Storage.getItem_setItem_self (ls : Storage) (key value : String) :
    (ls.setItem key value).getItem key = some value := by
  simp [Storage.setItem, Storage.getItem, List.lookup_cons]

theorem Storage.getItem_setItem_ne (ls : Storage) (key value other : String) (h : other ≠ key) :
    (ls.setItem key value).getItem other = ls.getItem other := by
  have hne : (other == key) = false := by simpa using h
  have := Storage.getItem_removeItem_ne ls key other h
  simpa [Storage.setItem, Storage.getItem, List.lookup_cons, hne] using this

/-! ## Session store lemmas -/

theorem truthyStr_eq_true_iff (s : String) : truthyStr s = true ↔ s ≠ "" := by
  simp [truthyStr]

theorem isAuthenticated_eq_true_iff (ls : Storage) :
    isAuthenticated ls = true ↔ ∃ t, ls.getItem "token" = some t ∧ t ≠ "" := by
  unfold isAuthenticated getAuthToken
  cases h : ls.getItem "token" with
  | none => simp [truthyOpt]
  | some t => simp [truthyOpt, truthyStr]

theorem isAuthenticated_of_no_token (ls : Storage) (h : ls.getItem "token" = none) :
    isAuthenticated ls = false := by
  simp [isAuthenticated, getAuthToken, h, truthyOpt]

theorem getItem_token_setAuthToken (J : JSONBuiltin) (token : String) (user : JSVal)
    (ls : Storage) : (setAuthToken J token user ls).getItem "token" = some token := by
  unfold setAuthToken
  rw [Storage.getItem_setItem_ne _ _ _ _ (by decide), Storage.getItem_setItem_self]

theorem getItem_user_setAuthToken (J : JSONBuiltin) (token : String) (user : JSVal)
    (ls : Storage) :
    (setAuthToken J token user ls).getItem "user" = some (storedText (J.stringify user)) := by
  unfold setAuthToken
  exact Storage.getItem_setItem_self _ _ _

theorem getItem_token_logout (ls : Storage) : (logout ls).getItem "token" = none := by
  unfold logout
  rw [Storage.getItem_removeItem_ne _ _ _ (by decide), Storage.getItem_removeItem_self]

theorem getItem_user_logout (ls : Storage) : (logout ls).getItem "user" = none := by
  unfold logout
  exact Storage.getItem_removeItem_self _ _

theorem getUser_of_no_user (J : JSONBuiltin) (ls : Storage) (h : ls.getItem "user" = none) :
    getUser J ls = .ok JSVal.null := by
  simp [getUser, h]

theorem responseRejected_unauthorized (w : Browser) (error : AxiosError) (r : Response)
    (hresp : error.response = some r) (hstatus : r.status = 401) :
    (responseRejected error w).1 =
      { localStorage := (w.localStorage.removeItem "token").removeItem "user",
        href := "/login" } := by
  simp [responseRejected, hresp, hstatus]

theorem responseRejected_other (w : Browser) (error : AxiosError)
    (h : error.response.map (fun r => r.status) ≠ some 401) :
    (responseRejected error w).1 = w := by
  simp [responseRejected, h]

/-! ## Route guard -/

/-- C1: when no token is persisted, `ProtectedRoute` answers a redirect to
`/farmer-login` for every required role (none included) and every content of the
rest of storage, the `user` entry included; it does not answer the element. -/
theorem protectedRoute_without_token {α : Type} (J : JSONBuiltin) (ls : Storage)
    (element : α) (requiredRole : Option String) (h : ls.getItem "token" = none) :
    ProtectedRoute J ls element requiredRole = .ok (.navigate "/farmer-login") ∧
    ProtectedRoute J ls element requiredRole ≠ .ok (.element element) := by
  have hres : ProtectedRoute J ls element requiredRole = .ok (.navigate "/farmer-login") := by
    simp [ProtectedRoute, isAuthenticated_of_no_token ls h]
  exact ⟨hres, by simp [hres]⟩

theorem protectedRoute_without_token_witness :
    Storage.getItem [("user", "not json")] "token" = none ∧
    ProtectedRoute exampleJSON [("user", "not json")] Page.AdminDashboard (some "admin")
      = .ok (.navigate "/farmer-login") :=
  ⟨by decide,
   (protectedRoute_without_token exampleJSON [("user", "not json")] Page.AdminDashboard
      (some "admin") (by decide)).1⟩

/-- C2: for a session (a non-empty stored token) whose user has role `A`, and a route
that requires a different role `B`, `ProtectedRoute` answers a redirect to
`/not-found` and does not answer the element. -/
theorem protectedRoute_role_mismatch {α : Type} (J : JSONBuiltin) (ls : Storage)
    (element : α) (A B : Role) (t : String)
    (htoken : ls.getItem "token" = some t) (ht : t ≠ "")
    (hrole : getUserType J ls = .ok (.str A.name)) (hAB : B ≠ A) :
    ProtectedRoute J ls element (some B.name) = .ok (.navigate "/not-found") ∧
    ProtectedRoute J ls element (some B.name) ≠ .ok (.element element) := by
  have hauth : isAuthenticated ls = true := (isAuthenticated_eq_true_iff ls).2 ⟨t, htoken, ht⟩
  have hne : A.name ≠ B.name := by
    cases A <;> cases B <;> simp [Role.name] at hAB ⊢
  have hB : truthyStr B.name = true := by
    cases B <;> decide
  have hres : ProtectedRoute J ls element (some B.name) = .ok (.navigate "/not-found") := by
    simp [ProtectedRoute, hauth, hB, hrole, JSVal.strictNeStr, hne]
  exact ⟨hres, by simp [hres]⟩

theorem protectedRoute_role_mismatch_witness :
    ProtectedRoute exampleJSON (setAuthToken exampleJSON "tok" exampleProfile.toJS [])
      Page.AdminDashboard (some "admin") = .ok (.navigate "/not-found") :=
  (protectedRoute_role_mismatch exampleJSON
      (setAuthToken exampleJSON "tok" exampleProfile.toJS []) Page.AdminDashboard
      Role.farmer Role.admin "tok" (by decide) (by decide) (by rfl) (by decide)).1

/-! ## Response interceptor -/

/-- C3: for every storage state and every failed call whose response has status
401, whatever request it answers, the token entry and the user entry are both
absent from storage after the response interceptor has run. -/
theorem responseRejected_unauthorized_clears_session (w : Browser) (error : AxiosError)
    (r : Response) (hresp : error.response = some r) (hstatus : r.status = 401) :
    (responseRejected error w).1.localStorage.getItem "token" = none ∧
    (responseRejected error w).1.localStorage.getItem "user" = none := by
  rw [responseRejected_unauthorized w error r hresp hstatus]
  exact ⟨getItem_token_logout w.localStorage, getItem_user_logout w.localStorage⟩

theorem responseRejected_unauthorized_clears_session_witness :
    (responseRejected exampleUnauthorized
        { localStorage := [("token", "tok"), ("theme", "dark"), ("user", exampleProfileText)],
          href := "/admin-dashboard" }).1.localStorage.getItem "token" = none ∧
    (responseRejected exampleUnauthorized
        { localStorage := [("token", "tok"), ("theme", "dark"), ("user", exampleProfileText)],
          href := "/admin-dashboard" }).1.localStorage.getItem "user" = none :=
  responseRejected_unauthorized_clears_session
    { localStorage := [("token", "tok"), ("theme", "dark"), ("user", exampleProfileText)],
      href := "/admin-dashboard" }
    exampleUnauthorized { status := 401, data := .null } rfl rfl

/-- C4: on the 401 answer to the metrics request the interceptor sets the location to
`/login`, a path for which `App` declares no route; the login routes of the table
are `/farmer-login` and `/admin-login`. -/
theorem responseRejected_unauthorized_target_not_routed :
    (responseRejected exampleUnauthorized
        { localStorage := [("token", "tok"), ("user", exampleProfileText)],
          href := "/admin-dashboard" }).1.href = "/login" ∧
    "/login" ∉ routePaths ∧
    "/farmer-login" ∈ routePaths ∧ "/admin-login" ∈ routePaths := by
  refine ⟨rfl, ?_, ?_, ?_⟩ <;> decide

/-! ## Token and user are written and removed together -/

theorem sessionPaired_apply (J : JSONBuiltin) (w : Browser) (op : SessionOp)
    (h : SessionPaired w) : SessionPaired (op.apply J w) := by
  cases op with
  | setAuthToken token user =>
    simp [SessionPaired, SessionOp.apply, getItem_token_setAuthToken,
      getItem_user_setAuthToken]
  | logout =>
    simp [SessionPaired, SessionOp.apply, getItem_token_logout, getItem_user_logout]
  | responseFulfilled response => exact h
  | responseRejected error =>
    by_cases h401 : error.response.map (fun r => r.status) = some 401
    · obtain ⟨r, hr, hs⟩ := Option.map_eq_some'.1 h401
      have hlog := responseRejected_unauthorized w error r hr hs
      simp only [SessionPaired, SessionOp.apply, hlog]
      have ht := getItem_token_logout w.localStorage
      have hu := getItem_user_logout w.localStorage
      simp only [logout] at ht hu
      simp [ht, hu]
    · simpa [SessionOp.apply, responseRejected_other w error h401] using h

theorem sessionPaired_foldl (J : JSONBuiltin) (ops : List SessionOp) (w : Browser)
    (h : SessionPaired w) : SessionPaired (ops.foldl (SessionOp.apply J) w) := by
  induction ops generalizing w with
  | nil => exact h
  | cons op rest ih => exact ih _ (sessionPaired_apply J w op h)

/-- C5: starting from empty storage, after every finite sequence of session
operations (`setAuthToken` with any token and user, `logout`, the handling of a 401
response, the handling of any other response) the token entry is present in storage
if and only if the user entry is present. -/
theorem token_present_iff_user_present (J : JSONBuiltin) (href : String)
    (ops : List SessionOp) :
    ((runSessionOps J href ops).localStorage.getItem "token").isSome = true ↔
    ((runSessionOps J href ops).localStorage.getItem "user").isSome = true := by
  have h : SessionPaired (runSessionOps J href ops) :=
    sessionPaired_foldl J ops _ rfl
  unfold SessionPaired at h
  rw [h]

/-! ## `isAuthenticated` -/

/-- C6, as stated, fails: after `setAuthToken("", user)` the token entry is present
in storage and `isAuthenticated()` is false. -/
theorem isAuthenticated_empty_token_counterexample :
    ((setAuthToken exampleJSON "" exampleProfile.toJS []).getItem "token").isSome = true ∧
    isAuthenticated (setAuthToken exampleJSON "" exampleProfile.toJS []) = false := by
  constructor <;> decide

/-- C6, amended: for every storage state `isAuthenticated()` is true if and only if
a non-empty token entry is present; in the state reached by
`setAuthToken(token, user)` that is if and only if `token` is not the empty string. -/
theorem isAuthenticated_iff_nonempty_token (J : JSONBuiltin) (ls : Storage)
    (token : String) (user : JSVal) :
    (isAuthenticated ls = true ↔ ∃ t, ls.getItem "token" = some t ∧ t ≠ "") ∧
    (isAuthenticated (setAuthToken J token user ls) = true ↔ token ≠ "") := by
  refine ⟨isAuthenticated_eq_true_iff ls, ?_⟩
  rw [isAuthenticated_eq_true_iff, getItem_token_setAuthToken]
  constructor
  · rintro ⟨t, ht, hne⟩
    cases ht
    exact hne
  · intro h
    exact ⟨token, rfl, h⟩

/-! ## Logout -/

/-- C8: for every storage state, after `logout()` the getters `getAuthToken()` and
`getUser()` return `null`, `isAuthenticated()` is false and `getUserType()` returns
`undefined`, and every key other than `token` and `user` reads as before; the
getters answer the same on storage that holds neither entry. -/
theorem logout_clears_session (J : JSONBuiltin) (ls : Storage) :
    (getAuthToken (logout ls) = none ∧
     getUser J (logout ls) = .ok JSVal.null ∧
     isAuthenticated (logout ls) = false ∧
     getUserType J (logout ls) = .ok JSVal.undefined ∧
     ∀ key, key ≠ "token" → key ≠ "user" → (logout ls).getItem key = ls.getItem key) ∧
    (ls.getItem "token" = none → ls.getItem "user" = none →
     getAuthToken ls = none ∧
     getUser J ls = .ok JSVal.null ∧
     isAuthenticated ls = false ∧
     getUserType J ls = .ok JSVal.undefined) := by
  have key : ∀ l : Storage, l.getItem "token" = none → l.getItem "user" = none →
      getAuthToken l = none ∧ getUser J l = .ok JSVal.null ∧
      isAuthenticated l = false ∧ getUserType J l = .ok JSVal.undefined := by
    intro l ht hu
    refine ⟨ht, getUser_of_no_user J l hu, isAuthenticated_of_no_token l ht, ?_⟩
    simp [getUserType, getUser_of_no_user J l hu, JSVal.optChain]
  refine ⟨?_, key ls⟩
  obtain ⟨h1, h2, h3, h4⟩ := key (logout ls) (getItem_token_logout ls) (getItem_user_logout ls)
  refine ⟨h1, h2, h3, h4, ?_⟩
  intro k hk1 hk2
  unfold logout
  rw [Storage.getItem_removeItem_ne _ _ _ hk2, Storage.getItem_removeItem_ne _ _ _ hk1]

theorem logout_clears_session_witness :
    (logout [("token", "tok"), ("theme", "dark"), ("user", exampleProfileText)]).getItem "theme"
      = some "dark" ∧
    getUserType exampleJSON [("theme", "dark")] = .ok JSVal.undefined :=
  ⟨by
    rw [(logout_clears_session exampleJSON
      [("token", "tok"), ("theme", "dark"), ("user", exampleProfileText)]).1.2.2.2.2
      "theme" (by decide) (by decide)]
    decide,
   ((logout_clears_session exampleJSON [("theme", "dark")]).2 (by decide) (by decide)).2.2.2⟩

/-! ## Request interceptor -/

/-- C9, as stated, fails: with the empty string stored under `token` a token entry
exists, and the interceptor returns the configuration without an `Authorization`
header instead of one equal to `"Bearer "` followed by the stored token. -/
theorem requestInterceptor_empty_token_counterexample :
    Storage.getItem [("token", "")] "token" = some "" ∧
    (requestInterceptor [("token", "")] exampleConfig).headers.lookup "Authorization" = none ∧
    (requestInterceptor [("token", "")] exampleConfig).headers.lookup "Authorization"
      ≠ some ("Bearer " ++ "") := by
  refine ⟨?_, ?_, ?_⟩ <;> decide

/-- C9, amended: for every request configuration and storage state, when a non-empty
token is stored the interceptor returns the configuration with header
`Authorization` equal to `"Bearer "` followed by that token, every other header and
every other field as they were; when no token is stored, or the stored token is the
empty string, it returns the configuration unchanged. -/
theorem requestInterceptor_attaches_bearer (ls : Storage) (config : RequestConfig) :
    (∀ t, ls.getItem "token" = some t → t ≠ "" →
      (requestInterceptor ls config).headers.lookup "Authorization" = some ("Bearer " ++ t) ∧
      (∀ key, key ≠ "Authorization" →
        (requestInterceptor ls config).headers.lookup key = config.headers.lookup key) ∧
      (requestInterceptor ls config).url = config.url ∧
      (requestInterceptor ls config).method = config.method ∧
      (requestInterceptor ls config).baseURL = config.baseURL ∧
      (requestInterceptor ls config).params = config.params ∧
      (requestInterceptor ls config).data = config.data) ∧
    ((ls.getItem "token" = none ∨ ls.getItem "token" = some "") →
      requestInterceptor ls config = config) := by
  constructor
  · intro t ht hne
    have hres : requestInterceptor ls config =
        { config with
          headers := assignHeader config.headers "Authorization" ("Bearer " ++ t) } := by
      simp [requestInterceptor, ht, truthyStr, hne]
    rw [hres]
    refine ⟨Storage.getItem_setItem_self config.headers _ _, ?_, rfl, rfl, rfl, rfl, rfl⟩
    intro key hkey
    exact Storage.getItem_setItem_ne config.headers _ _ key hkey
  · rintro (h | h) <;> simp [requestInterceptor, h, truthyStr]

theorem requestInterceptor_attaches_bearer_witness :
    (requestInterceptor [("token", "tok")] exampleConfig).headers.lookup "Authorization"
      = some "Bearer tok" ∧
    requestInterceptor [] exampleConfig = exampleConfig :=
  ⟨((requestInterceptor_attaches_bearer [("token", "tok")] exampleConfig).1 "tok"
      (by decide) (by decide)).1,
   (requestInterceptor_attaches_bearer [] exampleConfig).2 (Or.inl (by decide))⟩

/-! ## Binary64 rounding -/

theorem JSNum.shiftRoundEven_spec (m s : Nat) (hs : 0 < s) :
    JSNum.shiftRoundEven m s * 2 ^ s ≤ m + 2 ^ (s - 1) ∧
    m ≤ JSNum.shiftRoundEven m s * 2 ^ s + 2 ^ (s - 1) ∧
    ((JSNum.shiftRoundEven m s * 2 ^ s = m + 2 ^ (s - 1) ∨
      m = JSNum.shiftRoundEven m s * 2 ^ s + 2 ^ (s - 1)) →
      JSNum.shiftRoundEven m s % 2 = 0) := by
  obtain ⟨k, rfl⟩ : ∃ k, s = k + 1 := ⟨s - 1, by omega⟩
  have hdm := Nat.div_add_mod m (2 ^ (k + 1))
  have hlt : m % 2 ^ (k + 1) < 2 ^ (k + 1) := Nat.mod_lt _ (by positivity)
  have hpow : 2 ^ (k + 1) = 2 * 2 ^ k := by rw [pow_succ]; ring
  have hapos : 0 < 2 ^ k := by positivity
  simp only [JSNum.shiftRoundEven, Nat.add_sub_cancel]
  generalize hq : m / 2 ^ (k + 1) = q at *
  generalize hr : m % 2 ^ (k + 1) = r at *
  rw [hpow] at hdm hlt ⊢
  generalize 2 ^ k = a at *
  have : k + 1 ≠ 0 := by omega
  simp only [this, if_false]
  have hX : 2 * a * q = 2 * (a * q) := by ring
  rw [hX] at hdm
  split_ifs with h1 h2
  · have e1 : (q + 1) * (2 * a) = 2 * (a * q) + 2 * a := by ring
    rw [e1]
    generalize a * q = X at *
    refine ⟨by omega, by omega, ?_⟩
    rintro (h | h) <;> omega
  · have e1 : (q + 1) * (2 * a) = 2 * (a * q) + 2 * a := by ring
    rw [e1]
    generalize a * q = X at *
    refine ⟨by omega, by omega, ?_⟩
    rintro (h | h) <;> omega
  · have e1 : q * (2 * a) = 2 * (a * q) := by ring
    rw [e1]
    generalize a * q = X at *
    refine ⟨by omega, by omega, ?_⟩
    rintro (h | h)
    · omega
    · have hra : r = a := by omega
      by_contra hodd
      exact h2 ⟨hra, by omega⟩

theorem JSNum.bitLengthAux_zero (fuel : Nat) : JSNum.bitLengthAux fuel 0 = 0 := by
  cases fuel <;> simp [JSNum.bitLengthAux]

theorem JSNum.bitLengthAux_spec (fuel m : Nat) (h : m ≤ fuel) :
    m < 2 ^ JSNum.bitLengthAux fuel m ∧
    (0 < m → 2 ^ (JSNum.bitLengthAux fuel m - 1) ≤ m) := by
  induction fuel generalizing m with
  | zero =>
    have : m = 0 := by omega
    subst this
    simp [JSNum.bitLengthAux]
  | succ fuel ih =>
    by_cases hm : m = 0
    · subst hm
      simp [JSNum.bitLengthAux]
    · have hhalf : m / 2 ≤ fuel := by omega
      obtain ⟨ih1, ih2⟩ := ih (m / 2) hhalf
      simp only [JSNum.bitLengthAux, hm, if_false, Nat.add_sub_cancel]
      by_cases hz : m / 2 = 0
      · have hm1 : m = 1 := by omega
        subst hm1
        simp [JSNum.bitLengthAux_zero]
      · generalize JSNum.bitLengthAux fuel (m / 2) = b at *
        have hpos : 0 < m / 2 := Nat.pos_of_ne_zero hz
        have h2 := ih2 hpos
        have hb : 0 < b := by
          rcases Nat.eq_zero_or_pos b with hb | hb
          · subst hb; simp at ih1; omega
          · exact hb
        obtain ⟨c, rfl⟩ : ∃ c, b = c + 1 := ⟨b - 1, by omega⟩
        simp only [Nat.add_sub_cancel] at h2
        constructor
        · rw [pow_succ]; omega
        · intro _
          rw [pow_succ]; omega

theorem JSNum.lt_two_pow_bitLength (m : Nat) : m < 2 ^ JSNum.bitLength m :=
  (JSNum.bitLengthAux_spec m m le_rfl).1

theorem JSNum.two_pow_le_of_pos (m : Nat) (h : 0 < m) : 2 ^ (JSNum.bitLength m - 1) ≤ m :=
  (JSNum.bitLengthAux_spec m m le_rfl).2 h

theorem JSNum.le_bitLength_of_two_pow_le (m k : Nat) (h : 2 ^ k ≤ m) :
    k + 1 ≤ JSNum.bitLength m := by
  by_contra hlt
  have h1 := JSNum.lt_two_pow_bitLength m
  have h2 : 2 ^ JSNum.bitLength m ≤ 2 ^ k :=
    Nat.pow_le_pow_right (by norm_num) (by omega)
  omega

theorem JSNum.halfGapBelow_pos (m : Nat) (t : Int) : 0 < JSNum.halfGapBelow m t := by
  unfold JSNum.halfGapBelow
  split_ifs <;> positivity

theorem JSNum.halfGapBelow_le (m : Nat) (t : Int) :
    JSNum.halfGapBelow m t ≤ (2 : ℚ) ^ (t - 1) := by
  unfold JSNum.halfGapBelow
  split_ifs
  · exact zpow_le_zpow_right₀ (by norm_num) (by omega)
  · exact le_rfl

theorem JSNum.bitLength_mul_two_pow (M d : Nat) (hM : 0 < M) :
    JSNum.bitLength (M * 2 ^ d) = JSNum.bitLength M + d := by
  have hlt := JSNum.lt_two_pow_bitLength M
  have hge := JSNum.two_pow_le_of_pos M hM
  have hpos : 0 < M * 2 ^ d := by positivity
  have hlt1 := JSNum.lt_two_pow_bitLength (M * 2 ^ d)
  have hge1 := JSNum.two_pow_le_of_pos (M * 2 ^ d) hpos
  have hbl : 0 < JSNum.bitLength M := by
    rcases Nat.eq_zero_or_pos (JSNum.bitLength M) with hb | hb
    · rw [hb] at hlt; simp at hlt; omega
    · exact hb
  have h1 : 2 ^ (JSNum.bitLength M - 1 + d) ≤ M * 2 ^ d := by
    rw [pow_add]; exact Nat.mul_le_mul_right _ hge
  have h2 := JSNum.le_bitLength_of_two_pow_le _ _ h1
  have h3 : M * 2 ^ d < 2 ^ (JSNum.bitLength M + d) := by
    rw [pow_add]; exact Nat.mul_lt_mul_of_pos_right hlt (by positivity)
  have h4 : JSNum.bitLength (M * 2 ^ d) - 1 < JSNum.bitLength M + d := by
    by_contra hcon
    have : 2 ^ (JSNum.bitLength M + d) ≤ 2 ^ (JSNum.bitLength (M * 2 ^ d) - 1) :=
      Nat.pow_le_pow_right (by norm_num) (by omega)
    omega
  omega

theorem JSNum.bitLength_pos (M : Nat) (hM : 0 < M) : 0 < JSNum.bitLength M := by
  have hlt := JSNum.lt_two_pow_bitLength M
  rcases Nat.eq_zero_or_pos (JSNum.bitLength M) with hb | hb
  · rw [hb] at hlt; simp at hlt; omega
  · exact hb

theorem JSNum.bitLength_le_of_lt (m k : Nat) (h : m < 2 ^ k) : JSNum.bitLength m ≤ k := by
  rcases Nat.eq_zero_or_pos m with h0 | hpos
  · subst h0
    simp [JSNum.bitLength, JSNum.bitLengthAux]
  · have hge := JSNum.two_pow_le_of_pos m hpos
    by_contra hcon
    have : 2 ^ k ≤ 2 ^ (JSNum.bitLength m - 1) :=
      Nat.pow_le_pow_right (by norm_num) (by omega)
    omega

theorem two_zpow_add_nat (a : Int) (n : Nat) : (2 : ℚ) ^ (a + n) = 2 ^ a * 2 ^ n := by
  rw [zpow_add₀ (by norm_num : (2 : ℚ) ≠ 0), zpow_natCast]

theorem two_zpow_mono {a b : Int} (h : a ≤ b) : (2 : ℚ) ^ a ≤ 2 ^ b :=
  zpow_le_zpow_right₀ (by norm_num) h

theorem JSNum.round_spec (neg : Bool) (M : Nat) (E : Int) (hM : 0 < M) :
    (JSNum.round neg M E = .inf neg ∧
      (2 : ℚ) ^ (1024 : ℤ) - 2 ^ (970 : ℤ) ≤ (M : ℚ) * 2 ^ E) ∨
    (JSNum.round neg M E = .fin neg 0 0 ∧ (M : ℚ) * 2 ^ E ≤ 2 ^ (-1075 : ℤ)) ∨
    (∃ m t, JSNum.round neg M E = .fin neg m t ∧ 0 < m ∧ JSNum.Canon m t ∧
      (M : ℚ) * 2 ^ E ≤ (m : ℚ) * 2 ^ t + 2 ^ (t - 1) ∧
      ((M : ℚ) * 2 ^ E = (m : ℚ) * 2 ^ t + 2 ^ (t - 1) → m % 2 = 0) ∧
      (m : ℚ) * 2 ^ t - JSNum.halfGapBelow m t ≤ (M : ℚ) * 2 ^ E ∧
      ((M : ℚ) * 2 ^ E = (m : ℚ) * 2 ^ t - JSNum.halfGapBelow m t → m % 2 = 0)) := by
  have hMne : M ≠ 0 := by omega
  have hlt := JSNum.lt_two_pow_bitLength M
  have hge := JSNum.two_pow_le_of_pos M hM
  have hblpos := JSNum.bitLength_pos M hM
  have hcpos : (0 : ℚ) < (2 : ℚ) ^ E := by positivity
  unfold JSNum.round
  simp only [hMne, if_false]
  generalize hbl : JSNum.bitLength M = bl at *
  have ht3 : (max (E + (bl : Int) - 53) (-1074) = E + (bl : Int) - 53 ∧
        (-1074 : Int) ≤ E + (bl : Int) - 53) ∨
      (max (E + (bl : Int) - 53) (-1074) = -1074 ∧ E + (bl : Int) - 53 < -1074) := by
    rcases max_cases (E + (bl : Int) - 53) (-1074) with h | h
    · exact Or.inl h
    · exact Or.inr h
  generalize max (E + (bl : Int) - 53) (-1074) = target at *
  by_cases hte : target ≤ E
  · -- the value is representable at the target exponent
    simp only [hte, if_true]
    obtain ⟨d, hd⟩ : ∃ d : Nat, (d : Int) = E - target := ⟨(E - target).toNat, by omega⟩
    rw [← hd, Int.toNat_natCast]
    have hb1 : JSNum.bitLength (M * 2 ^ d) = bl + d := by
      rw [JSNum.bitLength_mul_two_pow M d hM, hbl]
    have hval : ((M * 2 ^ d : Nat) : ℚ) * (2 : ℚ) ^ target = (M : ℚ) * (2 : ℚ) ^ E := by
      have he : E = target + d := by omega
      rw [he, two_zpow_add_nat]
      push_cast
      ring
    rw [hb1]
    split_ifs with hov
    · left
      refine ⟨rfl, ?_⟩
      have h1 : (2 : ℚ) ^ (1024 : ℤ) ≤ (M : ℚ) * 2 ^ E := by
        have hm : ((2 ^ (bl - 1) : Nat) : ℚ) ≤ (M : ℚ) := by exact_mod_cast hge
        have h2 : (2 : ℚ) ^ (1024 : ℤ) ≤ ((2 ^ (bl - 1) : Nat) : ℚ) * 2 ^ E := by
          have : ((2 ^ (bl - 1) : Nat) : ℚ) * 2 ^ E = (2 : ℚ) ^ (E + ((bl - 1 : Nat) : Int)) := by
            rw [two_zpow_add_nat]; push_cast; ring
          rw [this]
          exact two_zpow_mono (by push_cast at hov ⊢; omega)
        exact h2.trans (mul_le_mul_of_nonneg_right hm hcpos.le)
      have : (0 : ℚ) < 2 ^ (970 : ℤ) := by positivity
      linarith
    · right; right
      have hm1pos : 0 < M * 2 ^ d := by positivity
      have hm1lt := JSNum.lt_two_pow_bitLength (M * 2 ^ d)
      have hm1ge := JSNum.two_pow_le_of_pos (M * 2 ^ d) hm1pos
      rw [hb1] at hm1lt hm1ge
      refine ⟨M * 2 ^ d, target, rfl, hm1pos, ?_, ?_, ?_, ?_, ?_⟩
      · rcases ht3 with ⟨h1, h2⟩ | ⟨h1, h2⟩
        · right
          have hbd : bl + d = 53 := by omega
          rw [hbd] at hm1lt hm1ge
          refine ⟨hm1ge, hm1lt, by omega, ?_⟩
          push_cast at hov
          omega
        · left
          have hbd : bl + d ≤ 52 := by omega
          refine ⟨lt_of_lt_of_le hm1lt (Nat.pow_le_pow_right (by norm_num) hbd), h1⟩
      · rw [hval]
        have : (0 : ℚ) < 2 ^ (target - 1) := by positivity
        linarith
      · intro h
        rw [hval] at h
        have : (0 : ℚ) < 2 ^ (target - 1) := by positivity
        linarith
      · rw [hval]
        have := JSNum.halfGapBelow_pos (M * 2 ^ d) target
        linarith
      · intro h
        rw [hval] at h
        have := JSNum.halfGapBelow_pos (M * 2 ^ d) target
        linarith
  · -- the significand is shifted right and rounded
    simp only [hte, if_false]
    obtain ⟨s, hs⟩ : ∃ s : Nat, (s : Int) = target - E := ⟨(target - E).toNat, by omega⟩
    have hspos : 0 < s := by omega
    rw [← hs, Int.toNat_natCast]
    obtain ⟨hb1, hb2, htie⟩ := JSNum.shiftRoundEven_spec M s hspos
    generalize JSNum.shiftRoundEven M s = m1 at *
    have htar : target = E + s := by omega
    have hs1 : 2 ^ s = 2 * 2 ^ (s - 1) := by
      obtain ⟨k, rfl⟩ : ∃ k, s = k + 1 := ⟨s - 1, by omega⟩
      simp [pow_succ]; ring
    have hhalfpos : 0 < 2 ^ (s - 1) := by positivity
    have hpt : (2 : ℚ) ^ target = 2 ^ E * 2 ^ s := by rw [htar, two_zpow_add_nat]
    have hpt1 : (2 : ℚ) ^ (target - 1) = 2 ^ E * 2 ^ (s - 1) := by
      have : target - 1 = E + ((s - 1 : Nat) : Int) := by omega
      rw [this, two_zpow_add_nat]
    have hv : ∀ k : Nat, (k : ℚ) * 2 ^ target = ((k * 2 ^ s : Nat) : ℚ) * 2 ^ E := by
      intro k; rw [hpt]; push_cast; ring
    have hh : (2 : ℚ) ^ (target - 1) = ((2 ^ (s - 1) : Nat) : ℚ) * 2 ^ E := by
      rw [hpt1]; push_cast; ring
    -- facts on naturals, by the two shapes of the target exponent
    have hnormal : target = E + (bl : Int) - 53 → 2 ^ 52 ≤ m1 ∧ m1 ≤ 2 ^ 53 ∧
        2 ^ 52 * 2 ^ s ≤ M ∧ M < 2 ^ 53 * 2 ^ s := by
      intro h
      have hbs : bl = s + 53 := by omega
      have hM1 : 2 ^ 52 * 2 ^ s ≤ M := by
        have : 2 ^ (bl - 1) = 2 ^ 52 * 2 ^ s := by
          rw [← pow_add]; congr 1; omega
        omega
      have hM2 : M < 2 ^ 53 * 2 ^ s := by
        have : 2 ^ bl = 2 ^ 53 * 2 ^ s := by
          rw [← pow_add]; congr 1; omega
        omega
      refine ⟨?_, ?_, hM1, hM2⟩
      · have h2 : 2 ^ 52 * 2 ^ s < (m1 + 1) * 2 ^ s := by
          rw [Nat.add_mul, Nat.one_mul]; omega
        have := Nat.lt_of_mul_lt_mul_right h2
        omega
      · have h3 : m1 * 2 ^ s < (2 ^ 53 + 1) * 2 ^ s := by
          rw [Nat.add_mul, Nat.one_mul]; omega
        have := Nat.lt_of_mul_lt_mul_right h3
        omega
    have hsub : target = -1074 → E + (bl : Int) - 53 < -1074 →
        m1 ≤ 2 ^ 52 ∧ M < 2 ^ 52 * 2 ^ s := by
      intro h1 h2
      have hbs : bl ≤ s + 52 := by omega
      have hM2 : M < 2 ^ 52 * 2 ^ s := by
        have : 2 ^ bl ≤ 2 ^ 52 * 2 ^ s := by
          rw [← pow_add]; exact Nat.pow_le_pow_right (by norm_num) (by omega)
        omega
      refine ⟨?_, hM2⟩
      have h3 : m1 * 2 ^ s < (2 ^ 52 + 1) * 2 ^ s := by
        rw [Nat.add_mul, Nat.one_mul]; omega
      have := Nat.lt_of_mul_lt_mul_right h3
      omega
    -- transfer between naturals and scaled rationals
    have hle : ∀ a b : Nat, a ≤ b → (a : ℚ) * 2 ^ E ≤ (b : ℚ) * 2 ^ E := by
      intro a b h
      exact mul_le_mul_of_nonneg_right (by exact_mod_cast h) hcpos.le
    have heq : ∀ a b : Nat, (a : ℚ) * 2 ^ E = (b : ℚ) * 2 ^ E → a = b := by
      intro a b h
      have := mul_right_cancel₀ hcpos.ne' h
      exact_mod_cast this
    have hupper : (M : ℚ) * 2 ^ E ≤ (m1 : ℚ) * 2 ^ target + 2 ^ (target - 1) := by
      rw [hv, hh, ← add_mul]
      have := hle M (m1 * 2 ^ s + 2 ^ (s - 1)) hb2
      push_cast at this ⊢
      exact this
    have huppertie : (M : ℚ) * 2 ^ E = (m1 : ℚ) * 2 ^ target + 2 ^ (target - 1) →
        m1 % 2 = 0 := by
      intro h
      rw [hv, hh, ← add_mul] at h
      have : M = m1 * 2 ^ s + 2 ^ (s - 1) := by
        apply heq
        push_cast at h ⊢
        exact h
      exact htie (Or.inr this)
    have hlower : (m1 : ℚ) * 2 ^ target - 2 ^ (target - 1) ≤ (M : ℚ) * 2 ^ E := by
      rw [hv, hh]
      have := hle (m1 * 2 ^ s) (M + 2 ^ (s - 1)) hb1
      push_cast at this ⊢
      linarith
    have hlowertie : (M : ℚ) * 2 ^ E = (m1 : ℚ) * 2 ^ target - 2 ^ (target - 1) →
        m1 % 2 = 0 := by
      intro h
      rw [hv, hh] at h
      have : m1 * 2 ^ s = M + 2 ^ (s - 1) := by
        apply heq
        push_cast at h ⊢
        linarith
      exact htie (Or.inl this)
    by_cases hz : m1 = 0
    · -- underflow to zero
      rw [if_pos hz]
      right; left
      refine ⟨rfl, ?_⟩
      rcases ht3 with ⟨h1, h2⟩ | ⟨h1, h2⟩
      · have := (hnormal h1).1
        omega
      · have hM0 : M ≤ 2 ^ (s - 1) := by
          rw [hz] at hb2
          simpa using hb2
        have := hle M (2 ^ (s - 1)) hM0
        rw [← hh, h1] at this
        exact this
    · rw [if_neg hz]
      have hm1pos : 0 < m1 := Nat.pos_of_ne_zero hz
      have hm1lt := JSNum.lt_two_pow_bitLength m1
      have hm1ge := JSNum.two_pow_le_of_pos m1 hm1pos
      have hm1le : m1 ≤ 2 ^ 53 := by
        rcases ht3 with ⟨h1, h2⟩ | ⟨h1, h2⟩
        · exact (hnormal h1).2.1
        · have := (hsub h1 h2).1
          omega
      have hb54 : JSNum.bitLength m1 ≤ 54 :=
        JSNum.bitLength_le_of_lt m1 54 (by omega)
      split_ifs with hov h53
      · -- overflow
        left
        refine ⟨rfl, ?_⟩
        have htn : target = E + (bl : Int) - 53 := by
          rcases ht3 with ⟨h1, h2⟩ | ⟨h1, h2⟩
          · exact h1
          · omega
        obtain ⟨hn1, hn2, hn3, hn4⟩ := hnormal htn
        by_cases h53 : m1 = 2 ^ 53
        · have ht971 : 970 ≤ target - 1 := by
            have := JSNum.bitLength_le_of_lt m1 54 (by omega)
            omega
          have hMq : ((2 ^ 54 - 1 : Nat) : ℚ) * 2 ^ (target - 1) ≤ (M : ℚ) * 2 ^ E := by
            rw [hh, ← mul_assoc]
            have hnat : (2 ^ 54 - 1) * 2 ^ (s - 1) ≤ M := by
              rw [h53] at hb1
              have : 2 ^ 53 * 2 ^ s = 2 ^ 54 * 2 ^ (s - 1) := by
                rw [hs1]; ring
              have h54 : (2 ^ 54 - 1) * 2 ^ (s - 1) + 2 ^ (s - 1) = 2 ^ 54 * 2 ^ (s - 1) := by
                have : (2 ^ 54 - 1) + 1 = 2 ^ 54 := by norm_num
                calc (2 ^ 54 - 1) * 2 ^ (s - 1) + 2 ^ (s - 1)
                    = ((2 ^ 54 - 1) + 1) * 2 ^ (s - 1) := by ring
                  _ = 2 ^ 54 * 2 ^ (s - 1) := by rw [this]
              omega
            have := hle _ _ hnat
            push_cast at this ⊢
            exact this
          have hthr : (2 : ℚ) ^ (1024 : ℤ) - 2 ^ (970 : ℤ)
              = ((2 ^ 54 - 1 : Nat) : ℚ) * 2 ^ (970 : ℤ) := by
            norm_num
          rw [hthr]
          refine le_trans ?_ hMq
          exact mul_le_mul_of_nonneg_left (two_zpow_mono ht971) (by positivity)
        · have hlt53 : m1 < 2 ^ 53 := by omega
          have hb53 := JSNum.bitLength_le_of_lt m1 53 hlt53
          have ht972 : (1024 : Int) ≤ 52 + target := by omega
          have hMq : (2 : ℚ) ^ (52 + target) ≤ (M : ℚ) * 2 ^ E := by
            have : (2 : ℚ) ^ (52 + target) = ((2 ^ 52 * 2 ^ s : Nat) : ℚ) * 2 ^ E := by
              have : (52 : Int) + target = E + ((52 + s : Nat) : Int) := by omega
              rw [this, two_zpow_add_nat]
              push_cast
              ring
            rw [this]
            exact hle _ _ hn3
          have h1 : (2 : ℚ) ^ (1024 : ℤ) ≤ (2 : ℚ) ^ (52 + target) := two_zpow_mono ht972
          have : (0 : ℚ) < 2 ^ (970 : ℤ) := by positivity
          linarith
      · -- the rounded significand reached 2^53
        right; right
        have htn : target = E + (bl : Int) - 53 := by
          rcases ht3 with ⟨h1, h2⟩ | ⟨h1, h2⟩
          · exact h1
          · have := (hsub h1 h2).1
            omega
        obtain ⟨hn1, hn2, hn3, hn4⟩ := hnormal htn
        have hb : 54 ≤ JSNum.bitLength m1 :=
          JSNum.le_bitLength_of_two_pow_le m1 53 (by omega)
        have ht970 : target ≤ 970 := by omega
        have ht1074 : (-1074 : Int) ≤ target := by
          rcases ht3 with ⟨h1, h2⟩ | ⟨h1, h2⟩ <;> omega
        have hvv : ((2 ^ 52 : Nat) : ℚ) * 2 ^ (target + 1) = (m1 : ℚ) * 2 ^ target := by
          rw [h53, zpow_add₀ (by norm_num : (2 : ℚ) ≠ 0)]
          push_cast
          ring
        have hylt : (M : ℚ) * 2 ^ E < (m1 : ℚ) * 2 ^ target := by
          rw [hv, h53]
          exact mul_lt_mul_of_pos_right (by exact_mod_cast hn4) hcpos
        have hhg : JSNum.halfGapBelow (2 ^ 52) (target + 1) = 2 ^ (target - 1) := by
          unfold JSNum.halfGapBelow
          rw [if_pos ⟨rfl, by omega⟩]
          congr 1
          omega
        refine ⟨2 ^ 52, target + 1, rfl, by positivity, ?_, ?_, ?_, ?_, ?_⟩
        · right
          exact ⟨le_rfl, by norm_num, by omega, by omega⟩
        · rw [hvv]
          have : (0 : ℚ) < 2 ^ (target + 1 - 1) := by positivity
          linarith
        · intro _; norm_num
        · rw [hvv, hhg]; exact hlower
        · intro _; norm_num
      · -- the rounded significand is the result
        right; right
        have hlt53 : m1 < 2 ^ 53 := by omega
        have hb53 := JSNum.bitLength_le_of_lt m1 53 hlt53
        refine ⟨m1, target, rfl, hm1pos, ?_, hupper, huppertie, ?_, ?_⟩
        · rcases ht3 with ⟨h1, h2⟩ | ⟨h1, h2⟩
          · obtain ⟨hn1, hn2, hn3, hn4⟩ := hnormal h1
            right
            have hb : 53 ≤ JSNum.bitLength m1 :=
              JSNum.le_bitLength_of_two_pow_le m1 52 hn1
            refine ⟨hn1, hlt53, by omega, ?_⟩
            push_cast at hov
            omega
          · obtain ⟨hs1', hs2'⟩ := hsub h1 h2
            by_cases h52 : m1 = 2 ^ 52
            · right
              exact ⟨by omega, hlt53, by omega, by omega⟩
            · left
              exact ⟨by omega, h1⟩
        · by_cases hcase : m1 = 2 ^ 52 ∧ -1074 < target
          · have htn : target = E + (bl : Int) - 53 := by
              rcases ht3 with ⟨h1, h2⟩ | ⟨h1, h2⟩
              · exact h1
              · omega
            obtain ⟨hn1, hn2, hn3, hn4⟩ := hnormal htn
            have hyge : (m1 : ℚ) * 2 ^ target ≤ (M : ℚ) * 2 ^ E := by
              rw [hv, hcase.1]
              exact hle _ _ hn3
            have := JSNum.halfGapBelow_pos m1 target
            linarith
          · have : JSNum.halfGapBelow m1 target = 2 ^ (target - 1) := by
              unfold JSNum.halfGapBelow
              rw [if_neg hcase]
            rw [this]
            exact hlower
        · intro h
          by_cases hcase : m1 = 2 ^ 52 ∧ -1074 < target
          · rw [hcase.1]
            norm_num
          · have : JSNum.halfGapBelow m1 target = 2 ^ (target - 1) := by
              unfold JSNum.halfGapBelow
              rw [if_neg hcase]
            rw [this] at h
            exact hlowertie h

theorem JSNum.gap_above (m : Nat) (t : Int) (hC : JSNum.Canon m t)
    (m' : Nat) (e' : Int) (hm' : m' < 2 ^ 53) (he' : -1074 ≤ e')
    (h : (m : ℚ) * 2 ^ t < (m' : ℚ) * 2 ^ e') :
    (m : ℚ) * 2 ^ t + 2 ^ t ≤ (m' : ℚ) * 2 ^ e' := by
  by_cases hcmp : t ≤ e'
  · obtain ⟨d, hd⟩ : ∃ d : Nat, e' = t + d := ⟨(e' - t).toNat, by omega⟩
    have hpos : (0 : ℚ) < 2 ^ t := by positivity
    rw [hd, two_zpow_add_nat] at h ⊢
    have h1 : (m : ℚ) < (m' : ℚ) * 2 ^ d := by
      have : (m : ℚ) * 2 ^ t < ((m' : ℚ) * 2 ^ d) * 2 ^ t := by linarith
      exact lt_of_mul_lt_mul_right this hpos.le
    have h2 : m < m' * 2 ^ d := by exact_mod_cast h1
    have h3 : ((m + 1 : Nat) : ℚ) ≤ ((m' * 2 ^ d : Nat) : ℚ) := by exact_mod_cast h2
    push_cast at h3
    nlinarith
  · exfalso
    obtain ⟨d, hd⟩ : ∃ d : Nat, t = e' + d := ⟨(t - e').toNat, by omega⟩
    have hdpos : 0 < d := by omega
    have hpos : (0 : ℚ) < 2 ^ e' := by positivity
    rw [hd, two_zpow_add_nat] at h
    have h1 : (m : ℚ) * 2 ^ d < (m' : ℚ) := by
      have : ((m : ℚ) * 2 ^ d) * 2 ^ e' < (m' : ℚ) * 2 ^ e' := by linarith
      exact lt_of_mul_lt_mul_right this hpos.le
    have h2 : m * 2 ^ d < m' := by exact_mod_cast h1
    rcases hC with ⟨_, ht⟩ | ⟨hm52, _, _, _⟩
    · omega
    · have h3 : 2 ^ 52 * 2 ^ 1 ≤ m * 2 ^ d :=
        Nat.mul_le_mul hm52 (Nat.pow_le_pow_right (by norm_num) hdpos)
      omega

theorem JSNum.gap_below (m : Nat) (t : Int) (hC : JSNum.Canon m t)
    (m' : Nat) (e' : Int) (hm' : m' < 2 ^ 53) (he' : -1074 ≤ e')
    (h : (m' : ℚ) * 2 ^ e' < (m : ℚ) * 2 ^ t) :
    (m' : ℚ) * 2 ^ e' ≤ (m : ℚ) * 2 ^ t - 2 * JSNum.halfGapBelow m t := by
  by_cases hcmp : t ≤ e'
  · obtain ⟨d, hd⟩ : ∃ d : Nat, e' = t + d := ⟨(e' - t).toNat, by omega⟩
    have hpos : (0 : ℚ) < 2 ^ t := by positivity
    have hg := JSNum.halfGapBelow_le m t
    have h2t : (2 : ℚ) * 2 ^ (t - 1) = 2 ^ t := by
      have : t = (t - 1) + 1 := by omega
      conv_rhs => rw [this, zpow_add₀ (by norm_num : (2 : ℚ) ≠ 0)]
      ring
    rw [hd, two_zpow_add_nat] at h ⊢
    have h1 : (m' : ℚ) * 2 ^ d < (m : ℚ) := by
      have : ((m' : ℚ) * 2 ^ d) * 2 ^ t < (m : ℚ) * 2 ^ t := by linarith
      exact lt_of_mul_lt_mul_right this hpos.le
    have h2 : m' * 2 ^ d < m := by exact_mod_cast h1
    have h3 : ((m' * 2 ^ d + 1 : Nat) : ℚ) ≤ (m : ℚ) := by exact_mod_cast h2
    push_cast at h3
    nlinarith
  · obtain ⟨d, hd⟩ : ∃ d : Nat, t = e' + d := ⟨(t - e').toNat, by omega⟩
    have hdpos : 0 < d := by omega
    have hpos : (0 : ℚ) < 2 ^ e' := by positivity
    rcases hC with ⟨_, ht⟩ | ⟨hm52, hm53, _, _⟩
    · omega
    · have hd2 : 2 ^ d = 2 * 2 ^ (d - 1) := by
        obtain ⟨k, rfl⟩ : ∃ k, d = k + 1 := ⟨d - 1, by omega⟩
        simp [pow_succ]; ring
      have hdp : 0 < 2 ^ (d - 1) := by positivity
      by_cases h52 : m = 2 ^ 52
      · have hhg : JSNum.halfGapBelow m t = 2 ^ (t - 2) := by
          unfold JSNum.halfGapBelow
          rw [if_pos ⟨h52, by omega⟩]
        have h2g : (2 : ℚ) * 2 ^ (t - 2) = ((2 ^ (d - 1) : Nat) : ℚ) * 2 ^ e' := by
          have : t - 2 = e' + ((d - 1 : Nat) : Int) - 1 := by omega
          rw [this, zpow_sub₀ (by norm_num : (2 : ℚ) ≠ 0), two_zpow_add_nat]
          push_cast
          field_simp
          ring
        have hv : (m : ℚ) * 2 ^ t = ((m * 2 ^ d : Nat) : ℚ) * 2 ^ e' := by
          rw [hd, two_zpow_add_nat]; push_cast; ring
        rw [hhg, h2g, hv, ← sub_mul]
        have hnat : m' + 2 ^ (d - 1) ≤ m * 2 ^ d := by
          rw [h52, hd2]
          have : 2 ^ 52 * (2 * 2 ^ (d - 1)) = 2 ^ 53 * 2 ^ (d - 1) := by ring
          rw [this]
          have : 2 ^ 53 * 2 ^ (d - 1) = (2 ^ 53 - 1) * 2 ^ (d - 1) + 2 ^ (d - 1) := by
            have h1 : (2 ^ 53 - 1) + 1 = 2 ^ 53 := by norm_num
            calc 2 ^ 53 * 2 ^ (d - 1) = ((2 ^ 53 - 1) + 1) * 2 ^ (d - 1) := by rw [h1]
              _ = (2 ^ 53 - 1) * 2 ^ (d - 1) + 2 ^ (d - 1) := by ring
          rw [this]
          have : (2 ^ 53 - 1) * 1 ≤ (2 ^ 53 - 1) * 2 ^ (d - 1) :=
            Nat.mul_le_mul_left _ hdp
          omega
        have hq : (m' : ℚ) + ((2 ^ (d - 1) : Nat) : ℚ) ≤ ((m * 2 ^ d : Nat) : ℚ) := by
          exact_mod_cast hnat
        exact mul_le_mul_of_nonneg_right (by linarith) hpos.le
      · have hhg : JSNum.halfGapBelow m t = 2 ^ (t - 1) := by
          unfold JSNum.halfGapBelow
          rw [if_neg (by intro hh; exact h52 hh.1)]
        have h2g : (2 : ℚ) * 2 ^ (t - 1) = ((2 ^ d : Nat) : ℚ) * 2 ^ e' := by
          have : t - 1 = e' + (d : Int) - 1 := by omega
          rw [this, zpow_sub₀ (by norm_num : (2 : ℚ) ≠ 0), two_zpow_add_nat]
          push_cast
          field_simp
          ring
        have hv : (m : ℚ) * 2 ^ t = ((m * 2 ^ d : Nat) : ℚ) * 2 ^ e' := by
          rw [hd, two_zpow_add_nat]; push_cast; ring
        rw [hhg, h2g, hv, ← sub_mul]
        have hnat : m' + 2 ^ d ≤ m * 2 ^ d := by
          have h1 : (2 ^ 52 + 1) * 2 ^ d ≤ m * 2 ^ d := Nat.mul_le_mul_right _ (by omega)
          have h2 : 2 ^ 52 * 2 ^ 1 ≤ 2 ^ 52 * 2 ^ d :=
            Nat.mul_le_mul_left _ (Nat.pow_le_pow_right (by norm_num) hdpos)
          have h3 : (2 ^ 52 + 1) * 2 ^ d = 2 ^ 52 * 2 ^ d + 2 ^ d := by ring
          omega
        have hq : (m' : ℚ) + ((2 ^ d : Nat) : ℚ) ≤ ((m * 2 ^ d : Nat) : ℚ) := by
          exact_mod_cast hnat
        exact mul_le_mul_of_nonneg_right (by linarith) hpos.le

theorem JSNum.canon_unique (m m' : Nat) (t t' : Int) (hC : JSNum.Canon m t)
    (hC' : JSNum.Canon m' t') (hm : 0 < m) (hm' : 0 < m')
    (h : (m : ℚ) * 2 ^ t = (m' : ℚ) * 2 ^ t') : m = m' ∧ t = t' := by
  have key : ∀ (a b : Nat) (u w : Int), JSNum.Canon a u → JSNum.Canon b w → 0 < a → 0 < b →
      (a : ℚ) * 2 ^ u = (b : ℚ) * 2 ^ w → u ≤ w → a = b ∧ u = w := by
    intro a b u w hA hB ha hb hab huw
    obtain ⟨d, hd⟩ : ∃ d : Nat, w = u + d := ⟨(w - u).toNat, by omega⟩
    have hpos : (0 : ℚ) < 2 ^ u := by positivity
    rw [hd, two_zpow_add_nat] at hab
    have h1 : (a : ℚ) = (b : ℚ) * 2 ^ d := by
      have : (a : ℚ) * 2 ^ u = ((b : ℚ) * 2 ^ d) * 2 ^ u := by linarith
      exact mul_right_cancel₀ hpos.ne' this
    have h2 : a = b * 2 ^ d := by exact_mod_cast h1
    by_cases hd0 : d = 0
    · subst hd0
      simp at h2
      exact ⟨h2, by omega⟩
    · exfalso
      have hdpos : 0 < d := Nat.pos_of_ne_zero hd0
      have halt : a < 2 ^ 53 := by
        rcases hA with ⟨h, _⟩ | ⟨_, h, _, _⟩ <;> omega
      rcases hB with ⟨_, hw⟩ | ⟨hb52, _, _, _⟩
      · rcases hA with ⟨_, hu⟩ | ⟨_, _, hu, _⟩ <;> omega
      · have h3 : 2 ^ 52 * 2 ^ 1 ≤ b * 2 ^ d :=
          Nat.mul_le_mul hb52 (Nat.pow_le_pow_right (by norm_num) hdpos)
        omega
  by_cases htt : t ≤ t'
  · exact key m m' t t' hC hC' hm hm' h htt
  · obtain ⟨h1, h2⟩ := key m' m t' t hC' hC hm' hm h.symm (by omega)
    exact ⟨h1.symm, h2.symm⟩

theorem JSNum.canon_lt (m : Nat) (t : Int) (hC : JSNum.Canon m t) : m < 2 ^ 53 := by
  rcases hC with ⟨h, _⟩ | ⟨_, h, _, _⟩ <;> omega

theorem JSNum.canon_ge (m : Nat) (t : Int) (hC : JSNum.Canon m t) : -1074 ≤ t := by
  rcases hC with ⟨_, h⟩ | ⟨_, _, h, _⟩ <;> omega

theorem JSNum.canon_le (m : Nat) (t : Int) (hC : JSNum.Canon m t) : t ≤ 971 := by
  rcases hC with ⟨_, h⟩ | ⟨_, _, _, h⟩ <;> omega

theorem two_zpow_pred (t : Int) : (2 : ℚ) ^ t = 2 * 2 ^ (t - 1) := by
  have : t = (t - 1) + 1 := by omega
  conv_lhs => rw [this, zpow_add₀ (by norm_num : (2 : ℚ) ≠ 0)]
  ring

/-- A value in normal form is at least as near to every point of its rounding
interval as any other binary64 value. -/
theorem JSNum.nearest_of_interval (y : ℚ) (m : Nat) (t : Int) (hC : JSNum.Canon m t)
    (hup : y ≤ (m : ℚ) * 2 ^ t + 2 ^ (t - 1))
    (hlow : (m : ℚ) * 2 ^ t - JSNum.halfGapBelow m t ≤ y)
    (m' : Nat) (e' : Int) (hm' : m' < 2 ^ 53) (he' : -1074 ≤ e') :
    |(m : ℚ) * 2 ^ t - y| ≤ |(m' : ℚ) * 2 ^ e' - y| := by
  have hg1 := JSNum.halfGapBelow_le m t
  have hg0 := JSNum.halfGapBelow_pos m t
  have h2t := two_zpow_pred t
  have hpos : (0 : ℚ) < 2 ^ (t - 1) := by positivity
  have h1 : y - (m' : ℚ) * 2 ^ e' ≤ |(m' : ℚ) * 2 ^ e' - y| := by
    rw [abs_sub_comm]; exact le_abs_self _
  have h2 : (m' : ℚ) * 2 ^ e' - y ≤ |(m' : ℚ) * 2 ^ e' - y| := le_abs_self _
  rcases lt_trichotomy ((m' : ℚ) * 2 ^ e') ((m : ℚ) * 2 ^ t) with h | h | h
  · have hb := JSNum.gap_below m t hC m' e' hm' he' h
    exact abs_le.2 ⟨by linarith, by linarith⟩
  · rw [h]
  · have ha := JSNum.gap_above m t hC m' e' hm' he' h
    exact abs_le.2 ⟨by linarith, by linarith⟩

/-- When another binary64 value is exactly as near, the significand is even. -/
theorem JSNum.even_of_tie (y : ℚ) (m : Nat) (t : Int) (hC : JSNum.Canon m t)
    (hup : y ≤ (m : ℚ) * 2 ^ t + 2 ^ (t - 1))
    (huptie : y = (m : ℚ) * 2 ^ t + 2 ^ (t - 1) → m % 2 = 0)
    (hlow : (m : ℚ) * 2 ^ t - JSNum.halfGapBelow m t ≤ y)
    (hlowtie : y = (m : ℚ) * 2 ^ t - JSNum.halfGapBelow m t → m % 2 = 0)
    (m' : Nat) (e' : Int) (hm' : m' < 2 ^ 53) (he' : -1074 ≤ e')
    (hne : (m' : ℚ) * 2 ^ e' ≠ (m : ℚ) * 2 ^ t)
    (htie : |(m : ℚ) * 2 ^ t - y| = |(m' : ℚ) * 2 ^ e' - y|) : m % 2 = 0 := by
  have hg1 := JSNum.halfGapBelow_le m t
  have hg0 := JSNum.halfGapBelow_pos m t
  have h2t := two_zpow_pred t
  have hpos : (0 : ℚ) < 2 ^ (t - 1) := by positivity
  have hsum : 2 * y = (m : ℚ) * 2 ^ t + (m' : ℚ) * 2 ^ e' := by
    rcases abs_eq_abs.1 htie with h | h
    · exfalso
      apply hne
      linarith
    · linarith
  rcases lt_trichotomy ((m' : ℚ) * 2 ^ e') ((m : ℚ) * 2 ^ t) with h | h | h
  · have hb := JSNum.gap_below m t hC m' e' hm' he' h
    apply hlowtie
    linarith
  · exact absurd h hne
  · have ha := JSNum.gap_above m t hC m' e' hm' he' h
    apply huptie
    linarith

/-- Rounding returns the value in normal form whose open rounding interval holds the
argument. -/
theorem JSNum.round_eq_of_mem (neg : Bool) (M : Nat) (E : Int) (m : Nat) (t : Int)
    (hC : JSNum.Canon m t) (hm : 0 < m)
    (hlow : (m : ℚ) * 2 ^ t - JSNum.halfGapBelow m t < (M : ℚ) * 2 ^ E)
    (hup : (M : ℚ) * 2 ^ E < (m : ℚ) * 2 ^ t + 2 ^ (t - 1)) :
    JSNum.round neg M E = .fin neg m t := by
  have hg1 := JSNum.halfGapBelow_le m t
  have hg0 := JSNum.halfGapBelow_pos m t
  have h2t := two_zpow_pred t
  have hpos : (0 : ℚ) < 2 ^ (t - 1) := by positivity
  have hm1 : (1 : ℚ) ≤ (m : ℚ) := by exact_mod_cast hm
  have hmlt := JSNum.canon_lt m t hC
  have htge := JSNum.canon_ge m t hC
  have htle := JSNum.canon_le m t hC
  have hMpos : 0 < M := by
    rcases Nat.eq_zero_or_pos M with h0 | h0
    · subst h0
      simp at hlow
      nlinarith
    · exact h0
  rcases JSNum.round_spec neg M E hMpos with ⟨_, hov⟩ | ⟨_, hun⟩ | ⟨m2, t2, hr, hm2, hC2, hup2, _, hlow2, _⟩
  · exfalso
    have h1 : (m : ℚ) * 2 ^ t + 2 ^ (t - 1) ≤ (2 : ℚ) ^ (1024 : ℤ) - 2 ^ (970 : ℤ) := by
      have hthr : (2 : ℚ) ^ (1024 : ℤ) - 2 ^ (970 : ℤ) = (2 ^ 54 - 1) * 2 ^ (970 : ℤ) := by
        norm_num
      rw [hthr, h2t]
      have hmq : (2 : ℚ) * m + 1 ≤ 2 ^ 54 - 1 := by
        have : 2 * m + 1 ≤ 2 ^ 54 - 1 := by omega
        have h2 : ((2 * m + 1 : Nat) : ℚ) ≤ ((2 ^ 54 - 1 : Nat) : ℚ) := by exact_mod_cast this
        push_cast at h2
        norm_num at h2 ⊢
        linarith
      have hpw : (2 : ℚ) ^ (t - 1) ≤ 2 ^ (970 : ℤ) := two_zpow_mono (by omega)
      have : (m : ℚ) * (2 * 2 ^ (t - 1)) + 2 ^ (t - 1) = (2 * m + 1) * 2 ^ (t - 1) := by ring
      rw [this]
      exact mul_le_mul hmq hpw hpos.le (by norm_num)
    linarith
  · exfalso
    have h1 : (2 : ℚ) ^ (-1075 : ℤ) ≤ (m : ℚ) * 2 ^ t - JSNum.halfGapBelow m t := by
      have hpw : (2 : ℚ) ^ (-1075 : ℤ) ≤ 2 ^ (t - 1) := two_zpow_mono (by omega)
      nlinarith
    linarith
  · have hg21 := JSNum.halfGapBelow_le m2 t2
    have hg20 := JSNum.halfGapBelow_pos m2 t2
    have h2t2 := two_zpow_pred t2
    have hval : (m2 : ℚ) * 2 ^ t2 = (m : ℚ) * 2 ^ t := by
      rcases lt_trichotomy ((m2 : ℚ) * 2 ^ t2) ((m : ℚ) * 2 ^ t) with h | h | h
      · exfalso
        have ha := JSNum.gap_above m2 t2 hC2 m t hmlt htge h
        have hb := JSNum.gap_below m t hC m2 t2 (JSNum.canon_lt m2 t2 hC2)
          (JSNum.canon_ge m2 t2 hC2) h
        linarith
      · exact h
      · exfalso
        have ha := JSNum.gap_above m t hC m2 t2 (JSNum.canon_lt m2 t2 hC2)
          (JSNum.canon_ge m2 t2 hC2) h
        have hb := JSNum.gap_below m2 t2 hC2 m t hmlt htge h
        linarith
    obtain ⟨e1, e2⟩ := JSNum.canon_unique m2 m t2 t hC2 hC hm2 hm hval
    rw [hr, e1, e2]

theorem JSNum.roundRatio_eq_of_mem (neg : Bool) (p q : Nat) (hq : 0 < q) (m : Nat) (t : Int)
    (hC : JSNum.Canon m t) (hm : 0 < m)
    (hlow : (m : ℚ) * 2 ^ t - JSNum.halfGapBelow m t < (p : ℚ) / q)
    (hup : (p : ℚ) / q < (m : ℚ) * 2 ^ t + 2 ^ (t - 1)) :
    JSNum.roundRatio neg p q = .fin neg m t := by
  have hqq : (0 : ℚ) < (q : ℚ) := by exact_mod_cast hq
  have htge := JSNum.canon_ge m t hC
  have hg1 := JSNum.halfGapBelow_le m t
  have hg0 := JSNum.halfGapBelow_pos m t
  have hm1 : (1 : ℚ) ≤ (m : ℚ) := by exact_mod_cast hm
  have h2t := two_zpow_pred t
  have hposA : 0 < (m : ℚ) * 2 ^ t - JSNum.halfGapBelow m t := by
    have : (0 : ℚ) < 2 ^ (t - 1) := by positivity
    nlinarith
  have hp : p ≠ 0 := by
    intro h0
    subst h0
    simp at hlow
    linarith
  unfold JSNum.roundRatio
  simp only [hp, if_false]
  generalize hk : 1100 + JSNum.bitLength q = k
  have hk1100 : 1100 ≤ k := by omega
  obtain ⟨u, hu⟩ : ∃ u : Nat, t + (k : Int) = (u : Int) + 2 := ⟨(t + k - 2).toNat, by omega⟩
  -- the ends of the rounding interval on the grid of 2^-k
  have hkpos : (0 : ℚ) < 2 ^ (-(k : Int)) := by positivity
  have hv : (m : ℚ) * 2 ^ t = ((4 * m * 2 ^ u : Nat) : ℚ) * 2 ^ (-(k : Int)) := by
    have : t = -(k : Int) + ((u + 2 : Nat) : Int) := by push_cast; omega
    rw [this, two_zpow_add_nat]
    push_cast
    ring
  have hh : (2 : ℚ) ^ (t - 1) = ((2 * 2 ^ u : Nat) : ℚ) * 2 ^ (-(k : Int)) := by
    have : t - 1 = -(k : Int) + ((u + 1 : Nat) : Int) := by push_cast; omega
    rw [this, two_zpow_add_nat]
    push_cast
    ring
  have hh2 : (2 : ℚ) ^ (t - 2) = ((2 ^ u : Nat) : ℚ) * 2 ^ (-(k : Int)) := by
    have : t - 2 = -(k : Int) + (u : Int) := by omega
    rw [this, two_zpow_add_nat]
    push_cast
    ring
  obtain ⟨g, hgle, hgpos, hg⟩ : ∃ g : Nat, g ≤ 2 * 2 ^ u ∧ 0 < g ∧
      JSNum.halfGapBelow m t = (g : ℚ) * 2 ^ (-(k : Int)) := by
    unfold JSNum.halfGapBelow
    split_ifs
    · exact ⟨2 ^ u, by omega, by positivity, hh2⟩
    · exact ⟨2 * 2 ^ u, le_rfl, by positivity, hh⟩
  have hupos : 0 < 2 ^ u := by positivity
  have hmu : 4 * 2 ^ u ≤ 4 * m * 2 ^ u := by
    have : 1 * 2 ^ u ≤ m * 2 ^ u := Nat.mul_le_mul_right _ hm
    nlinarith
  set a : Nat := 4 * m * 2 ^ u - g with ha
  set b : Nat := 4 * m * 2 ^ u + 2 * 2 ^ u with hb
  have hA : (m : ℚ) * 2 ^ t - JSNum.halfGapBelow m t = (a : ℚ) * 2 ^ (-(k : Int)) := by
    rw [hv, hg, ← sub_mul]
    congr 1
    rw [ha, Nat.cast_sub (by omega)]
  have hB : (m : ℚ) * 2 ^ t + 2 ^ (t - 1) = (b : ℚ) * 2 ^ (-(k : Int)) := by
    rw [hv, hh, ← add_mul]
    congr 1
    rw [hb]
    push_cast
    ring
  clear_value a b
  have h2k : (2 : ℚ) ^ (-(k : Int)) * 2 ^ k = 1 := by
    rw [zpow_neg, zpow_natCast]
    field_simp
  -- the ratio lies strictly between the two grid points
  have hlowN : a * q < p * 2 ^ k := by
    rw [hA] at hlow
    have h1 : (a : ℚ) * 2 ^ (-(k : Int)) * ((q : ℚ) * 2 ^ k) < (p : ℚ) / q * ((q : ℚ) * 2 ^ k) :=
      mul_lt_mul_of_pos_right hlow (by positivity)
    have h2 : (a : ℚ) * 2 ^ (-(k : Int)) * ((q : ℚ) * 2 ^ k) = (a : ℚ) * q := by
      calc (a : ℚ) * 2 ^ (-(k : Int)) * ((q : ℚ) * 2 ^ k)
          = (a : ℚ) * q * (2 ^ (-(k : Int)) * 2 ^ k) := by ring
        _ = (a : ℚ) * q := by rw [h2k]; ring
    have h3 : (p : ℚ) / q * ((q : ℚ) * 2 ^ k) = (p : ℚ) * 2 ^ k := by
      field_simp
      ring
    rw [h2, h3] at h1
    exact_mod_cast h1
  have hupN : p * 2 ^ k < b * q := by
    rw [hB] at hup
    have h1 : (p : ℚ) / q * ((q : ℚ) * 2 ^ k) < (b : ℚ) * 2 ^ (-(k : Int)) * ((q : ℚ) * 2 ^ k) :=
      mul_lt_mul_of_pos_right hup (by positivity)
    have h2 : (b : ℚ) * 2 ^ (-(k : Int)) * ((q : ℚ) * 2 ^ k) = (b : ℚ) * q := by
      calc (b : ℚ) * 2 ^ (-(k : Int)) * ((q : ℚ) * 2 ^ k)
          = (b : ℚ) * q * (2 ^ (-(k : Int)) * 2 ^ k) := by ring
        _ = (b : ℚ) * q := by rw [h2k]; ring
    have h3 : (p : ℚ) / q * ((q : ℚ) * 2 ^ k) = (p : ℚ) * 2 ^ k := by
      field_simp
      ring
    rw [h2, h3] at h1
    exact_mod_cast h1
  have hdm := Nat.div_add_mod (p * 2 ^ k) q
  have hmodlt := Nat.mod_lt (p * 2 ^ k) hq
  generalize hn : p * 2 ^ k / q = n at *
  generalize hr : p * 2 ^ k % q = r at *
  generalize hP : p * 2 ^ k = P at *
  have han : a ≤ n := by
    by_contra hcon
    have h1 : (n + 1) * q ≤ a * q := Nat.mul_le_mul_right _ (by omega)
    have h2 : (n + 1) * q = q * n + q := by ring
    omega
  have hnb : n + 1 ≤ b := by
    by_contra hcon
    have h1 : b * q ≤ n * q := Nat.mul_le_mul_right _ (by omega)
    have h2 : n * q = q * n := by ring
    omega
  have hsticky : a = n → r ≠ 0 := by
    intro h hr0
    subst h
    rw [hr0] at hdm
    have h2 : a * q = q * a := by ring
    omega
  have hE : (2 : ℚ) ^ (-(k : Int)) = 2 * 2 ^ (-((k : Int) + 1)) := by
    have := two_zpow_pred (-(k : Int))
    rw [this]
    congr 2
    omega
  have hEpos : (0 : ℚ) < 2 ^ (-((k : Int) + 1)) := by positivity
  apply JSNum.round_eq_of_mem neg _ _ m t hC hm
  · rw [hA, hE]
    have : 2 * a < 2 * n + (if r = 0 then 0 else 1) := by
      by_cases h : a = n
      · have := hsticky h
        simp [this]
        omega
      · have : a < n := by omega
        split_ifs <;> omega
    have hq2 : ((2 * a : Nat) : ℚ) < ((2 * n + (if r = 0 then 0 else 1) : Nat) : ℚ) := by
      exact_mod_cast this
    have := mul_lt_mul_of_pos_right hq2 hEpos
    push_cast at this ⊢
    linarith
  · rw [hB, hE]
    have : 2 * n + (if r = 0 then 0 else 1) < 2 * b := by
      split_ifs <;> omega
    have hq2 : ((2 * n + (if r = 0 then 0 else 1) : Nat) : ℚ) < ((2 * b : Nat) : ℚ) := by
      exact_mod_cast this
    have := mul_lt_mul_of_pos_right hq2 hEpos
    push_cast at this ⊢
    linarith

theorem JSNum.ofDecimal_eq_of_mem (neg : Bool) (s : Nat) (j : Int) (m : Nat) (t : Int)
    (hC : JSNum.Canon m t) (hm : 0 < m)
    (hlow : (m : ℚ) * 2 ^ t - JSNum.halfGapBelow m t < (s : ℚ) * 10 ^ j)
    (hup : (s : ℚ) * 10 ^ j < (m : ℚ) * 2 ^ t + 2 ^ (t - 1)) :
    JSNum.ofDecimal neg s j = .fin neg m t := by
  unfold JSNum.ofDecimal
  by_cases hj : 0 ≤ j
  · obtain ⟨d, rfl⟩ : ∃ d : Nat, j = d := ⟨j.toNat, by omega⟩
    simp only [hj, if_true, Int.toNat_natCast]
    apply JSNum.round_eq_of_mem neg _ _ m t hC hm
    · rw [zpow_natCast] at hlow
      push_cast
      simpa using hlow
    · rw [zpow_natCast] at hup
      push_cast
      simpa using hup
  · obtain ⟨d, hd⟩ : ∃ d : Nat, (d : Int) = -j := ⟨(-j).toNat, by omega⟩
    have hj2 : j = -(d : Int) := by omega
    simp only [hj, if_false, ← hd, Int.toNat_natCast]
    have hval : (s : ℚ) * 10 ^ j = (s : ℚ) / ((10 ^ d : Nat) : ℚ) := by
      rw [hj2, zpow_neg, zpow_natCast]
      push_cast
      rw [div_eq_mul_inv]
    rw [hval] at hlow hup
    exact JSNum.roundRatio_eq_of_mem neg s (10 ^ d) (by positivity) m t hC hm hlow hup

/-! ## Decimal rendering -/

theorem decimalDigits_eq_digits (fuel n : Nat) (h : n < fuel) :
    decimalDigits fuel n = Nat.digits 10 n := by
  induction fuel generalizing n with
  | zero => omega
  | succ fuel ih =>
    by_cases hn : n = 0
    · simp [decimalDigits, hn]
    · have hpos : 0 < n := Nat.pos_of_ne_zero hn
      have hdiv : n / 10 < fuel := by
        have := Nat.div_lt_self hpos (by norm_num : 1 < 10)
        omega
      rw [Nat.digits_def' (by norm_num) hpos]
      simp [decimalDigits, hn, ih _ hdiv]

theorem decimalRepr_of_pos (n : Nat) (h : 0 < n) :
    decimalRepr n = ((Nat.digits 10 n).reverse).map digitChar := by
  have hn : n ≠ 0 := by omega
  simp [decimalRepr, hn, decimalDigits_eq_digits (n + 1) n (by omega)]

theorem fixedDigits_two (n : Nat) :
    fixedDigits n 2 =
      decimalRepr (n / 100) ++ ['.', digitChar (n / 10 % 10), digitChar (n % 10)] := by
  by_cases h0 : n = 0
  · subst h0; decide
  have hpos : 0 < n := Nat.pos_of_ne_zero h0
  by_cases h10 : n < 10
  · have hd : Nat.digits 10 n = [n] := by
      rw [Nat.digits_def' (by norm_num) hpos]
      simp [Nat.mod_eq_of_lt h10, Nat.div_eq_of_lt h10]
    have h100 : n / 100 = 0 := Nat.div_eq_of_lt (by omega)
    have h1 : n / 10 % 10 = 0 := by simp [Nat.div_eq_of_lt h10]
    have h2 : n % 10 = n := Nat.mod_eq_of_lt h10
    have hr0 : decimalRepr 0 = ['0'] := rfl
    simp only [fixedDigits, decimalRepr_of_pos n hpos, hd, h100, h1, h2, hr0]
    simp [List.replicate, digitChar]
  by_cases h100 : n < 100
  · have hq : 0 < n / 10 := Nat.div_pos (by omega) (by norm_num)
    have hq10 : n / 10 < 10 := by omega
    have hd : Nat.digits 10 n = [n % 10, n / 10] := by
      rw [Nat.digits_def' (by norm_num) hpos, Nat.digits_def' (by norm_num) hq]
      simp [Nat.mod_eq_of_lt hq10, Nat.div_eq_of_lt hq10]
    have hz : n / 100 = 0 := Nat.div_eq_of_lt h100
    have h1 : n / 10 % 10 = n / 10 := Nat.mod_eq_of_lt hq10
    have hr0 : decimalRepr 0 = ['0'] := rfl
    simp only [fixedDigits, decimalRepr_of_pos n hpos, hd, hz, h1, hr0]
    simp [List.replicate, digitChar]
  · have hq : 0 < n / 10 := Nat.div_pos (by omega) (by norm_num)
    have hqq : 0 < n / 100 := Nat.div_pos (by omega) (by norm_num)
    have hdd : n / 10 / 10 = n / 100 := by rw [Nat.div_div_eq_div_mul]
    have hd : Nat.digits 10 n = (n % 10) :: (n / 10 % 10) :: Nat.digits 10 (n / 100) := by
      rw [Nat.digits_def' (by norm_num) hpos, Nat.digits_def' (by norm_num) hq, hdd]
    have hlen : ¬ ((Nat.digits 10 (n / 100)).length + 2 ≤ 2) := by
      have : (Nat.digits 10 (n / 100)) ≠ [] := by
        simpa [Nat.digits_eq_nil_iff_eq_zero] using (by omega : n / 100 ≠ 0)
      have := List.length_pos.2 this
      omega
    simp only [fixedDigits, decimalRepr_of_pos n hpos, decimalRepr_of_pos _ hqq, hd,
      List.reverse_cons, List.map_append, List.map_cons, List.map_nil, List.length_append,
      List.length_map, List.length_reverse, List.length_cons, List.length_nil,
      List.append_assoc, List.singleton_append]
    simp only [show ¬ (2 = 0) by decide, if_false, Nat.zero_add, hlen, Nat.add_sub_cancel]
    rw [List.take_left', List.drop_left']
    · simp
    · simp

theorem nearestScaled_bounds (m : Nat) (e : Int) (f : Nat) :
    ((nearestScaled m e f : Nat) : ℚ) ≤ (10 : ℚ) ^ f * ((m : ℚ) * (2 : ℚ) ^ e) + 1 / 2 ∧
    (10 : ℚ) ^ f * ((m : ℚ) * (2 : ℚ) ^ e) + 1 / 2 < ((nearestScaled m e f : Nat) : ℚ) + 1 := by
  unfold nearestScaled
  by_cases he : 0 ≤ e
  · obtain ⟨k, rfl⟩ : ∃ k : Nat, e = k := ⟨e.toNat, by omega⟩
    simp only [he, if_true, Int.toNat_natCast, zpow_natCast]
    push_cast
    constructor <;> linarith
  · obtain ⟨k, hk⟩ : ∃ k : Nat, (k : Int) = -e := ⟨(-e).toNat, by omega⟩
    have he2 : e = -(k : Int) := by omega
    simp only [he, if_false, ← hk, Int.toNat_natCast]
    have hD : 0 < 2 ^ (k + 1) := by positivity
    have h1 := Nat.div_mul_le_self (2 * 10 ^ f * m + 2 ^ k) (2 ^ (k + 1))
    have h2 := Nat.lt_div_mul_add (a := 2 * 10 ^ f * m + 2 ^ k) hD
    generalize (2 * 10 ^ f * m + 2 ^ k) / 2 ^ (k + 1) = n at *
    have hq1 : (n : ℚ) * 2 ^ (k + 1) ≤ 2 * 10 ^ f * m + 2 ^ k := by exact_mod_cast h1
    have hq2 : (2 : ℚ) * 10 ^ f * m + 2 ^ k < n * 2 ^ (k + 1) + 2 ^ (k + 1) := by
      exact_mod_cast h2
    have hkpos : (0 : ℚ) < 2 ^ k := by positivity
    have hval : (10 : ℚ) ^ f * ((m : ℚ) * (2 : ℚ) ^ e) + 1 / 2
        = (2 * 10 ^ f * m + 2 ^ k) / 2 ^ (k + 1) := by
      rw [he2, zpow_neg, zpow_natCast, pow_succ]
      field_simp
      ring
    rw [hval, le_div_iff₀ (by positivity), div_lt_iff₀ (by positivity)]
    constructor
    · exact hq1
    · linarith

theorem atLeast1e21_eq_false (m : Nat) (e : Int)
    (h : (m : ℚ) * (2 : ℚ) ^ e < 10 ^ 21) : atLeast1e21 m e = false := by
  unfold atLeast1e21
  by_cases he : 0 ≤ e
  · obtain ⟨k, rfl⟩ : ∃ k : Nat, e = k := ⟨e.toNat, by omega⟩
    simp only [he, if_true, Int.toNat_natCast, decide_eq_false_iff_not, not_le]
    rw [zpow_natCast] at h
    exact_mod_cast h
  · obtain ⟨k, hk⟩ : ∃ k : Nat, (k : Int) = -e := ⟨(-e).toNat, by omega⟩
    have he2 : e = -(k : Int) := by omega
    simp only [he, if_false, ← hk, Int.toNat_natCast, decide_eq_false_iff_not, not_le]
    rw [he2, zpow_neg, zpow_natCast, ← div_eq_mul_inv, div_lt_iff₀ (by positivity)] at h
    exact_mod_cast h

theorem atLeast1e21_eq_true (m : Nat) (e : Int)
    (h : (10 : ℚ) ^ 21 ≤ (m : ℚ) * (2 : ℚ) ^ e) : atLeast1e21 m e = true := by
  unfold atLeast1e21
  by_cases he : 0 ≤ e
  · obtain ⟨k, rfl⟩ : ∃ k : Nat, e = k := ⟨e.toNat, by omega⟩
    simp only [he, if_true, Int.toNat_natCast, decide_eq_true_eq]
    rw [zpow_natCast] at h
    exact_mod_cast h
  · obtain ⟨k, hk⟩ : ∃ k : Nat, (k : Int) = -e := ⟨(-e).toNat, by omega⟩
    have he2 : e = -(k : Int) := by omega
    simp only [he, if_false, ← hk, Int.toNat_natCast, decide_eq_true_eq]
    rw [he2, zpow_neg, zpow_natCast, ← div_eq_mul_inv, le_div_iff₀ (by positivity)] at h
    exact_mod_cast h

theorem toFixed_two_of_lt (m : Nat) (e : Int) (h : (m : ℚ) * (2 : ℚ) ^ e < 10 ^ 21) :
    ∃ n : Nat,
      (n : ℚ) ≤ 100 * ((m : ℚ) * (2 : ℚ) ^ e) + 1 / 2 ∧
      100 * ((m : ℚ) * (2 : ℚ) ^ e) + 1 / 2 < (n : ℚ) + 1 ∧
      toFixed (.fin false m e) 2 =
        some (String.mk (decimalRepr (n / 100) ++
          ['.', digitChar (n / 10 % 10), digitChar (n % 10)])) := by
  obtain ⟨h1, h2⟩ := nearestScaled_bounds m e 2
  refine ⟨nearestScaled m e 2, by norm_num at h1 ⊢; exact h1, by norm_num at h2 ⊢; exact h2, ?_⟩
  simp [toFixed, atLeast1e21_eq_false m e h, fixedDigits_two]

/-! ## Order calculation preview -/

/-- C10, as stated, fails: for the finite positive land area `2^512` and rate
`2^512` the previewed quantity is `Infinity`, which is not finite, and the total
line reads `Total Required: Infinity kg`, which is not a two-decimal figure. -/
theorem calculationPreview_overflow_counterexample :
    JSNum.isDouble (.fin false 1 512) = true ∧
    JSNum.isPos (.fin false 1 512) = true ∧
    calculationPreview
        (some { exampleProfile with landArea := some (.fin false 1 512) })
        [{ id := "f1", name := "Urea", ratePerHectare := .fin false 1 512, unit := "kg" }]
        "f1"
      = [some { key := "f1", quantity := .inf false,
                total := some "Total Required: Infinity kg" }] ∧
    JSNum.isFinite (.inf false) = false := by
  refine ⟨?_, ?_, ?_, ?_⟩ <;> decide

/-! ## Blank text, truthiness and error messages -/

theorem dropWhile_all_iff {α : Type} (p : α → Bool) (l : List α) :
    (∀ c ∈ l.dropWhile p, p c = true) ↔ ∀ c ∈ l, p c = true := by
  induction l with
  | nil => simp
  | cons a rest ih =>
    by_cases h : p a = true
    · simp [List.dropWhile_cons, h, ih]
    · simp [List.dropWhile_cons, h]

theorem jsTrim_eq_empty_iff (s : String) :
    jsTrim s = "" ↔ ∀ c ∈ s.data, isJSWhitespace c = true := by
  have h1 : jsTrim s = "" ↔
      ((s.data.dropWhile isJSWhitespace).reverse.dropWhile isJSWhitespace).reverse = [] := by
    unfold jsTrim
    constructor
    · intro h
      have := congrArg String.data h
      simpa using this
    · intro h
      rw [h]
  rw [h1, List.reverse_eq_nil_iff, List.dropWhile_eq_nil_iff]
  constructor
  · intro h
    refine (dropWhile_all_iff isJSWhitespace s.data).1 ?_
    intro c hc
    exact h c (List.mem_reverse.2 hc)
  · intro h c hc
    exact (dropWhile_all_iff isJSWhitespace s.data).2 h c (List.mem_reverse.1 hc)

theorem truthyStr_eq_false_iff (s : String) : truthyStr s = false ↔ s = "" := by
  simp [truthyStr]

theorem jsOr_truthy (a : JSVal) (fallback : String) (h : fallback ≠ "") :
    (jsOr a (.str fallback)).truthy = true := by
  unfold jsOr
  by_cases ha : a.truthy = true
  · rw [if_pos ha]
    exact ha
  · rw [if_neg ha]
    simp [JSVal.truthy, truthyStr, h]

/-! ## Admin dashboard: declining an order -/

/-- C11: for every order id, when the remarks are blank (empty, or white space
only) `handleDeclineOrder` issues no call, sets the validation error and leaves the
selected order, the remarks and the order list as they were; when the remarks hold a
character that is not white space it issues exactly one decline-order call, whose
body carries those remarks. -/
theorem handleDeclineOrder_validates_remarks (st : AdminDashboard.State) (w : Browser)
    (orderId : String) :
    ((∀ c ∈ st.remarks.data, isJSWhitespace c = true) →
      (AdminDashboard.handleDeclineOrder st w orderId).requests = [] ∧
      (AdminDashboard.handleDeclineOrder st w orderId).state.error
        = .str "Please provide remarks for declining" ∧
      (AdminDashboard.handleDeclineOrder st w orderId).state.selectedOrder = st.selectedOrder ∧
      (AdminDashboard.handleDeclineOrder st w orderId).state.remarks = st.remarks ∧
      (AdminDashboard.handleDeclineOrder st w orderId).state.orders = st.orders) ∧
    ((∃ c ∈ st.remarks.data, isJSWhitespace c = false) →
      (AdminDashboard.handleDeclineOrder st w orderId).requests
        = [adminAPI.declineOrder orderId st.remarks] ∧
      (adminAPI.declineOrder orderId st.remarks).url = "/admin/decline-order/" ++ orderId ∧
      (adminAPI.declineOrder orderId st.remarks).data = .obj [("remarks", .str st.remarks)]) := by
  constructor
  · intro hblank
    have htrim : truthyStr (jsTrim st.remarks) = false :=
      (truthyStr_eq_false_iff _).2 ((jsTrim_eq_empty_iff _).2 hblank)
    simp [AdminDashboard.handleDeclineOrder, htrim, Outcome.stay]
  · rintro ⟨c, hc, hnot⟩
    have htrim : truthyStr (jsTrim st.remarks) = true := by
      rw [truthyStr_eq_true_iff]
      intro hempty
      have := (jsTrim_eq_empty_iff _).1 hempty c hc
      rw [hnot] at this
      exact Bool.noConfusion this
    refine ⟨?_, rfl, rfl⟩
    simp [AdminDashboard.handleDeclineOrder, htrim, Outcome.send]

theorem handleDeclineOrder_validates_remarks_witness :
    (AdminDashboard.handleDeclineOrder { exampleReviewState with remarks := " \n" }
        { localStorage := [], href := "/admin-dashboard" } "o1").requests = [] ∧
    (AdminDashboard.handleDeclineOrder { exampleReviewState with remarks := "No stock" }
        { localStorage := [], href := "/admin-dashboard" } "o1").requests
      = [adminAPI.declineOrder "o1" "No stock"] :=
  ⟨((handleDeclineOrder_validates_remarks { exampleReviewState with remarks := " \n" }
      { localStorage := [], href := "/admin-dashboard" } "o1").1 (by decide)).1,
   ((handleDeclineOrder_validates_remarks { exampleReviewState with remarks := "No stock" }
      { localStorage := [], href := "/admin-dashboard" } "o1").2 ⟨'N', by decide, by decide⟩).1⟩

/-! ## Admin dashboard: after a review -/

theorem AdminDashboard.mem_reviewButtons (st : AdminDashboard.State) (order : Order) :
    order ∈ AdminDashboard.reviewButtons st ↔
      AdminDashboard.ordersTableShown st = true ∧ order ∈ st.orders ∧
        order.status = "pending" := by
  unfold AdminDashboard.reviewButtons
  by_cases h : AdminDashboard.ordersTableShown st = true
  · simp only [h, if_true, List.mem_filter, true_and]
    constructor
    · rintro ⟨hm, hr⟩
      refine ⟨hm, ?_⟩
      by_contra hne
      simp [AdminDashboard.rowAction, hne] at hr
    · rintro ⟨hm, hs⟩
      exact ⟨hm, by simp [AdminDashboard.rowAction, hs]⟩
  · simp [h]

theorem AdminDashboard.afterReview_spec (captured st : AdminDashboard.State) (w : Browser)
    (success : String) :
    (AdminDashboard.afterReview captured st w success).state.selectedOrder = none ∧
    (AdminDashboard.afterReview captured st w success).state.remarks = "" ∧
    AdminDashboard.reviewDialogShown (AdminDashboard.afterReview captured st w success).state
      = false ∧
    (AdminDashboard.afterReview captured st w success).state.orders = st.orders ∧
    (AdminDashboard.afterReview captured st w success).requests
      = [adminAPI.getOrders captured.filterStatus captured.currentPage,
         adminAPI.getMetrics] := by
  simp [AdminDashboard.afterReview, AdminDashboard.fetchOrders, AdminDashboard.fetchMetrics,
    Outcome.send, AdminDashboard.reviewDialogShown]

/-- C12, as stated, fails: after Approve succeeded on the pending order of
`exampleReviewState` the dialog is closed, and the order list, which still holds the
order as it was fetched, renders a Review button for it. -/
theorem review_button_after_approve_counterexample :
    exampleAfterApprove.selectedOrder = none ∧
    AdminDashboard.ordersTableShown exampleAfterApprove = true ∧
    exampleOrder ∈ AdminDashboard.reviewButtons exampleAfterApprove := by
  refine ⟨rfl, ?_, ?_⟩ <;> decide

/-- C12, amended: after a successful approve or decline the review dialog is closed
(no selected order), the remarks are cleared, the order list is left as it was and
a refetch of the orders and of the metrics is issued. In every view state the Review
button is rendered exactly for the orders of the shown list whose status is pending,
so no Review button is rendered for the reviewed order once a refetch has delivered
a list in which it is not pending. -/
theorem review_closes_dialog_and_refetches (captured st : AdminDashboard.State)
    (w : Browser) (orders : List Order) (orderId : String) :
    ((AdminDashboard.handleApproveOrderResolved captured st w).state.selectedOrder = none ∧
     (AdminDashboard.handleApproveOrderResolved captured st w).state.remarks = "" ∧
     AdminDashboard.reviewDialogShown
       (AdminDashboard.handleApproveOrderResolved captured st w).state = false ∧
     (AdminDashboard.handleApproveOrderResolved captured st w).state.orders = st.orders ∧
     (AdminDashboard.handleApproveOrderResolved captured st w).requests
       = [adminAPI.getOrders captured.filterStatus captured.currentPage,
          adminAPI.getMetrics]) ∧
    ((AdminDashboard.handleDeclineOrderResolved captured st w).state.selectedOrder = none ∧
     (AdminDashboard.handleDeclineOrderResolved captured st w).state.remarks = "" ∧
     AdminDashboard.reviewDialogShown
       (AdminDashboard.handleDeclineOrderResolved captured st w).state = false ∧
     (AdminDashboard.handleDeclineOrderResolved captured st w).state.orders = st.orders ∧
     (AdminDashboard.handleDeclineOrderResolved captured st w).requests
       = [adminAPI.getOrders captured.filterStatus captured.currentPage,
          adminAPI.getMetrics]) ∧
    (∀ order, order ∈ AdminDashboard.reviewButtons st ↔
      AdminDashboard.ordersTableShown st = true ∧ order ∈ st.orders ∧
        order.status = "pending") ∧
    ((∀ order ∈ orders, order.id = orderId → order.status ≠ "pending") →
      ∀ order ∈ AdminDashboard.reviewButtons
          (AdminDashboard.fetchOrdersResolved st w orders).state,
        order.id ≠ orderId) := by
  refine ⟨AdminDashboard.afterReview_spec captured st w _,
    AdminDashboard.afterReview_spec captured st w _,
    AdminDashboard.mem_reviewButtons st, ?_⟩
  intro hresolved order hmem hid
  obtain ⟨_, hin, hpending⟩ := (AdminDashboard.mem_reviewButtons _ order).1 hmem
  have hin2 : order ∈ orders := by
    simpa [AdminDashboard.fetchOrdersResolved, Outcome.stay] using hin
  exact hresolved order hin2 hid hpending

theorem review_closes_dialog_and_refetches_witness :
    ∀ order ∈ AdminDashboard.reviewButtons
        (AdminDashboard.fetchOrdersResolved exampleAfterApprove
          { localStorage := [], href := "/admin-dashboard" }
          [{ exampleOrder with status := "approved" }]).state,
      order.id ≠ "o1" :=
  (review_closes_dialog_and_refetches exampleReviewState exampleAfterApprove
    { localStorage := [], href := "/admin-dashboard" }
    [{ exampleOrder with status := "approved" }] "o1").2.2.2 (by decide)

/-! ## Admin dashboard: adding a fertilizer -/

/-- C13, as stated, fails: with name `Urea` and rate `-5`, which is not a positive
number, `handleAddFertilizer` sets no validation error and issues the add-fertilizer
call. -/
theorem handleAddFertilizer_negative_rate_counterexample :
    (parseFloat "-5").isPos = false ∧
    (AdminDashboard.handleAddFertilizer
        { AdminDashboard.initial with
          newFertilizer :=
            { name := "Urea", ratePerHectare := "-5", unit := "kg", description := "" } }
        { localStorage := [], href := "/admin-dashboard" }).requests
      = [adminAPI.addFertilizer
          (AdminDashboard.NewFertilizer.toJS
            { name := "Urea", ratePerHectare := "-5", unit := "kg", description := "" })] ∧
    (AdminDashboard.handleAddFertilizer
        { AdminDashboard.initial with
          newFertilizer :=
            { name := "Urea", ratePerHectare := "-5", unit := "kg", description := "" } }
        { localStorage := [], href := "/admin-dashboard" }).state.error.truthy = false := by
  refine ⟨by decide, rfl, by decide⟩

/-- C13, amended: for every state of the add-fertilizer form, `handleAddFertilizer`
issues the add-fertilizer call, with the form as its body, exactly when the name and
the rate-per-hectare field are both non-empty; otherwise it sets the validation
error `Name and rate are required` and issues no call. The sign of the rate is not
examined. -/
theorem handleAddFertilizer_requires_name_and_rate (st : AdminDashboard.State)
    (w : Browser) :
    (st.newFertilizer.name ≠ "" ∧ st.newFertilizer.ratePerHectare ≠ "" →
      (AdminDashboard.handleAddFertilizer st w).requests
        = [adminAPI.addFertilizer st.newFertilizer.toJS] ∧
      (AdminDashboard.handleAddFertilizer st w).state.error = .str "") ∧
    (st.newFertilizer.name = "" ∨ st.newFertilizer.ratePerHectare = "" →
      (AdminDashboard.handleAddFertilizer st w).requests = [] ∧
      (AdminDashboard.handleAddFertilizer st w).state.error
        = .str "Name and rate are required") := by
  constructor
  · rintro ⟨h1, h2⟩
    simp [AdminDashboard.handleAddFertilizer, truthyStr, h1, h2, Outcome.send]
  · rintro (h | h) <;>
      simp [AdminDashboard.handleAddFertilizer, truthyStr, h, Outcome.stay]

theorem handleAddFertilizer_requires_name_and_rate_witness :
    (AdminDashboard.handleAddFertilizer
        { AdminDashboard.initial with
          newFertilizer :=
            { name := "Urea", ratePerHectare := "40", unit := "kg", description := "" } }
        { localStorage := [], href := "/admin-dashboard" }).requests
      = [adminAPI.addFertilizer
          (AdminDashboard.NewFertilizer.toJS
            { name := "Urea", ratePerHectare := "40", unit := "kg", description := "" })] ∧
    (AdminDashboard.handleAddFertilizer AdminDashboard.initial
        { localStorage := [], href := "/admin-dashboard" }).requests = [] :=
  ⟨((handleAddFertilizer_requires_name_and_rate
      { AdminDashboard.initial with
        newFertilizer :=
          { name := "Urea", ratePerHectare := "40", unit := "kg", description := "" } }
      { localStorage := [], href := "/admin-dashboard" }).1 ⟨by decide, by decide⟩).1,
   ((handleAddFertilizer_requires_name_and_rate AdminDashboard.initial
      { localStorage := [], href := "/admin-dashboard" }).2 (Or.inl rfl)).1⟩

/-! ## Farmer registration: validation of the details form -/

theorem JSNum.isPos_iff_not_nan_not_leZero (x : JSNum) :
    x.isPos = true ↔ (x.isNaN || x.leZero) = false := by
  cases x with
  | nan => simp [JSNum.isPos, JSNum.isNaN]
  | inf neg => cases neg <;> simp [JSNum.isPos, JSNum.isNaN, JSNum.leZero]
  | fin neg m e =>
    cases neg <;> simp [JSNum.isPos, JSNum.isNaN, JSNum.leZero, Nat.pos_iff_ne_zero]

/-- C14: for every registration form state, `handleRegister` sends the
register-farmer request, with the form as its body, if and only if phone number,
full name and land area are all non-empty and the land-area field reads
(`parseFloat`) as a number greater than 0; otherwise it sets one of the two
validation messages and sends no request. With `-1` as land area the request is
not sent. -/
theorem handleRegister_validates (st : FarmerRegister.State) (w : Browser) :
    ((FarmerRegister.handleRegister st w).requests
        = [authAPI.registerFarmer st.formData.toJS] ↔
      (st.formData.phoneNumber ≠ "" ∧ st.formData.fullName ≠ "" ∧
        st.formData.landArea ≠ "" ∧ (parseFloat st.formData.landArea).isPos = true)) ∧
    (¬ (st.formData.phoneNumber ≠ "" ∧ st.formData.fullName ≠ "" ∧
        st.formData.landArea ≠ "" ∧ (parseFloat st.formData.landArea).isPos = true) →
      (FarmerRegister.handleRegister st w).requests = [] ∧
      ((FarmerRegister.handleRegister st w).state.error
          = .str "Phone number, name, and land area are required" ∨
       (FarmerRegister.handleRegister st w).state.error
          = .str "Please enter a valid land area in hectares")) ∧
    (st.formData.landArea = "-1" →
      (FarmerRegister.handleRegister st w).requests = [] ∧
      (FarmerRegister.handleRegister st w).state.error.truthy = true) := by
  have hsent : (st.formData.phoneNumber ≠ "" ∧ st.formData.fullName ≠ "" ∧
      st.formData.landArea ≠ "" ∧ (parseFloat st.formData.landArea).isPos = true) →
      (FarmerRegister.handleRegister st w).requests
        = [authAPI.registerFarmer st.formData.toJS] := by
    rintro ⟨h1, h2, h3, h4⟩
    rw [JSNum.isPos_iff_not_nan_not_leZero] at h4
    simp [FarmerRegister.handleRegister, truthyStr, h1, h2, h3, h4, Outcome.send]
  have hrejected : ¬ (st.formData.phoneNumber ≠ "" ∧ st.formData.fullName ≠ "" ∧
      st.formData.landArea ≠ "" ∧ (parseFloat st.formData.landArea).isPos = true) →
      (FarmerRegister.handleRegister st w).requests = [] ∧
      ((FarmerRegister.handleRegister st w).state.error
          = .str "Phone number, name, and land area are required" ∨
       (FarmerRegister.handleRegister st w).state.error
          = .str "Please enter a valid land area in hectares") := by
    intro hnot
    by_cases hreq : (!truthyStr st.formData.phoneNumber || !truthyStr st.formData.fullName
        || !truthyStr st.formData.landArea) = true
    · simp [FarmerRegister.handleRegister, hreq, Outcome.stay]
    · have hreq2 := hreq
      simp only [Bool.or_eq_true, Bool.not_eq_true', truthyStr_eq_false_iff, not_or] at hreq2
      obtain ⟨⟨h1, h2⟩, h3⟩ := hreq2
      have hpos : ¬ (parseFloat st.formData.landArea).isPos = true :=
        fun hp => hnot ⟨h1, h2, h3, hp⟩
      rw [JSNum.isPos_iff_not_nan_not_leZero] at hpos
      have hbad : ((parseFloat st.formData.landArea).isNaN
          || (parseFloat st.formData.landArea).leZero) = true := by
        cases hb : ((parseFloat st.formData.landArea).isNaN
          || (parseFloat st.formData.landArea).leZero) with
        | true => rfl
        | false => exact absurd hb hpos
      simp [FarmerRegister.handleRegister, hreq, hbad, Outcome.stay]
  refine ⟨⟨?_, hsent⟩, hrejected, ?_⟩
  · intro hreq
    by_contra hnot
    rw [(hrejected hnot).1] at hreq
    exact List.noConfusion hreq
  · intro hminus
    have hnot : ¬ (st.formData.phoneNumber ≠ "" ∧ st.formData.fullName ≠ "" ∧
        st.formData.landArea ≠ "" ∧ (parseFloat st.formData.landArea).isPos = true) := by
      rintro ⟨_, _, _, hp⟩
      rw [hminus] at hp
      exact absurd hp (by decide)
    obtain ⟨hr, herr⟩ := hrejected hnot
    refine ⟨hr, ?_⟩
    rcases herr with herr | herr <;> rw [herr] <;> decide

theorem handleRegister_validates_witness :
    (FarmerRegister.handleRegister
        { FarmerRegister.initial with
          formData := { phoneNumber := "0788000000", fullName := "Jane Farmer",
                        landArea := "-1", email := "" } }
        { localStorage := [], href := "/farmer-register" }).requests = [] ∧
    (FarmerRegister.handleRegister
        { FarmerRegister.initial with
          formData := { phoneNumber := "0788000000", fullName := "Jane Farmer",
                        landArea := "3", email := "" } }
        { localStorage := [], href := "/farmer-register" }).requests
      = [authAPI.registerFarmer
          (FarmerRegister.FormData.toJS
            { phoneNumber := "0788000000", fullName := "Jane Farmer",
              landArea := "3", email := "" })] :=
  ⟨((handleRegister_validates
      { FarmerRegister.initial with
        formData := { phoneNumber := "0788000000", fullName := "Jane Farmer",
                      landArea := "-1", email := "" } }
      { localStorage := [], href := "/farmer-register" }).2.2 rfl).1,
   (handleRegister_validates
      { FarmerRegister.initial with
        formData := { phoneNumber := "0788000000", fullName := "Jane Farmer",
                      landArea := "3", email := "" } }
      { localStorage := [], href := "/farmer-register" }).1.2
      ⟨by decide, by decide, by decide, by decide⟩⟩

/-! ## Farmer login: phone step, OTP step, Back -/

/-- C15: for every phone number whose length (in UTF-16 code units, the `length` of
the string) is below 10, the empty string included, `handlePhoneSubmit` sets the
validation error, issues no call and leaves `step` as it is, so at `phone`; for
every phone number of length at least 10 it issues exactly one request-OTP call,
whose body carries that phone number. -/
theorem handlePhoneSubmit_validates_length (st : FarmerLogin.State) (w : Browser) :
    (jsLength st.phoneNumber < 10 →
      (FarmerLogin.handlePhoneSubmit st w).requests = [] ∧
      (FarmerLogin.handlePhoneSubmit st w).state.error
        = .str "Please enter a valid phone number" ∧
      (FarmerLogin.handlePhoneSubmit st w).state.step = st.step ∧
      (st.step = .phone → (FarmerLogin.handlePhoneSubmit st w).state.step = .phone)) ∧
    (10 ≤ jsLength st.phoneNumber →
      (FarmerLogin.handlePhoneSubmit st w).requests = [authAPI.requestOTP st.phoneNumber] ∧
      (authAPI.requestOTP st.phoneNumber).url = "/auth/request-otp" ∧
      (authAPI.requestOTP st.phoneNumber).data
        = .obj [("phoneNumber", .str st.phoneNumber)]) := by
  constructor
  · intro hshort
    have hcond : (!truthyStr st.phoneNumber || decide (jsLength st.phoneNumber < 10)) = true := by
      simp [hshort]
    refine ⟨?_, ?_, ?_, ?_⟩ <;>
      simp [FarmerLogin.handlePhoneSubmit, hcond, Outcome.stay]
  · intro hlong
    have hne : st.phoneNumber ≠ "" := by
      intro hempty
      rw [hempty] at hlong
      exact absurd hlong (by decide)
    have hcond : (!truthyStr st.phoneNumber || decide (jsLength st.phoneNumber < 10)) = false := by
      simp [truthyStr, hne, hlong]
    refine ⟨?_, rfl, rfl⟩
    simp [FarmerLogin.handlePhoneSubmit, hcond, Outcome.send]

theorem handlePhoneSubmit_validates_length_witness :
    (FarmerLogin.handlePhoneSubmit { FarmerLogin.initial with phoneNumber := "078800" }
        { localStorage := [], href := "/farmer-login" }).requests = [] ∧
    (FarmerLogin.handlePhoneSubmit { FarmerLogin.initial with phoneNumber := "0788000000" }
        { localStorage := [], href := "/farmer-login" }).requests
      = [authAPI.requestOTP "0788000000"] :=
  ⟨((handlePhoneSubmit_validates_length { FarmerLogin.initial with phoneNumber := "078800" }
      { localStorage := [], href := "/farmer-login" }).1 (by decide)).1,
   ((handlePhoneSubmit_validates_length
      { FarmerLogin.initial with phoneNumber := "0788000000" }
      { localStorage := [], href := "/farmer-login" }).2 (by decide)).1⟩

/-- C16: in the farmer login and in the farmer registration alike, for every OTP
whose length (in UTF-16 code units) is below 4 `handleOTPSubmit` sets the validation
error and issues no call; for an OTP of length at least 4 it issues the verify-OTP
call, and when that call fails the error state is set to a non-empty message,
storage is left as the handler found it (no session is written), nothing is
navigated to and `step` stays as it is, so at `otp`. -/
theorem handleOTPSubmit_validates_and_fails_closed
    (stL : FarmerLogin.State) (stR : FarmerRegister.State) (w : Browser)
    (err : AxiosError) :
    (jsLength stL.otp < 4 →
      (FarmerLogin.handleOTPSubmit stL w).requests = [] ∧
      (FarmerLogin.handleOTPSubmit stL w).state.error = .str "Please enter a valid OTP") ∧
    (jsLength stR.otp < 4 →
      (FarmerRegister.handleOTPSubmit stR w).requests = [] ∧
      (FarmerRegister.handleOTPSubmit stR w).state.error = .str "Please enter a valid OTP") ∧
    (4 ≤ jsLength stL.otp →
      (FarmerLogin.handleOTPSubmit stL w).requests
        = [authAPI.verifyOTP stL.phoneNumber stL.otp]) ∧
    (4 ≤ jsLength stR.otp →
      (FarmerRegister.handleOTPSubmit stR w).requests
        = [authAPI.verifyOTP stR.formData.phoneNumber stR.otp]) ∧
    ((FarmerLogin.handleOTPSubmitRejected stL w err).state.error.truthy = true ∧
     (FarmerLogin.handleOTPSubmitRejected stL w err).browser = w ∧
     (FarmerLogin.handleOTPSubmitRejected stL w err).navigate = none ∧
     (FarmerLogin.handleOTPSubmitRejected stL w err).state.step = stL.step ∧
     (stL.step = .otp → (FarmerLogin.handleOTPSubmitRejected stL w err).state.step = .otp)) ∧
    ((FarmerRegister.handleOTPSubmitRejected stR w err).state.error.truthy = true ∧
     (FarmerRegister.handleOTPSubmitRejected stR w err).browser = w ∧
     (FarmerRegister.handleOTPSubmitRejected stR w err).navigate = none ∧
     (FarmerRegister.handleOTPSubmitRejected stR w err).state.step = stR.step ∧
     (stR.step = .otp →
       (FarmerRegister.handleOTPSubmitRejected stR w err).state.step = .otp)) := by
  refine ⟨?_, ?_, ?_, ?_, ⟨?_, rfl, rfl, rfl, fun h => h⟩, ⟨?_, rfl, rfl, rfl, fun h => h⟩⟩
  · intro hshort
    have hcond : (!truthyStr stL.otp || decide (jsLength stL.otp < 4)) = true := by
      simp [hshort]
    simp [FarmerLogin.handleOTPSubmit, hcond, Outcome.stay]
  · intro hshort
    have hcond : (!truthyStr stR.otp || decide (jsLength stR.otp < 4)) = true := by
      simp [hshort]
    simp [FarmerRegister.handleOTPSubmit, hcond, Outcome.stay]
  · intro hlong
    have hne : stL.otp ≠ "" := by
      intro hempty
      rw [hempty] at hlong
      exact absurd hlong (by decide)
    have hcond : (!truthyStr stL.otp || decide (jsLength stL.otp < 4)) = false := by
      simp [truthyStr, hne, hlong]
    simp [FarmerLogin.handleOTPSubmit, hcond, Outcome.send]
  · intro hlong
    have hne : stR.otp ≠ "" := by
      intro hempty
      rw [hempty] at hlong
      exact absurd hlong (by decide)
    have hcond : (!truthyStr stR.otp || decide (jsLength stR.otp < 4)) = false := by
      simp [truthyStr, hne, hlong]
    simp [FarmerRegister.handleOTPSubmit, hcond, Outcome.send]
  · exact jsOr_truthy _ _ (by decide)
  · exact jsOr_truthy _ _ (by decide)

theorem handleOTPSubmit_validates_and_fails_closed_witness :
    (FarmerLogin.handleOTPSubmit
        { FarmerLogin.initial with step := .otp, phoneNumber := "0788000000", otp := "12" }
        { localStorage := [], href := "/farmer-login" }).requests = [] ∧
    (FarmerRegister.handleOTPSubmit
        { FarmerRegister.initial with
          step := .otp, otp := "1234",
          formData := { phoneNumber := "0788000000", fullName := "Jane Farmer",
                        landArea := "2.5", email := "" } }
        { localStorage := [], href := "/farmer-login" }).requests
      = [authAPI.verifyOTP "0788000000" "1234"] ∧
    (FarmerLogin.handleOTPSubmitRejected
        { FarmerLogin.initial with step := .otp, phoneNumber := "0788000000", otp := "1234" }
        { localStorage := [], href := "/farmer-login" } exampleRejectedLogin).state.step
      = .otp :=
  have h := handleOTPSubmit_validates_and_fails_closed
    { FarmerLogin.initial with step := .otp, phoneNumber := "0788000000", otp := "12" }
    { FarmerRegister.initial with
      step := .otp, otp := "1234",
      formData := { phoneNumber := "0788000000", fullName := "Jane Farmer",
                    landArea := "2.5", email := "" } }
    { localStorage := [], href := "/farmer-login" } exampleRejectedLogin
  ⟨(h.1 (by decide)).1, h.2.2.2.1 (by decide), rfl⟩

/-- C17: from every state of the farmer login, and so from every `otp` state, the
Back action yields the state with `step = phone`, the entered OTP empty and the
OTP value of the backend empty; the phone number, the error and the loading flag
are as before, storage is as before, no call is issued and nothing is navigated
to. -/
theorem handleBack_returns_to_phone (st : FarmerLogin.State) (w : Browser) :
    (FarmerLogin.handleBack st w).state.step = .phone ∧
    (FarmerLogin.handleBack st w).state.otp = "" ∧
    (FarmerLogin.handleBack st w).state.generatedOtp = .str "" ∧
    (FarmerLogin.handleBack st w).state.phoneNumber = st.phoneNumber ∧
    (FarmerLogin.handleBack st w).state.error = st.error ∧
    (FarmerLogin.handleBack st w).state.loading = st.loading ∧
    (FarmerLogin.handleBack st w).browser = w ∧
    (FarmerLogin.handleBack st w).requests = [] ∧
    (FarmerLogin.handleBack st w).navigate = none :=
  ⟨rfl, rfl, rfl, rfl, rfl, rfl, rfl, rfl, rfl⟩

/-! ## Farmer dashboard: submitting an order -/

/-- C19: for every selection, `handleSubmitOrder` issues no call and sets the error
`Please select a fertilizer` when the selection is empty; when it is non-empty it
issues exactly one submit-order request, a POST to `/farmer/submit-order` whose body
has the single property `fertilizerId`, equal to the selection; and when the call
succeeds the selection is cleared. -/
theorem handleSubmitOrder_spec (st : FarmerDashboard.State) (w : Browser) :
    (st.selectedFertilizer = "" →
      (FarmerDashboard.handleSubmitOrder st w).requests = [] ∧
      (FarmerDashboard.handleSubmitOrder st w).state.error
        = .str "Please select a fertilizer") ∧
    (st.selectedFertilizer ≠ "" →
      (FarmerDashboard.handleSubmitOrder st w).requests
        = [farmerAPI.submitOrder st.selectedFertilizer] ∧
      (farmerAPI.submitOrder st.selectedFertilizer).method = "post" ∧
      (farmerAPI.submitOrder st.selectedFertilizer).url = "/farmer/submit-order" ∧
      (farmerAPI.submitOrder st.selectedFertilizer).params = [] ∧
      (farmerAPI.submitOrder st.selectedFertilizer).data
        = .obj [("fertilizerId", .str st.selectedFertilizer)]) ∧
    (FarmerDashboard.handleSubmitOrderResolved st w).state.selectedFertilizer = "" := by
  refine ⟨?_, ?_, rfl⟩
  · intro h
    simp [FarmerDashboard.handleSubmitOrder, truthyStr, h, Outcome.stay]
  · intro h
    refine ⟨?_, rfl, rfl, rfl, rfl⟩
    simp [FarmerDashboard.handleSubmitOrder, truthyStr, h, Outcome.send]

theorem handleSubmitOrder_spec_witness :
    (FarmerDashboard.handleSubmitOrder FarmerDashboard.initial
        { localStorage := [], href := "/farmer-dashboard" }).requests = [] ∧
    (FarmerDashboard.handleSubmitOrder
        { FarmerDashboard.initial with selectedFertilizer := "f1" }
        { localStorage := [], href := "/farmer-dashboard" }).requests
      = [farmerAPI.submitOrder "f1"] :=
  ⟨((handleSubmitOrder_spec FarmerDashboard.initial
      { localStorage := [], href := "/farmer-dashboard" }).1 rfl).1,
   ((handleSubmitOrder_spec { FarmerDashboard.initial with selectedFertilizer := "f1" }
      { localStorage := [], href := "/farmer-dashboard" }).2.1 (by decide)).1⟩

/-! ## Route table: paths without a route -/

/-- C20: the route table declares no `*` route, so a path outside it selects no
route at all: `/no-such-page` and `/login` resolve to nothing, and the not-found
page is selected by its own path `/not-found` only. -/
theorem unmatched_path_selects_no_route :
    resolveRoute "/no-such-page" = none ∧
    resolveRoute "/login" = none ∧
    resolveRoute "/not-found" = some { path := "/not-found", element := .page .NotFound } ∧
    (∀ r ∈ routes, r.path ≠ "*") ∧
    (∀ r ∈ routes, r.element = .page .NotFound → r.path = "/not-found") := by
  refine ⟨?_, ?_, ?_, ?_, ?_⟩ <;> decide

/-! ## The farmer login as a transition system -/


theorem FarmerLogin.requestedPhone_cons_request (phone : String) (sent : List RequestConfig) :
    FarmerLogin.requestedPhone (authAPI.requestOTP phone :: sent) = some (.str phone) := by
  simp [FarmerLogin.requestedPhone, authAPI.requestOTP, api.post, JSVal.getProp,
    List.find?_cons, List.lookup_cons]

theorem FarmerLogin.requestedPhone_cons_verify (phone otp : String)
    (sent : List RequestConfig) :
    FarmerLogin.requestedPhone (authAPI.verifyOTP phone otp :: sent)
      = FarmerLogin.requestedPhone sent := by
  simp [FarmerLogin.requestedPhone, authAPI.verifyOTP, api.post, List.find?_cons]

theorem FarmerLogin.safe_mounted (w : Browser) :
    FarmerLogin.Safe (FarmerLogin.Config.mounted w) := by
  refine ⟨Or.inl rfl, ?_, ?_, ?_⟩
  · intro h; cases h
  · rintro (h | h)
    · cases h
    · cases h
  · intro r hr; cases hr

theorem FarmerLogin.pending_nil_of_idle (cfg : FarmerLogin.Config)
    (hpend : cfg.pending = [] ∨
      (cfg.state.loading = true ∧
        (cfg.pending = [.requestOTP] ∨ cfg.pending = [.verifyOTP])))
    (hl : cfg.state.loading = false) : cfg.pending = [] := by
  rcases hpend with h | ⟨h, _⟩
  · exact h
  · rw [hl] at h; cases h

theorem FarmerLogin.safe_step (J : JSONBuiltin) (cfg next : FarmerLogin.Config)
    (ev : FarmerLogin.Event) (hsafe : FarmerLogin.Safe cfg)
    (hstep : FarmerLogin.step J cfg ev = some next) : FarmerLogin.Safe next := by
  obtain ⟨hpend, hreqstep, hphone, hverify⟩ := hsafe
  unfold FarmerLogin.step at hstep
  split at hstep
  · cases hstep
  cases ev with
  | editPhone value =>
    simp only at hstep
    split at hstep
    · rename_i hg
      obtain ⟨hs, hl⟩ := hg
      cases hstep
      have hp := FarmerLogin.pending_nil_of_idle cfg hpend hl
      refine ⟨Or.inl hp, ?_, ?_, hverify⟩
      · intro h; rw [hp] at h; cases h
      · rintro (h | h)
        · simp only at h; rw [hs] at h; cases h
        · simp only at h; rw [hp] at h; cases h
    · cases hstep
  | phoneSubmit =>
    simp only at hstep
    split at hstep
    · rename_i hg
      obtain ⟨hs, hl⟩ := hg
      cases hstep
      have hp := FarmerLogin.pending_nil_of_idle cfg hpend hl
      by_cases hcond : (!truthyStr cfg.state.phoneNumber
          || decide (jsLength cfg.state.phoneNumber < 10)) = true
      · refine ⟨Or.inl ?_, ?_, ?_, ?_⟩
        · simp [FarmerLogin.Config.advance, FarmerLogin.handlePhoneSubmit, hcond,
            Outcome.stay, hp]
        · intro h
          simp [FarmerLogin.Config.advance, FarmerLogin.handlePhoneSubmit, hcond,
            Outcome.stay, hp] at h
        · rintro (h | h)
          · simp [FarmerLogin.Config.advance, FarmerLogin.handlePhoneSubmit, hcond,
              Outcome.stay, hs] at h
          · simp [FarmerLogin.Config.advance, FarmerLogin.handlePhoneSubmit, hcond,
              Outcome.stay, hp] at h
        · simpa [FarmerLogin.Config.advance, FarmerLogin.handlePhoneSubmit, hcond,
            Outcome.stay] using hverify
      · have hlen : 10 ≤ jsLength cfg.state.phoneNumber := by
          simp only [Bool.or_eq_true, decide_eq_true_eq, not_or, not_lt] at hcond
          exact hcond.2
        have hsent : (FarmerLogin.Config.advance cfg
            (FarmerLogin.handlePhoneSubmit cfg.state cfg.browser) .requestOTP).sent
            = authAPI.requestOTP cfg.state.phoneNumber :: cfg.sent := by
          simp [FarmerLogin.Config.advance, FarmerLogin.handlePhoneSubmit, hcond, Outcome.send]
        refine ⟨Or.inr ⟨?_, Or.inl ?_⟩, ?_, ?_, ?_⟩
        · simp [FarmerLogin.Config.advance, FarmerLogin.handlePhoneSubmit, hcond, Outcome.send]
        · simp [FarmerLogin.Config.advance, FarmerLogin.handlePhoneSubmit, hcond,
            Outcome.send, hp]
        · intro _
          simpa [FarmerLogin.Config.advance, FarmerLogin.handlePhoneSubmit, hcond,
            Outcome.send] using hs
        · intro _
          rw [hsent]
          refine ⟨?_, ?_⟩
          · simpa [FarmerLogin.Config.advance, FarmerLogin.handlePhoneSubmit, hcond,
              Outcome.send] using hlen
          · simpa [FarmerLogin.Config.advance, FarmerLogin.handlePhoneSubmit, hcond,
              Outcome.send] using FarmerLogin.requestedPhone_cons_request
                cfg.state.phoneNumber cfg.sent
        · intro r hr hurl
          rw [hsent] at hr
          rcases List.mem_cons.1 hr with h | h
          · rw [h] at hurl
            simp [authAPI.requestOTP, api.post] at hurl
          · exact hverify r h hurl
    · cases hstep
  | requestResolved otp =>
    simp only at hstep
    split at hstep
    · rename_i hmem
      cases hstep
      have hp : cfg.pending = [.requestOTP] := by
        rcases hpend with h | ⟨_, h | h⟩
        · rw [h] at hmem; cases hmem
        · exact h
        · rw [h] at hmem; simp at hmem
      have hfacts := hphone (Or.inr hp)
      refine ⟨Or.inl ?_, ?_, ?_, ?_⟩
      · simp [FarmerLogin.Config.advance, FarmerLogin.handlePhoneSubmitResolved, Outcome.stay, hp]
      · intro h
        simp [FarmerLogin.Config.advance, FarmerLogin.handlePhoneSubmitResolved, Outcome.stay,
          hp] at h
      · intro _
        simpa [FarmerLogin.Config.advance, FarmerLogin.handlePhoneSubmitResolved, Outcome.stay]
          using hfacts
      · simpa [FarmerLogin.Config.advance, FarmerLogin.handlePhoneSubmitResolved, Outcome.stay]
          using hverify
    · cases hstep
  | requestRejected err =>
    simp only at hstep
    split at hstep
    · rename_i hmem
      cases hstep
      have hp : cfg.pending = [.requestOTP] := by
        rcases hpend with h | ⟨_, h | h⟩
        · rw [h] at hmem; cases hmem
        · exact h
        · rw [h] at hmem; simp at hmem
      have hs := hreqstep hp
      refine ⟨Or.inl ?_, ?_, ?_, ?_⟩
      · simp [FarmerLogin.Config.advance, FarmerLogin.handlePhoneSubmitRejected, Outcome.stay, hp]
      · intro h
        simp [FarmerLogin.Config.advance, FarmerLogin.handlePhoneSubmitRejected, Outcome.stay,
          hp] at h
      · rintro (h | h)
        · simp [FarmerLogin.Config.advance, FarmerLogin.handlePhoneSubmitRejected,
            Outcome.stay, hs] at h
        · simp [FarmerLogin.Config.advance, FarmerLogin.handlePhoneSubmitRejected,
            Outcome.stay, hp] at h
      · simpa [FarmerLogin.Config.advance, FarmerLogin.handlePhoneSubmitRejected, Outcome.stay]
          using hverify
    · cases hstep
  | editOtp value =>
    simp only at hstep
    split at hstep
    · rename_i hg
      obtain ⟨hs, hl⟩ := hg
      cases hstep
      have hp := FarmerLogin.pending_nil_of_idle cfg hpend hl
      refine ⟨Or.inl hp, ?_, ?_, hverify⟩
      · intro h; rw [hp] at h; cases h
      · intro _
        exact hphone (Or.inl hs)
    · cases hstep
  | otpSubmit =>
    simp only at hstep
    split at hstep
    · rename_i hg
      obtain ⟨hs, hl⟩ := hg
      cases hstep
      have hp := FarmerLogin.pending_nil_of_idle cfg hpend hl
      have hfacts := hphone (Or.inl hs)
      by_cases hcond : (!truthyStr cfg.state.otp
          || decide (jsLength cfg.state.otp < 4)) = true
      · refine ⟨Or.inl ?_, ?_, ?_, ?_⟩
        · simp [FarmerLogin.Config.advance, FarmerLogin.handleOTPSubmit, hcond,
            Outcome.stay, hp]
        · intro h
          simp [FarmerLogin.Config.advance, FarmerLogin.handleOTPSubmit, hcond,
            Outcome.stay, hp] at h
        · intro _
          simpa [FarmerLogin.Config.advance, FarmerLogin.handleOTPSubmit, hcond,
            Outcome.stay] using hfacts
        · simpa [FarmerLogin.Config.advance, FarmerLogin.handleOTPSubmit, hcond,
            Outcome.stay] using hverify
      · have hsent : (FarmerLogin.Config.advance cfg
            (FarmerLogin.handleOTPSubmit cfg.state cfg.browser) .verifyOTP).sent
            = authAPI.verifyOTP cfg.state.phoneNumber cfg.state.otp :: cfg.sent := by
          simp [FarmerLogin.Config.advance, FarmerLogin.handleOTPSubmit, hcond, Outcome.send]
        refine ⟨Or.inr ⟨?_, Or.inr ?_⟩, ?_, ?_, ?_⟩
        · simp [FarmerLogin.Config.advance, FarmerLogin.handleOTPSubmit, hcond, Outcome.send]
        · simp [FarmerLogin.Config.advance, FarmerLogin.handleOTPSubmit, hcond,
            Outcome.send, hp]
        · intro h
          simp [FarmerLogin.Config.advance, FarmerLogin.handleOTPSubmit, hcond,
            Outcome.send, hp] at h
        · intro _
          rw [hsent, FarmerLogin.requestedPhone_cons_verify]
          simpa [FarmerLogin.Config.advance, FarmerLogin.handleOTPSubmit, hcond,
            Outcome.send] using hfacts
        · intro r hr hurl
          rw [hsent] at hr
          rcases List.mem_cons.1 hr with h | h
          · exact ⟨_, _, h, hfacts.1⟩
          · exact hverify r h hurl
    · cases hstep
  | verifyResolved payload =>
    simp only at hstep
    split at hstep
    · rename_i hmem
      cases hstep
      have hp : cfg.pending = [.verifyOTP] := by
        rcases hpend with h | ⟨_, h | h⟩
        · rw [h] at hmem; cases hmem
        · rw [h] at hmem; simp at hmem
        · exact h
      refine ⟨Or.inl ?_, ?_, ?_, ?_⟩
      · simp [FarmerLogin.Config.advance, FarmerLogin.handleOTPSubmitResolved, hp]
      · intro h
        simp [FarmerLogin.Config.advance, FarmerLogin.handleOTPSubmitResolved, hp] at h
      · rintro (h | h)
        · have hs : cfg.state.step = .otp := by
            simpa [FarmerLogin.Config.advance, FarmerLogin.handleOTPSubmitResolved] using h
          simpa [FarmerLogin.Config.advance, FarmerLogin.handleOTPSubmitResolved]
            using hphone (Or.inl hs)
        · simp [FarmerLogin.Config.advance, FarmerLogin.handleOTPSubmitResolved, hp] at h
      · simpa [FarmerLogin.Config.advance, FarmerLogin.handleOTPSubmitResolved] using hverify
    · cases hstep
  | verifyRejected err =>
    simp only at hstep
    split at hstep
    · rename_i hmem
      cases hstep
      have hp : cfg.pending = [.verifyOTP] := by
        rcases hpend with h | ⟨_, h | h⟩
        · rw [h] at hmem; cases hmem
        · rw [h] at hmem; simp at hmem
        · exact h
      refine ⟨Or.inl ?_, ?_, ?_, ?_⟩
      · simp [FarmerLogin.Config.advance, FarmerLogin.handleOTPSubmitRejected, Outcome.stay, hp]
      · intro h
        simp [FarmerLogin.Config.advance, FarmerLogin.handleOTPSubmitRejected, Outcome.stay,
          hp] at h
      · rintro (h | h)
        · have hs : cfg.state.step = .otp := by
            simpa [FarmerLogin.Config.advance, FarmerLogin.handleOTPSubmitRejected,
              Outcome.stay] using h
          simpa [FarmerLogin.Config.advance, FarmerLogin.handleOTPSubmitRejected, Outcome.stay]
            using hphone (Or.inl hs)
        · simp [FarmerLogin.Config.advance, FarmerLogin.handleOTPSubmitRejected, Outcome.stay,
            hp] at h
      · simpa [FarmerLogin.Config.advance, FarmerLogin.handleOTPSubmitRejected, Outcome.stay]
          using hverify
    · cases hstep
  | back =>
    simp only at hstep
    split at hstep
    · rename_i hs
      cases hstep
      have hnotreq : cfg.pending ≠ [.requestOTP] := by
        intro h
        have := hreqstep h
        rw [hs] at this
        cases this
      refine ⟨?_, ?_, ?_, ?_⟩
      · simpa [FarmerLogin.Config.advance, FarmerLogin.handleBack, Outcome.stay] using hpend
      · intro _
        simp [FarmerLogin.Config.advance, FarmerLogin.handleBack, Outcome.stay]
      · rintro (h | h)
        · simp [FarmerLogin.Config.advance, FarmerLogin.handleBack, Outcome.stay] at h
        · exact absurd (by
            simpa [FarmerLogin.Config.advance, FarmerLogin.handleBack, Outcome.stay] using h)
            hnotreq
      · simpa [FarmerLogin.Config.advance, FarmerLogin.handleBack, Outcome.stay] using hverify
    · cases hstep
  | dismissError =>
    simp only at hstep
    split at hstep
    · cases hstep
      exact ⟨hpend, hreqstep, hphone, hverify⟩
    · cases hstep

theorem FarmerLogin.safe_run (J : JSONBuiltin) (events : List FarmerLogin.Event)
    (cfg final : FarmerLogin.Config) (hsafe : FarmerLogin.Safe cfg)
    (hrun : FarmerLogin.run J cfg events = some final) : FarmerLogin.Safe final := by
  induction events generalizing cfg with
  | nil =>
    simp only [FarmerLogin.run, Option.some.injEq] at hrun
    rw [← hrun]
    exact hsafe
  | cons ev rest ih =>
    simp only [FarmerLogin.run] at hrun
    cases hnext : FarmerLogin.step J cfg ev with
    | none => rw [hnext] at hrun; cases hrun
    | some next =>
      rw [hnext] at hrun
      exact ih next (FarmerLogin.safe_step J cfg next ev hsafe hnext) hrun

/-- C24: in every configuration the farmer login reaches from its mount, under any
interleaving of edits, submissions, completions of the two calls, Back and the error
timer: when the OTP step is shown, the phone number in the state has at least 10
UTF-16 code units and is the one the OTP was last requested for; and every
verify-OTP request ever issued carries a phone number of at least 10 code units. -/
theorem farmerLogin_otp_step_phone_validated (J : JSONBuiltin) (w : Browser)
    (events : List FarmerLogin.Event) (cfg : FarmerLogin.Config)
    (hrun : FarmerLogin.run J (FarmerLogin.Config.mounted w) events = some cfg) :
    (cfg.state.step = .otp →
      10 ≤ jsLength cfg.state.phoneNumber ∧
      FarmerLogin.requestedPhone cfg.sent = some (.str cfg.state.phoneNumber)) ∧
    (∀ r ∈ cfg.sent, r.url = "/auth/verify-otp" →
      ∃ phone otp, r = authAPI.verifyOTP phone otp ∧ 10 ≤ jsLength phone) := by
  have hsafe := FarmerLogin.safe_run J events _ cfg (FarmerLogin.safe_mounted w) hrun
  exact ⟨fun hstep => hsafe.2.2.1 (Or.inl hstep), hsafe.2.2.2⟩

/-- The example run reaches the OTP step, with the phone number that was submitted. -/
theorem farmerLogin_otp_step_phone_validated_witness :
    ∃ cfg, FarmerLogin.run exampleJSON
        (FarmerLogin.Config.mounted { localStorage := [], href := "/farmer-login" })
        exampleLoginRun = some cfg ∧
      cfg.state.step = .otp ∧ cfg.state.phoneNumber = "0788000000" ∧
      10 ≤ jsLength cfg.state.phoneNumber ∧
      FarmerLogin.requestedPhone cfg.sent = some (.str cfg.state.phoneNumber) :=
  ⟨_, rfl, rfl, rfl,
    (farmerLogin_otp_step_phone_validated exampleJSON
      { localStorage := [], href := "/farmer-login" } exampleLoginRun _ rfl).1 rfl⟩

/-! ## The route guard as a function of storage -/

/-- C23, as written, fails on totality: with a non-empty token stored next to a user
entry that is not JSON (here the text `undefined`, which `setAuthToken` stores
for a response without a user), the guard of a role-restricted route does not return:
`JSON.parse` throws. -/
theorem protectedRoute_throws_on_corrupt_user :
    Storage.getItem (setAuthToken exampleJSON "tok" .undefined []) "token" = some "tok" ∧
    Storage.getItem (setAuthToken exampleJSON "tok" .undefined []) "user" = some "undefined" ∧
    ProtectedRoute exampleJSON (setAuthToken exampleJSON "tok" .undefined [])
      Page.FarmerDashboard (some "farmer") = .error "SyntaxError" ∧
    ¬ ∃ r, ProtectedRoute exampleJSON (setAuthToken exampleJSON "tok" .undefined [])
      Page.FarmerDashboard (some "farmer") = .ok r := by
  have h : ProtectedRoute exampleJSON (setAuthToken exampleJSON "tok" .undefined [])
      Page.FarmerDashboard (some "farmer") = .error "SyntaxError" := by rfl
  refine ⟨by rfl, by rfl, h, ?_⟩
  rintro ⟨r, hr⟩
  rw [h] at hr
  cases hr

/-- C23, amended: `ProtectedRoute` is a function of the stored token, the stored user
entry and the required role: two storages that agree on these two entries give the
same result. It returns the protected element exactly when a non-empty token is
stored and either no role is required (the prop is absent or the empty string) or
the stored user parses and its `userType` is the required role. It throws exactly
when a non-empty token is stored, a non-empty role is required and parsing the
stored user throws; in every other case it returns a redirect. With a non-empty
token and a non-empty required role, a missing user entry, and a stored user
without `userType`, give the redirect to `/not-found`. -/
theorem protectedRoute_decided_by_token_user_role {α : Type} (J : JSONBuiltin)
    (ls : Storage) (element : α) (requiredRole : Option String) :
    (∀ ls2 : Storage, ls2.getItem "token" = ls.getItem "token" →
      ls2.getItem "user" = ls.getItem "user" →
      ProtectedRoute J ls2 element requiredRole = ProtectedRoute J ls element requiredRole) ∧
    (ProtectedRoute J ls element requiredRole = .ok (.element element) ↔
      (∃ t, ls.getItem "token" = some t ∧ t ≠ "") ∧
      (requiredRole = none ∨ requiredRole = some "" ∨
        ∃ role, requiredRole = some role ∧ getUserType J ls = .ok (.str role))) ∧
    (∀ err, ProtectedRoute J ls element requiredRole = .error err ↔
      (∃ t, ls.getItem "token" = some t ∧ t ≠ "") ∧
      ∃ role, requiredRole = some role ∧ role ≠ "" ∧ getUser J ls = .error err) ∧
    ((∀ err, ProtectedRoute J ls element requiredRole ≠ .error err) →
      ProtectedRoute J ls element requiredRole ≠ .ok (.element element) →
      ∃ path, ProtectedRoute J ls element requiredRole = .ok (.navigate path)) ∧
    (∀ t role, ls.getItem "token" = some t → t ≠ "" → requiredRole = some role →
      role ≠ "" →
      (ls.getItem "user" = none →
        ProtectedRoute J ls element requiredRole = .ok (.navigate "/not-found")) ∧
      (∀ user, getUser J ls = .ok user → user.optChain "userType" = .undefined →
        ProtectedRoute J ls element requiredRole = .ok (.navigate "/not-found"))) := by
  refine ⟨?_, ?_, ?_, ?_, ?_⟩
  · intro ls2 ht hu
    have hauth : isAuthenticated ls2 = isAuthenticated ls := by
      simp [isAuthenticated, getAuthToken, ht]
    have htype : getUserType J ls2 = getUserType J ls := by
      simp [getUserType, getUser, hu]
    simp [ProtectedRoute, hauth, htype]
  · rw [← isAuthenticated_eq_true_iff]
    cases hauth : isAuthenticated ls with
    | false => simp [ProtectedRoute, hauth]
    | true =>
      cases requiredRole with
      | none => simp [ProtectedRoute, hauth]
      | some role =>
        by_cases hrole : role = ""
        · subst hrole
          simp [ProtectedRoute, hauth, truthyStr]
        · have htr : truthyStr role = true := (truthyStr_eq_true_iff role).2 hrole
          cases htype : getUserType J ls with
          | error err => simp [ProtectedRoute, hauth, htr, htype, hrole]
          | ok userType =>
            cases userType <;>
              simp [ProtectedRoute, hauth, htr, htype, hrole, JSVal.strictNeStr]
  · intro err
    rw [← isAuthenticated_eq_true_iff]
    cases hauth : isAuthenticated ls with
    | false => simp [ProtectedRoute, hauth]
    | true =>
      cases requiredRole with
      | none => simp [ProtectedRoute, hauth]
      | some role =>
        by_cases hrole : role = ""
        · subst hrole
          simp [ProtectedRoute, hauth, truthyStr]
        · have htr : truthyStr role = true := (truthyStr_eq_true_iff role).2 hrole
          cases huser : getUser J ls with
          | error e => simp [ProtectedRoute, hauth, htr, getUserType, huser, hrole]
          | ok user =>
            cases hne : (user.optChain "userType").strictNeStr role <;>
              simp [ProtectedRoute, hauth, htr, getUserType, huser, hrole, hne]
  · intro hnoerr hnoelem
    cases hres : ProtectedRoute J ls element requiredRole with
    | error err => exact absurd hres (hnoerr err)
    | ok r =>
      cases r with
      | navigate path => exact ⟨path, rfl⟩
      | element e =>
        exfalso
        apply hnoelem
        rw [hres]
        have : e = element := by
          unfold ProtectedRoute at hres
          split at hres
          · cases hres
          · split at hres
            · split at hres
              · split at hres
                · split at hres
                  · cases hres
                  · cases hres; rfl
                · cases hres
              · cases hres; rfl
            · cases hres; rfl
        rw [this]
  · intro t role ht hne hreq hrole
    have hauth : isAuthenticated ls = true := (isAuthenticated_eq_true_iff ls).2 ⟨t, ht, hne⟩
    have htr : truthyStr role = true := (truthyStr_eq_true_iff role).2 hrole
    subst hreq
    constructor
    · intro hu
      simp [ProtectedRoute, hauth, htr, getUserType, getUser_of_no_user J ls hu,
        JSVal.optChain, JSVal.strictNeStr]
    · intro user huser hundef
      simp [ProtectedRoute, hauth, htr, getUserType, huser, hundef, JSVal.strictNeStr]

/-- The stored example session shows the farmer dashboard, and the same token with
the user entry removed does not. -/
theorem protectedRoute_decided_by_token_user_role_witness :
    ProtectedRoute exampleJSON (setAuthToken exampleJSON "tok" exampleProfile.toJS [])
      Page.FarmerDashboard (some "farmer") = .ok (.element Page.FarmerDashboard) ∧
    ProtectedRoute exampleJSON [("token", "tok")] Page.FarmerDashboard (some "farmer")
      = .ok (.navigate "/not-found") :=
  ⟨(protectedRoute_decided_by_token_user_role exampleJSON
      (setAuthToken exampleJSON "tok" exampleProfile.toJS []) Page.FarmerDashboard
      (some "farmer")).2.1.2 ⟨⟨"tok", by rfl, by decide⟩, Or.inr (Or.inr ⟨"farmer", rfl, by rfl⟩)⟩,
   ((protectedRoute_decided_by_token_user_role exampleJSON [("token", "tok")]
      Page.FarmerDashboard (some "farmer")).2.2.2.2 "tok" "farmer" (by rfl) (by decide) rfl
      (by decide)).1 (by rfl)⟩

/-! ## Dashboard messages -/

/-- C21, as written, fails on both dashboards: after an approval that succeeded, the
refetch of the orders fails and the admin dashboard shows `Order approved
successfully!` together with `Failed to fetch orders`; after a submission that
succeeded, the scheduled refetch fails and the farmer dashboard shows `Order
submitted successfully!` together with the same error. -/
theorem dashboards_messages_stack :
    (AdminDashboard.run (AdminDashboard.Config.mounted exampleAdmin exampleBrowser)
        exampleApproveRun).map AdminDashboard.Config.messages
      = some (true, "Order approved successfully!") ∧
    (FarmerDashboard.run (FarmerDashboard.Config.mounted (some exampleProfile) exampleBrowser)
        exampleSubmitRun).map FarmerDashboard.Config.messages
      = some (true, "Order submitted successfully!") := by
  constructor
  · rfl
  · rfl

theorem FarmerDashboard.farmer_one_message_step (cfg next : FarmerDashboard.Config)
    (ev : FarmerDashboard.Event) (h : FarmerDashboard.step cfg ev = some next)
    (he : cfg.state.error.truthy = false) (hs : cfg.state.success = "") :
    next.state.error.truthy = false ∨ next.state.success = "" := by
  unfold FarmerDashboard.step at h
  split at h
  · cases h
  · cases ev <;> simp only [] at h
    case selectTab tab =>
      cases h; exact Or.inr hs
    case selectFertilizer value =>
      split at h
      · cases h; exact Or.inr hs
      · cases h
    case submit =>
      split at h
      · cases h
        simp [FarmerDashboard.Config.advance, FarmerDashboard.handleSubmitOrder]
        split <;> simp [Outcome.stay, Outcome.send]
      · cases h
    case ordersResolved orders =>
      split at h
      · cases h
        simp [FarmerDashboard.Config.advance, FarmerDashboard.fetchOrdersResolved, Outcome.stay, hs]
      · cases h
    case ordersRejected err =>
      split at h
      · cases h
        simp [FarmerDashboard.Config.advance, FarmerDashboard.fetchOrdersRejected, Outcome.stay, hs]
      · cases h
    case fertilizersResolved fertilizers =>
      split at h
      · cases h
        simp [FarmerDashboard.Config.advance, FarmerDashboard.fetchFertilizersResolved,
          Outcome.stay, hs]
      · cases h
    case fertilizersRejected err =>
      split at h
      · cases h
        simp [FarmerDashboard.Config.advance, FarmerDashboard.fetchFertilizersRejected,
          Outcome.stay, hs]
      · cases h
    case submitResolved =>
      split at h
      · cases h
        simp [FarmerDashboard.Config.advance, FarmerDashboard.handleSubmitOrderResolved, he]
      · cases h
    case submitRejected err =>
      split at h
      · cases h
        simp [FarmerDashboard.Config.advance, FarmerDashboard.handleSubmitOrderRejected,
          Outcome.stay, hs]
      · cases h
    case timeout =>
      split at h
      · cases h
        simp [FarmerDashboard.Config.advance, FarmerDashboard.submitOrderTimeout,
          FarmerDashboard.fetchOrders, Outcome.send, hs]
      · cases h
    case dismissError =>
      split at h
      · cases h; exact Or.inr hs
      · cases h
    case dismissSuccess =>
      split at h
      · cases h; exact Or.inl he
      · cases h
    case logout =>
      cases h
      simp [FarmerDashboard.Config.advance, FarmerDashboard.handleLogout, hs]

theorem AdminDashboard.one_message_effect (cfg : AdminDashboard.Config) (currentUser : JSVal)
    (h : cfg.state.error.truthy = false ∨ cfg.state.success = "") :
    (AdminDashboard.Config.effect cfg currentUser).state.error.truthy = false ∨
    (AdminDashboard.Config.effect cfg currentUser).state.success = "" := by
  unfold AdminDashboard.Config.effect
  split
  · exact h
  · simpa [AdminDashboard.fetchMetrics, AdminDashboard.fetchOrders,
      AdminDashboard.fetchFertilizers, Outcome.send] using h

theorem AdminDashboard.admin_one_message_step (cfg next : AdminDashboard.Config)
    (ev : AdminDashboard.Event) (h : AdminDashboard.step cfg ev = some next)
    (he : cfg.state.error.truthy = false) (hs : cfg.state.success = "") :
    next.state.error.truthy = false ∨ next.state.success = "" := by
  unfold AdminDashboard.step at h
  split at h
  · cases h
  · cases ev <;> simp only [] at h
    case selectTab tab =>
      cases h; exact Or.inr hs
    case filterChange value currentUser =>
      split at h
      · cases h
        apply AdminDashboard.one_message_effect
        simp [AdminDashboard.Config.advance, AdminDashboard.handleFilterChange, Outcome.stay, hs]
      · cases h
    case review order =>
      split at h
      · cases h
        simp [AdminDashboard.Config.advance, AdminDashboard.handleReview, Outcome.stay, hs]
      · cases h
    case editRemarks value =>
      split at h
      · cases h; exact Or.inr hs
      · cases h
    case approve =>
      split at h
      · split at h
        · cases h
          simp [AdminDashboard.Config.advance, AdminDashboard.handleApproveOrder, Outcome.send, hs]
        · cases h
      · cases h
    case decline =>
      split at h
      · split at h
        · cases h
          simp [AdminDashboard.Config.advance, AdminDashboard.handleDeclineOrder]
          split <;> simp [Outcome.stay, Outcome.send, hs]
        · cases h
      · cases h
    case cancel =>
      split at h
      · cases h
        simp [AdminDashboard.Config.advance, AdminDashboard.handleCancel, Outcome.stay, hs]
      · cases h
    case overlayClick =>
      split at h
      · cases h; exact Or.inr hs
      · cases h
    case editNewFertilizer form =>
      split at h
      · cases h; exact Or.inr hs
      · cases h
    case addFertilizer =>
      split at h
      · cases h
        simp [AdminDashboard.Config.advance, AdminDashboard.handleAddFertilizer]
        split <;> simp [Outcome.stay, Outcome.send]
      · cases h
    case resolved index payload =>
      split at h
      · rename_i call hcall
        unfold AdminDashboard.resolve at h
        split at h <;> cases h
        · simp [AdminDashboard.Config.advance, AdminDashboard.fetchMetricsResolved, Outcome.stay, hs]
        · simp [AdminDashboard.Config.advance, AdminDashboard.fetchOrdersResolved, Outcome.stay, hs]
        · simp [AdminDashboard.Config.advance, AdminDashboard.fetchFertilizersResolved,
            Outcome.stay, hs]
        · simp [AdminDashboard.Config.advance, AdminDashboard.handleApproveOrderResolved,
            AdminDashboard.afterReview, AdminDashboard.fetchOrders, AdminDashboard.fetchMetrics,
            Outcome.send, he]
        · simp [AdminDashboard.Config.advance, AdminDashboard.handleDeclineOrderResolved,
            AdminDashboard.afterReview, AdminDashboard.fetchOrders, AdminDashboard.fetchMetrics,
            Outcome.send, he]
        · simp [AdminDashboard.Config.advance, AdminDashboard.handleAddFertilizerResolved,
            AdminDashboard.fetchFertilizers, Outcome.send, he]
      · cases h
    case rejected index err =>
      split at h
      · rename_i call hcall
        cases h
        cases call <;>
          simp [AdminDashboard.reject, AdminDashboard.Config.advance,
            AdminDashboard.fetchMetricsRejected, AdminDashboard.fetchOrdersRejected,
            AdminDashboard.fetchFertilizersRejected, AdminDashboard.handleApproveOrderRejected,
            AdminDashboard.handleDeclineOrderRejected, AdminDashboard.handleAddFertilizerRejected,
            Outcome.stay, hs]
      · cases h
    case dismissError =>
      split at h
      · cases h; exact Or.inr hs
      · cases h
    case dismissSuccess =>
      split at h
      · cases h; exact Or.inl he
      · cases h
    case logout =>
      cases h
      simp [AdminDashboard.Config.advance, AdminDashboard.handleLogout, hs]


/-- C21, amended: on both dashboards an event never brings up a second message by
itself: from a configuration that shows no message, every enabled event (a click, an
edit, the completion of a call with success or failure, a timer) leads to one that
shows at most one of the two; the mounted component shows none; and submitting an
order, or adding a fertilizer, leaves at most one message whatever was shown before,
since both handlers clear both messages first. -/
theorem dashboards_one_message_per_step :
    (∀ (cfg next : FarmerDashboard.Config) (ev : FarmerDashboard.Event),
      FarmerDashboard.step cfg ev = some next →
      cfg.state.error.truthy = false → cfg.state.success = "" →
      next.state.error.truthy = false ∨ next.state.success = "") ∧
    (∀ (cfg next : AdminDashboard.Config) (ev : AdminDashboard.Event),
      AdminDashboard.step cfg ev = some next →
      cfg.state.error.truthy = false → cfg.state.success = "" →
      next.state.error.truthy = false ∨ next.state.success = "") ∧
    (∀ (currentUser : Option UserProfile) (w : Browser),
      (FarmerDashboard.Config.mounted currentUser w).state.error.truthy = false ∧
      (FarmerDashboard.Config.mounted currentUser w).state.success = "") ∧
    (∀ (currentUser : JSVal) (w : Browser),
      (AdminDashboard.Config.mounted currentUser w).state.error.truthy = false ∧
      (AdminDashboard.Config.mounted currentUser w).state.success = "") ∧
    (∀ (cfg next : FarmerDashboard.Config), FarmerDashboard.step cfg .submit = some next →
      next.state.error.truthy = false ∨ next.state.success = "") ∧
    (∀ (cfg next : AdminDashboard.Config), AdminDashboard.step cfg .addFertilizer = some next →
      next.state.error.truthy = false ∨ next.state.success = "") := by
  refine ⟨FarmerDashboard.farmer_one_message_step, AdminDashboard.admin_one_message_step, ?_, ?_, ?_, ?_⟩
  · intro currentUser w
    cases currentUser <;> exact ⟨rfl, rfl⟩
  · intro currentUser w
    unfold AdminDashboard.Config.mounted AdminDashboard.Config.effect
    split <;> exact ⟨rfl, rfl⟩
  · intro cfg next h
    unfold FarmerDashboard.step at h
    split at h
    · cases h
    · simp only [] at h
      split at h
      · cases h
        simp [FarmerDashboard.Config.advance, FarmerDashboard.handleSubmitOrder]
        split <;> simp [Outcome.stay, Outcome.send]
      · cases h
  · intro cfg next h
    unfold AdminDashboard.step at h
    split at h
    · cases h
    · simp only [] at h
      split at h
      · cases h
        simp [AdminDashboard.Config.advance, AdminDashboard.handleAddFertilizer]
        split <;> simp [Outcome.stay, Outcome.send]
      · cases h

/-- On the mounted admin dashboard the failure of the orders call brings up the error
alone. -/
theorem dashboards_one_message_per_step_witness :
    ∃ next, AdminDashboard.step (AdminDashboard.Config.mounted exampleAdmin exampleBrowser)
        (.rejected 1 exampleNetworkError) = some next ∧
      next.state.error.truthy = true ∧
      (next.state.error.truthy = false ∨ next.state.success = "") :=
  ⟨_, rfl, rfl,
    dashboards_one_message_per_step.2.1
      (AdminDashboard.Config.mounted exampleAdmin exampleBrowser) _
      (.rejected 1 exampleNetworkError) rfl rfl rfl⟩

/-! ## Background fetches -/

/-- C22: when the catalog call of the farmer dashboard, or the metrics call or the
catalog call of the admin dashboard, fails, the component state after the failure is
the state before it, field by field: the metrics, the fertilizer list, the order
list, the error and the success message included. The failure is an enabled event
whenever such a call is in flight on the mounted component, whatever the error and
whatever else is in flight; the rejection branches issue no request, schedule
nothing and do not navigate. -/
theorem background_fetch_failure_preserves_state :
    (∀ (cfg : FarmerDashboard.Config) (err : AxiosError), cfg.navigated = none →
      FarmerDashboard.Call.getFertilizers ∈ cfg.pending →
      ∃ next, FarmerDashboard.step cfg (.fertilizersRejected err) = some next ∧
        next.state = cfg.state ∧ next.sent = cfg.sent ∧ next.navigated = none) ∧
    (∀ (cfg : AdminDashboard.Config) (index : Nat) (call : AdminDashboard.Call)
      (err : AxiosError), cfg.navigated = none → cfg.pending.get? index = some call →
      call.isBackground = true →
      ∃ next, AdminDashboard.step cfg (.rejected index err) = some next ∧
        next.state = cfg.state ∧ next.sent = cfg.sent ∧ next.navigated = none) ∧
    (∀ (st : FarmerDashboard.State) (w : Browser) (err : AxiosError),
      FarmerDashboard.fetchFertilizersRejected st w err = Outcome.stay st w) ∧
    (∀ (st : AdminDashboard.State) (w : Browser) (err : AxiosError),
      AdminDashboard.fetchMetricsRejected st w err = Outcome.stay st w ∧
      AdminDashboard.fetchFertilizersRejected st w err = Outcome.stay st w) := by
  refine ⟨?_, ?_, fun _ _ _ => rfl, fun _ _ _ => ⟨rfl, rfl⟩⟩
  · intro cfg err hnav hpend
    refine ⟨FarmerDashboard.Config.advance
      { cfg with pending := cfg.pending.erase .getFertilizers }
      (FarmerDashboard.fetchFertilizersRejected cfg.state (responseRejected err cfg.browser).1 err)
      [], ?_, ?_, ?_, ?_⟩
    · simp [FarmerDashboard.step, hnav, hpend]
    · rfl
    · simp [FarmerDashboard.Config.advance, FarmerDashboard.fetchFertilizersRejected,
        Outcome.stay]
    · rfl
  · intro cfg index call err hnav hpend hback
    cases call <;> simp [AdminDashboard.Call.isBackground] at hback
    · refine ⟨AdminDashboard.reject { cfg with pending := cfg.pending.eraseIdx index } .getMetrics err,
        ?_, ?_, ?_, ?_⟩
      · rw [List.get?_eq_getElem?] at hpend
        simp [AdminDashboard.step, hnav, hpend]
      · rfl
      · simp [AdminDashboard.reject, AdminDashboard.Config.advance,
          AdminDashboard.fetchMetricsRejected, Outcome.stay]
      · rfl
    · refine ⟨AdminDashboard.reject { cfg with pending := cfg.pending.eraseIdx index } .getFertilizers err,
        ?_, ?_, ?_, ?_⟩
      · rw [List.get?_eq_getElem?] at hpend
        simp [AdminDashboard.step, hnav, hpend]
      · rfl
      · simp [AdminDashboard.reject, AdminDashboard.Config.advance,
          AdminDashboard.fetchFertilizersRejected, Outcome.stay]
      · rfl

/-- On the mounted admin dashboard the metrics call fails with a network error: the
state is the one of the mount. -/
theorem background_fetch_failure_preserves_state_witness :
    ∃ next, AdminDashboard.step (AdminDashboard.Config.mounted exampleAdmin exampleBrowser)
        (.rejected 0 exampleNetworkError) = some next ∧
      next.state = (AdminDashboard.Config.mounted exampleAdmin exampleBrowser).state ∧
      next.sent = (AdminDashboard.Config.mounted exampleAdmin exampleBrowser).sent ∧
      next.navigated = none :=
  background_fetch_failure_preserves_state.2.1
    (AdminDashboard.Config.mounted exampleAdmin exampleBrowser) 0 .getMetrics
    exampleNetworkError rfl rfl rfl

/-! ## `Number::toString` and the JSON number parser -/

theorem JSNum.decimalLength_eq (n : Nat) : JSNum.decimalLength n = (Nat.digits 10 n).length := by
  unfold JSNum.decimalLength
  rw [decimalDigits_eq_digits (n + 1) n (by omega)]

theorem JSNum.pow_decimalLength_le (n : Nat) (hn : 0 < n) :
    10 ^ (JSNum.decimalLength n - 1) ≤ n := by
  rw [JSNum.decimalLength_eq]
  have h := Nat.base_pow_length_digits_le 10 n (by norm_num) (by omega)
  have hpos : 0 < (Nat.digits 10 n).length := by
    rcases Nat.eq_zero_or_pos (Nat.digits 10 n).length with h0 | h0
    · have := List.length_eq_zero.1 h0
      rw [Nat.digits_eq_nil_iff_eq_zero] at this
      omega
    · exact h0
  obtain ⟨k, hk⟩ : ∃ k, (Nat.digits 10 n).length = k + 1 := ⟨_, (Nat.succ_pred_eq_of_pos hpos).symm⟩
  rw [hk] at h ⊢
  rw [pow_succ] at h
  simp only [Nat.add_sub_cancel]
  omega

theorem JSNum.lt_pow_decimalLength (n : Nat) : n < 10 ^ JSNum.decimalLength n := by
  rw [JSNum.decimalLength_eq]
  exact Nat.lt_base_pow_length_digits (by norm_num)

theorem ten_zpow_add_nat (a : Int) (n : Nat) : (10 : ℚ) ^ (a + n) = 10 ^ a * 10 ^ n := by
  rw [zpow_add₀ (by norm_num : (10 : ℚ) ≠ 0), zpow_natCast]

/-- The decimal order is a lower bound: `10^(n-1) ≤ m * 2^e`. -/
theorem JSNum.decimalOrder_le (m : Nat) (e : Int) (hm : 0 < m) :
    (10 : ℚ) ^ (JSNum.decimalOrder m e - 1) ≤ (m : ℚ) * 2 ^ e := by
  unfold JSNum.decimalOrder
  by_cases he : 0 ≤ e
  · obtain ⟨d, rfl⟩ : ∃ d : Nat, e = d := ⟨e.toNat, by omega⟩
    simp only [he, if_true, Int.toNat_natCast]
    have hpos : 0 < m * 2 ^ d := by positivity
    have h := JSNum.pow_decimalLength_le (m * 2 ^ d) hpos
    have hl : 0 < JSNum.decimalLength (m * 2 ^ d) := by
      have := JSNum.lt_pow_decimalLength (m * 2 ^ d)
      rcases Nat.eq_zero_or_pos (JSNum.decimalLength (m * 2 ^ d)) with h0 | h0
      · rw [h0] at this; simp at this; omega
      · exact h0
    have : ((JSNum.decimalLength (m * 2 ^ d) : Int) - 1)
        = ((JSNum.decimalLength (m * 2 ^ d) - 1 : Nat) : Int) := by omega
    rw [this, zpow_natCast, zpow_natCast]
    exact_mod_cast h
  · obtain ⟨a, ha⟩ : ∃ a : Nat, (a : Int) = -e := ⟨(-e).toNat, by omega⟩
    have he2 : e = -(a : Int) := by omega
    simp only [he, if_false, ← ha, Int.toNat_natCast]
    have hapos : (0 : ℚ) < 2 ^ a := by positivity
    have hx : (m : ℚ) * 2 ^ e = (m : ℚ) / 2 ^ a := by
      rw [he2, zpow_neg, zpow_natCast, div_eq_mul_inv]
    rw [hx]
    by_cases hge : 2 ^ a ≤ m
    · simp only [hge, if_true]
      have hq : 0 < m / 2 ^ a := Nat.div_pos hge (by positivity)
      have h := JSNum.pow_decimalLength_le (m / 2 ^ a) hq
      have hl : 0 < JSNum.decimalLength (m / 2 ^ a) := by
        have := JSNum.lt_pow_decimalLength (m / 2 ^ a)
        rcases Nat.eq_zero_or_pos (JSNum.decimalLength (m / 2 ^ a)) with h0 | h0
        · rw [h0] at this; simp at this; omega
        · exact h0
      have : ((JSNum.decimalLength (m / 2 ^ a) : Int) - 1)
          = ((JSNum.decimalLength (m / 2 ^ a) - 1 : Nat) : Int) := by omega
      rw [this, zpow_natCast, le_div_iff₀ hapos]
      have h2 : m / 2 ^ a * 2 ^ a ≤ m := Nat.div_mul_le_self m (2 ^ a)
      have h3 : 10 ^ (JSNum.decimalLength (m / 2 ^ a) - 1) * 2 ^ a ≤ m :=
        le_trans (Nat.mul_le_mul_right _ h) h2
      exact_mod_cast h3
    · simp only [hge, if_false]
      have hlt : m < 2 ^ a := by omega
      generalize hc : (2 ^ a - 1) / m = c
      have hcl := JSNum.lt_pow_decimalLength c
      generalize JSNum.decimalLength c = i at *
      have h1 : 2 ^ a - 1 < (c + 1) * m := by
        rw [← hc]
        have := Nat.lt_div_mul_add (a := 2 ^ a - 1) hm
        have h2 : ((2 ^ a - 1) / m + 1) * m = (2 ^ a - 1) / m * m + m := by ring
        omega
      have h2 : (c + 1) * m ≤ 10 ^ i * m := Nat.mul_le_mul_right _ (by omega)
      have h3 : 2 ^ a ≤ 10 ^ i * m := by omega
      have : (1 : Int) - (i : Int) - 1 = -(i : Int) := by omega
      rw [this, zpow_neg, zpow_natCast, le_div_iff₀ hapos]
      have hipos : (0 : ℚ) < 10 ^ i := by positivity
      rw [inv_mul_le_iff₀ hipos]
      exact_mod_cast h3

theorem JSNum.scaled_pos (m : Nat) (e j : Int) : 0 < (JSNum.scaled m e j).2 := by
  unfold JSNum.scaled
  positivity

theorem JSNum.scaled_spec (m : Nat) (e j : Int) :
    ((JSNum.scaled m e j).1 : ℚ) = (m : ℚ) * 2 ^ e / 10 ^ j * ((JSNum.scaled m e j).2 : ℚ) := by
  unfold JSNum.scaled
  have h2 : ∀ e : Int, (2 : ℚ) ^ e = 2 ^ e.toNat / 2 ^ (-e).toNat := by
    intro e
    by_cases he : 0 ≤ e
    · obtain ⟨d, rfl⟩ : ∃ d : Nat, e = d := ⟨e.toNat, by omega⟩
      have : (-(d : Int)).toNat = 0 := by omega
      simp [this]
    · obtain ⟨d, hd⟩ : ∃ d : Nat, e = -(d : Int) := ⟨(-e).toNat, by omega⟩
      subst hd
      have : (-(d : Int)).toNat = 0 := by omega
      simp [this]
  have h10 : ∀ e : Int, (10 : ℚ) ^ e = 10 ^ e.toNat / 10 ^ (-e).toNat := by
    intro e
    by_cases he : 0 ≤ e
    · obtain ⟨d, rfl⟩ : ∃ d : Nat, e = d := ⟨e.toNat, by omega⟩
      have : (-(d : Int)).toNat = 0 := by omega
      simp [this]
    · obtain ⟨d, hd⟩ : ∃ d : Nat, e = -(d : Int) := ⟨(-e).toNat, by omega⟩
      subst hd
      have : (-(d : Int)).toNat = 0 := by omega
      simp [this]
  rw [h2 e, h10 j]
  push_cast
  field_simp

theorem JSNum.ofDecimal_zero (neg : Bool) (j : Int) : JSNum.ofDecimal neg 0 j = .fin neg 0 0 := by
  unfold JSNum.ofDecimal
  split_ifs <;> simp [JSNum.round, JSNum.roundRatio]

theorem JSNum.pickDigits_some (okBelow okAbove belowNearer aboveNearer belowEven : Bool)
    (below above x : Nat × Int)
    (h : JSNum.pickDigits okBelow okAbove belowNearer aboveNearer belowEven below above
      = some x) :
    (okBelow = true ∧ x = below) ∨ (okAbove = true ∧ x = above) := by
  unfold JSNum.pickDigits at h
  cases okBelow <;> cases okAbove <;> cases belowNearer <;> cases aboveNearer <;>
    cases belowEven <;> simp at h <;> simp [h]

theorem JSNum.pickDigits_ne_none (okBelow okAbove belowNearer aboveNearer belowEven : Bool)
    (below above : Nat × Int) (h : okBelow = true ∨ okAbove = true) :
    JSNum.pickDigits okBelow okAbove belowNearer aboveNearer belowEven below above ≠ none := by
  unfold JSNum.pickDigits
  cases okBelow <;> cases okAbove <;> cases belowNearer <;> cases aboveNearer <;>
    cases belowEven <;> simp at h ⊢

theorem JSNum.digitsOfLength_sound (m : Nat) (e : Int) (k : Nat) (x : Nat × Int)
    (h : JSNum.digitsOfLength m e k = some x) :
    JSNum.ofDecimal false x.1 x.2 = .fin false m e := by
  unfold JSNum.digitsOfLength at h
  rcases JSNum.pickDigits_some _ _ _ _ _ _ _ _ h with ⟨h1, h2⟩ | ⟨h1, h2⟩
  · rw [h2]
    simpa using h1
  · rw [h2]
    simp only [Bool.and_eq_true, decide_eq_true_eq] at h1
    exact h1.2

theorem JSNum.halfGapBelow_ge (m : Nat) (t : Int) (hC : JSNum.Canon m t) :
    (m : ℚ) * 2 ^ t ≤ 2 ^ 54 * JSNum.halfGapBelow m t := by
  unfold JSNum.halfGapBelow
  split_ifs with h
  · have : (2 : ℚ) ^ t = 2 ^ (t - 2) * 2 ^ (2 : ℕ) := by
      have : t = (t - 2) + ((2 : Nat) : Int) := by omega
      conv_lhs => rw [this, two_zpow_add_nat]
    rw [h.1, this]
    push_cast
    have hp : (0 : ℚ) < 2 ^ (t - 2) := by positivity
    nlinarith
  · have h2t := two_zpow_pred t
    have hm := JSNum.canon_lt m t hC
    have hmq : (m : ℚ) ≤ 2 ^ 53 := by
      exact_mod_cast hm.le
    have hp : (0 : ℚ) < 2 ^ (t - 1) := by positivity
    rw [h2t]
    nlinarith

/-- Seventeen digits: one of the two decimals of seventeen digits around a binary64
value reads back as that value. -/
theorem JSNum.digitsOfLength_seventeen (m : Nat) (t : Int) (hC : JSNum.Canon m t)
    (hm : 0 < m) : JSNum.digitsOfLength m t 17 ≠ none := by
  unfold JSNum.digitsOfLength
  apply JSNum.pickDigits_ne_none
  simp only [Bool.and_eq_true, decide_eq_true_eq]
  have hord := JSNum.decimalOrder_le m t hm
  generalize hj : JSNum.decimalOrder m t - ((17 : Nat) : Int) = j at *
  have hspec := JSNum.scaled_spec m t j
  have hqpos := JSNum.scaled_pos m t j
  generalize (JSNum.scaled m t j).1 = p at *
  generalize (JSNum.scaled m t j).2 = q at *
  have hdm := Nat.div_add_mod p q
  have hmodlt := Nat.mod_lt p hqpos
  generalize p / q = lo at *
  generalize p % q = r at *
  have hqq : (0 : ℚ) < (q : ℚ) := by exact_mod_cast hqpos
  have hTpos : (0 : ℚ) < (10 : ℚ) ^ j := by positivity
  have hg0 := JSNum.halfGapBelow_pos m t
  have hg1 := JSNum.halfGapBelow_le m t
  have hg2 := JSNum.halfGapBelow_ge m t hC
  have hxpos : (0 : ℚ) < (m : ℚ) * 2 ^ t := by positivity
  -- the spacing of the decimals is below the width of the rounding interval
  have hT : (10 : ℚ) ^ j < 2 * JSNum.halfGapBelow m t := by
    have h16 : (10 : ℚ) ^ j * 10 ^ (16 : ℕ) ≤ (m : ℚ) * 2 ^ t := by
      have : JSNum.decimalOrder m t - 1 = j + ((16 : Nat) : Int) := by
        push_cast at hj ⊢; omega
      rw [this, ten_zpow_add_nat] at hord
      exact hord
    nlinarith
  -- the value between the two decimals
  have hx : (m : ℚ) * 2 ^ t = ((lo : ℚ) + (r : ℚ) / q) * 10 ^ j := by
    have h1 : (p : ℚ) = (q : ℚ) * lo + r := by exact_mod_cast hdm.symm
    rw [h1] at hspec
    field_simp at hspec ⊢
    linarith
  have hρ0 : (0 : ℚ) ≤ (r : ℚ) / q := by positivity
  have hρ1 : (r : ℚ) / q < 1 := by
    rw [div_lt_one hqq]
    exact_mod_cast hmodlt
  by_cases hhalf : 2 * r ≤ q
  · left
    have hρ : (r : ℚ) / q ≤ 1 / 2 := by
      rw [div_le_iff₀ hqq]
      have : ((2 * r : Nat) : ℚ) ≤ (q : ℚ) := by exact_mod_cast hhalf
      push_cast at this
      linarith
    have hρT : (r : ℚ) / q * 10 ^ j ≤ 1 / 2 * 10 ^ j :=
      mul_le_mul_of_nonneg_right hρ hTpos.le
    have hρT0 : 0 ≤ (r : ℚ) / q * 10 ^ j := by positivity
    apply JSNum.ofDecimal_eq_of_mem false lo j m t hC hm
    · rw [hx]; linarith
    · have : (0 : ℚ) < 2 ^ (t - 1) := by positivity
      rw [hx]; linarith
  · right
    have hr0 : r ≠ 0 := by omega
    refine ⟨hr0, ?_⟩
    have hρ : 1 / 2 < (r : ℚ) / q := by
      rw [lt_div_iff₀ hqq]
      have : ((q : Nat) : ℚ) < ((2 * r : Nat) : ℚ) := by exact_mod_cast (by omega : q < 2 * r)
      push_cast at this
      linarith
    have hρT : 1 / 2 * 10 ^ j < (r : ℚ) / q * 10 ^ j :=
      mul_lt_mul_of_pos_right hρ hTpos
    have hρT1 : (r : ℚ) / q * 10 ^ j < 1 * 10 ^ j :=
      mul_lt_mul_of_pos_right hρ1 hTpos
    have hval : ((JSNum.digitsAbove lo j 17).1 : ℚ) * 10 ^ (JSNum.digitsAbove lo j 17).2
        = ((lo : ℚ) + 1) * 10 ^ j := by
      unfold JSNum.digitsAbove
      split_ifs with h17
      · have h17q : ((lo : ℚ) + 1) = 10 ^ (17 : ℕ) := by exact_mod_cast h17
        rw [h17q]
        simp only
        rw [zpow_add₀ (by norm_num : (10 : ℚ) ≠ 0)]
        push_cast
        ring
      · simp only
        push_cast
        ring
    apply JSNum.ofDecimal_eq_of_mem false _ _ m t hC hm
    · rw [hval, hx]; linarith
    · rw [hval, hx]; linarith

theorem JSNum.shortestDigitsFrom_spec (m : Nat) (e : Int) (fuel k : Nat)
    (h : ∃ i, i < fuel ∧ JSNum.digitsOfLength m e (k + i) ≠ none) :
    JSNum.ofDecimal false (JSNum.shortestDigitsFrom m e fuel k).1
      (JSNum.shortestDigitsFrom m e fuel k).2 = .fin false m e := by
  induction fuel generalizing k with
  | zero =>
    obtain ⟨i, hi, _⟩ := h
    omega
  | succ fuel ih =>
    unfold JSNum.shortestDigitsFrom
    cases hd : JSNum.digitsOfLength m e k with
    | some x => exact JSNum.digitsOfLength_sound m e k x hd
    | none =>
      simp only
      apply ih
      obtain ⟨i, hi, hne⟩ := h
      rcases Nat.eq_zero_or_pos i with h0 | h0
      · subst h0
        simp [hd] at hne
      · refine ⟨i - 1, by omega, ?_⟩
        have : k + 1 + (i - 1) = k + i := by omega
        rw [this]
        exact hne

/-- The digits of `Number::toString` read back as the value. -/
theorem JSNum.shortestDigits_spec (m : Nat) (t : Int) (hC : JSNum.Canon m t) (hm : 0 < m) :
    JSNum.ofDecimal false (JSNum.shortestDigits m t).1 (JSNum.shortestDigits m t).2
      = .fin false m t ∧ 0 < (JSNum.shortestDigits m t).1 := by
  have h1 : JSNum.ofDecimal false (JSNum.shortestDigits m t).1 (JSNum.shortestDigits m t).2
      = .fin false m t :=
    JSNum.shortestDigitsFrom_spec m t 17 1
      ⟨16, by norm_num, JSNum.digitsOfLength_seventeen m t hC hm⟩
  refine ⟨h1, ?_⟩
  rcases Nat.eq_zero_or_pos (JSNum.shortestDigits m t).1 with h0 | h0
  · rw [h0, JSNum.ofDecimal_zero] at h1
    injection h1 with _ h2 _
    omega
  · exact h0

theorem digitChar_toNat (d : Nat) (h : d < 10) : (digitChar d).toNat = 48 + d := by
  unfold digitChar
  interval_cases d <;> rfl

theorem isDecimalDigit_digitChar (d : Nat) (h : d < 10) : isDecimalDigit (digitChar d) = true := by
  unfold isDecimalDigit
  rw [digitChar_toNat d h]
  simp
  omega

theorem digitsValue_foldl (ds : List Char) (a : Nat) :
    ds.foldl (fun n c => 10 * n + (c.toNat - 48)) a = a * 10 ^ ds.length + digitsValue ds := by
  induction ds generalizing a with
  | nil => simp [digitsValue]
  | cons c rest ih =>
    unfold digitsValue
    simp only [List.foldl_cons, List.length_cons]
    rw [ih, ih (10 * 0 + (c.toNat - 48))]
    ring

theorem digitsValue_append (a b : List Char) :
    digitsValue (a ++ b) = digitsValue a * 10 ^ b.length + digitsValue b := by
  unfold digitsValue
  rw [List.foldl_append, digitsValue_foldl]
  rfl

theorem digitsValue_nil : digitsValue [] = 0 := rfl

theorem digitsValue_singleton (c : Char) : digitsValue [c] = c.toNat - 48 := by
  simp [digitsValue]

theorem digitsValue_replicate_zero (z : Nat) : digitsValue (List.replicate z '0') = 0 := by
  induction z with
  | zero => rfl
  | succ z ih =>
    rw [List.replicate_succ']
    rw [digitsValue_append, ih]
    simp [digitsValue]

theorem digitsValue_digits (l : List Nat) (h : ∀ d ∈ l, d < 10) :
    digitsValue (l.reverse.map digitChar) = Nat.ofDigits 10 l := by
  induction l with
  | nil => rfl
  | cons d rest ih =>
    have hd : d < 10 := h d (List.mem_cons_self _ _)
    have hrest : ∀ x ∈ rest, x < 10 := fun x hx => h x (List.mem_cons_of_mem _ hx)
    rw [List.reverse_cons, List.map_append, digitsValue_append, ih hrest]
    simp only [List.map_cons, List.map_nil, List.length_singleton, pow_one,
      digitsValue_singleton, digitChar_toNat d hd, Nat.ofDigits_cons]
    omega

theorem digitsValue_decimalRepr (n : Nat) : digitsValue (decimalRepr n) = n := by
  rcases Nat.eq_zero_or_pos n with h | h
  · subst h; rfl
  · rw [decimalRepr_of_pos n h, digitsValue_digits _ (fun d hd => Nat.digits_lt_base (by norm_num) hd)]
    exact Nat.ofDigits_digits 10 n

theorem decimalRepr_all_digits (n : Nat) : ∀ c ∈ decimalRepr n, isDecimalDigit c = true := by
  rcases Nat.eq_zero_or_pos n with h | h
  · subst h
    intro c hc
    simp [decimalRepr, decimalDigits] at hc
    subst hc
    rfl
  · rw [decimalRepr_of_pos n h]
    intro c hc
    simp only [List.mem_map, List.mem_reverse] at hc
    obtain ⟨d, hd, rfl⟩ := hc
    exact isDecimalDigit_digitChar d (Nat.digits_lt_base (by norm_num) hd)

theorem decimalRepr_ne_nil (n : Nat) : decimalRepr n ≠ [] := by
  rcases Nat.eq_zero_or_pos n with h | h
  · subst h; simp [decimalRepr]
  · rw [decimalRepr_of_pos n h]
    have hne : Nat.digits 10 n ≠ [] := by
      rw [ne_eq, Nat.digits_eq_nil_iff_eq_zero]; omega
    simpa using hne

theorem decimalRepr_head (n : Nat) (h : 0 < n) : (decimalRepr n).head? ≠ some '0' := by
  rw [decimalRepr_of_pos n h]
  have hne : Nat.digits 10 n ≠ [] := by
    simp [Nat.digits_eq_nil_iff_eq_zero]; omega
  have hlast := Nat.getLast_digit_ne_zero 10 (m := n) (by omega)
  have hlt : (Nat.digits 10 n).getLast hne < 10 :=
    Nat.digits_lt_base (by norm_num) (List.getLast_mem hne)
  rw [List.head?_map, List.head?_reverse, List.getLast?_eq_getLast _ hne]
  simp only [Option.map_some', ne_eq, Option.some.injEq]
  intro hc
  have := congrArg Char.toNat hc
  rw [digitChar_toNat _ hlt] at this
  have h0 : ('0' : Char).toNat = 48 := rfl
  omega


theorem takeWhile_digits_append (ds rest : List Char)
    (hds : ∀ c ∈ ds, isDecimalDigit c = true)
    (hrest : ∀ c, rest.head? = some c → isDecimalDigit c = false) :
    (ds ++ rest).takeWhile isDecimalDigit = ds ∧
    (ds ++ rest).dropWhile isDecimalDigit = rest := by
  induction ds with
  | nil =>
    cases rest with
    | nil => simp
    | cons c r =>
      have := hrest c rfl
      simp [List.takeWhile, List.dropWhile, this]
  | cons d ds ih =>
    have hd := hds d (List.mem_cons_self _ _)
    have := ih (fun c hc => hds c (List.mem_cons_of_mem _ hc))
    simp [List.takeWhile, List.dropWhile, hd, this]

theorem JSON.parseExponentPart_end (rest : List Char) (h : JSON.NumberEnd rest) :
    JSON.parseExponentPart rest = some (0, rest) := by
  cases rest with
  | nil => rfl
  | cons c r =>
    obtain ⟨_, _, h1, h2⟩ := h c rfl
    simp [JSON.parseExponentPart, h1, h2]

theorem JSON.parseExponentPart_exp (ex : Int) (rest : List Char) (h : JSON.NumberEnd rest) :
    JSON.parseExponentPart
        ('e' :: (if 0 ≤ ex then '+' else '-') :: (decimalRepr ex.natAbs ++ rest))
      = some (ex, rest) := by
  have hrest : ∀ c, rest.head? = some c → isDecimalDigit c = false := fun c hc => (h c hc).1
  obtain ⟨ht, hd⟩ := takeWhile_digits_append (decimalRepr ex.natAbs) rest
    (decimalRepr_all_digits _) hrest
  have hne : (decimalRepr ex.natAbs).isEmpty = false := by
    cases hr : decimalRepr ex.natAbs with
    | nil => exact absurd hr (decimalRepr_ne_nil _)
    | cons _ _ => rfl
  by_cases hex : 0 ≤ ex
  · simp only [JSON.parseExponentPart, hex, if_true, true_or, ht, hd, hne,
      digitsValue_decimalRepr]
    simp
    omega
  · simp only [JSON.parseExponentPart, hex, if_false, true_or, if_true, ht, hd, hne,
      digitsValue_decimalRepr]
    have habs := abs_of_neg (lt_of_not_ge hex)
    simp
    omega

theorem JSON.parseUnsignedNumber_int (neg : Bool) (ds tail rest : List Char) (ex : Int)
    (hds : ∀ c ∈ ds, isDecimalDigit c = true) (hne : ds ≠ [])
    (hlead : ds.length = 1 ∨ ds.head? ≠ some '0')
    (htail : ∀ c, tail.head? = some c → isDecimalDigit c = false ∧ c ≠ '.')
    (hex : JSON.parseExponentPart tail = some (ex, rest)) :
    JSON.parseUnsignedNumber neg (ds ++ tail)
      = some (JSNum.ofDecimal neg (digitsValue ds) ex, rest) := by
  obtain ⟨ht, hd⟩ := takeWhile_digits_append ds tail hds (fun c hc => (htail c hc).1)
  have hemp : ds.isEmpty = false := by
    cases ds with
    | nil => exact absurd rfl hne
    | cons _ _ => rfl
  have hl : ¬ (1 < ds.length ∧ ds.head? = some '0') := by
    rintro ⟨h1, h2⟩
    rcases hlead with h | h
    · omega
    · exact h h2
  unfold JSON.parseUnsignedNumber
  simp only [ht, hd, hemp, hl, if_false, Bool.false_eq_true]
  cases tail with
  | nil => simp [hex]
  | cons c r =>
    have hc := (htail c rfl).2
    split
    · rename_i heq
      injection heq with h1 _
      exact absurd h1 hc
    · simp [hex]

theorem JSON.parseUnsignedNumber_frac (neg : Bool) (ds fs tail rest : List Char) (ex : Int)
    (hds : ∀ c ∈ ds, isDecimalDigit c = true) (hne : ds ≠ [])
    (hlead : ds.length = 1 ∨ ds.head? ≠ some '0')
    (hfs : ∀ c ∈ fs, isDecimalDigit c = true) (hfne : fs ≠ [])
    (htail : ∀ c, tail.head? = some c → isDecimalDigit c = false)
    (hex : JSON.parseExponentPart tail = some (ex, rest)) :
    JSON.parseUnsignedNumber neg (ds ++ '.' :: (fs ++ tail))
      = some (JSNum.ofDecimal neg (digitsValue (ds ++ fs)) (ex - (fs.length : Int)), rest) := by
  obtain ⟨ht, hd⟩ := takeWhile_digits_append ds ('.' :: (fs ++ tail)) hds
    (by intro c hc; simp at hc; subst hc; rfl)
  obtain ⟨ht2, hd2⟩ := takeWhile_digits_append fs tail hfs htail
  have hemp : ds.isEmpty = false := by
    cases ds with
    | nil => exact absurd rfl hne
    | cons _ _ => rfl
  have hfemp : fs.isEmpty = false := by
    cases fs with
    | nil => exact absurd rfl hfne
    | cons _ _ => rfl
  have hl : ¬ (1 < ds.length ∧ ds.head? = some '0') := by
    rintro ⟨h1, h2⟩
    rcases hlead with h | h
    · omega
    · exact h h2
  unfold JSON.parseUnsignedNumber
  simp only [ht, hd, hemp, hl, if_false, Bool.false_eq_true, ht2, hd2, hfemp, hex]

theorem take_ne_nil_of_pos (l : List Char) (n : Nat) (hn : 0 < n) (hl : l ≠ []) :
    l.take n ≠ [] := by
  cases l with
  | nil => exact absurd rfl hl
  | cons c r =>
    obtain ⟨i, rfl⟩ : ∃ i, n = i + 1 := ⟨n - 1, by omega⟩
    simp

theorem drop_ne_nil_of_lt (l : List Char) (n : Nat) (hn : n < l.length) : l.drop n ≠ [] := by
  intro h0
  have := congrArg List.length h0
  rw [List.length_drop] at this
  simp only [List.length_nil] at this
  omega

theorem JSON.parseUnsignedNumber_format (neg : Bool) (s : Nat) (j : Int) (rest : List Char)
    (hs : 0 < s) (hend : JSON.NumberEnd rest) :
    JSON.parseUnsignedNumber neg (JSNum.formatDecimal s j ++ rest)
      = some (JSNum.ofDecimal neg s j, rest) := by
  have hall := decimalRepr_all_digits s
  have hne := decimalRepr_ne_nil s
  have hhead := decimalRepr_head s hs
  have hval := digitsValue_decimalRepr s
  have hend0 := JSON.parseExponentPart_end rest hend
  have hrestd : ∀ c, rest.head? = some c → isDecimalDigit c = false := fun c hc => (hend c hc).1
  have hrestp : ∀ c, rest.head? = some c → isDecimalDigit c = false ∧ c ≠ '.' :=
    fun c hc => ⟨(hend c hc).1, (hend c hc).2.1⟩
  unfold JSNum.formatDecimal
  simp only
  generalize hds : decimalRepr s = ds at *
  have hk : 0 < ds.length := List.length_pos.2 hne
  generalize hn : j + (ds.length : Int) = n
  have hetail : ∀ c, ('e' :: (if 0 ≤ n - 1 then '+' else '-') ::
      (decimalRepr (n - 1).natAbs ++ rest)).head? = some c →
      isDecimalDigit c = false ∧ c ≠ '.' := by
    intro c hc
    simp at hc
    subst hc
    exact ⟨rfl, by decide⟩
  by_cases hA : (ds.length : Int) ≤ n ∧ n ≤ 21
  · -- digits and trailing zeros
    rw [if_pos hA]
    obtain ⟨z, hz⟩ : ∃ z : Nat, (z : Int) = n - ds.length := ⟨(n - ds.length).toNat, by omega⟩
    have hjz : j = z := by omega
    rw [← hz, Int.toNat_natCast]
    have h := JSON.parseUnsignedNumber_int neg (ds ++ List.replicate z '0') rest rest 0
      (by
        intro c hc
        rcases List.mem_append.1 hc with h1 | h1
        · exact hall c h1
        · rw [List.eq_of_mem_replicate h1]; rfl)
      (by simp [hne])
      (Or.inr (by
        cases ds with
        | nil => exact absurd rfl hne
        | cons d r => simpa using hhead))
      hrestp hend0
    rw [h, digitsValue_append, hval, digitsValue_replicate_zero, hjz]
    simp [JSNum.ofDecimal]
  rw [if_neg hA]
  by_cases hB : 0 < n ∧ n ≤ 21
  · -- a point inside the digits
    rw [if_pos hB]
    obtain ⟨n', hn'⟩ : ∃ n' : Nat, (n' : Int) = n := ⟨n.toNat, by omega⟩
    rw [← hn', Int.toNat_natCast]
    have hlt : n' < ds.length := by omega
    have hpos : 0 < n' := by omega
    have h := JSON.parseUnsignedNumber_frac neg (ds.take n') (ds.drop n') rest rest 0
      (fun c hc => hall c (List.mem_of_mem_take hc))
      (take_ne_nil_of_pos ds n' hpos hne)
      (Or.inr (by
        cases ds with
        | nil => exact absurd rfl hne
        | cons d r =>
          obtain ⟨i, rfl⟩ : ∃ i, n' = i + 1 := ⟨n' - 1, by omega⟩
          simpa using hhead))
      (fun c hc => hall c (List.mem_of_mem_drop hc))
      (drop_ne_nil_of_lt ds n' hlt)
      hrestd hend0
    have hassoc : ds.take n' ++ '.' :: ds.drop n' ++ rest
        = ds.take n' ++ '.' :: (ds.drop n' ++ rest) := by simp
    rw [hassoc, h, List.take_append_drop, hval, List.length_drop]
    have he : (0 : Int) - ((ds.length - n' : Nat) : Int) = j := by omega
    rw [he]
  rw [if_neg hB]
  by_cases hC : -6 < n ∧ n ≤ 0
  · -- leading zeros
    rw [if_pos hC]
    obtain ⟨z, hz⟩ : ∃ z : Nat, (z : Int) = -n := ⟨(-n).toNat, by omega⟩
    rw [← hz, Int.toNat_natCast]
    have h := JSON.parseUnsignedNumber_frac neg ['0'] (List.replicate z '0' ++ ds) rest rest 0
      (by intro c hc; simp at hc; subst hc; rfl)
      (by simp)
      (Or.inl rfl)
      (by
        intro c hc
        rcases List.mem_append.1 hc with h1 | h1
        · rw [List.eq_of_mem_replicate h1]; rfl
        · exact hall c h1)
      (by simp [hne])
      hrestd hend0
    have hassoc : '0' :: '.' :: (List.replicate z '0' ++ ds) ++ rest
        = ['0'] ++ '.' :: ((List.replicate z '0' ++ ds) ++ rest) := by simp
    rw [hassoc, h]
    have hv : digitsValue (['0'] ++ (List.replicate z '0' ++ ds)) = s := by
      rw [digitsValue_append, digitsValue_append, digitsValue_replicate_zero, hval]
      simp [digitsValue]
    rw [hv, List.length_append, List.length_replicate]
    have he : (0 : Int) - ((z + ds.length : Nat) : Int) = j := by push_cast; omega
    rw [he]
  rw [if_neg hC]
  by_cases hD : ds.length = 1
  · -- one digit and an exponent
    rw [if_pos hD]
    have h := JSON.parseUnsignedNumber_int neg ds
      ('e' :: (if 0 ≤ n - 1 then '+' else '-') :: (decimalRepr (n - 1).natAbs ++ rest))
      rest (n - 1) hall hne (Or.inl hD) hetail (JSON.parseExponentPart_exp (n - 1) rest hend)
    have hassoc : ds ++ 'e' :: (if 0 ≤ n - 1 then '+' else '-') :: decimalRepr (n - 1).natAbs
          ++ rest
        = ds ++ 'e' :: (if 0 ≤ n - 1 then '+' else '-') ::
          (decimalRepr (n - 1).natAbs ++ rest) := by simp
    rw [hassoc, h, hval]
    have he : n - 1 = j := by omega
    rw [he]
  · -- several digits and an exponent
    rw [if_neg hD]
    have hk2 : 2 ≤ ds.length := by omega
    have h := JSON.parseUnsignedNumber_frac neg (ds.take 1) (ds.drop 1)
      ('e' :: (if 0 ≤ n - 1 then '+' else '-') :: (decimalRepr (n - 1).natAbs ++ rest))
      rest (n - 1)
      (fun c hc => hall c (List.mem_of_mem_take hc))
      (take_ne_nil_of_pos ds 1 (by norm_num) hne)
      (Or.inl (by rw [List.length_take]; omega))
      (fun c hc => hall c (List.mem_of_mem_drop hc))
      (drop_ne_nil_of_lt ds 1 (by omega))
      (fun c hc => (hetail c hc).1) (JSON.parseExponentPart_exp (n - 1) rest hend)
    have hassoc : ds.take 1 ++ '.' :: (ds.drop 1 ++ 'e' :: (if 0 ≤ n - 1 then '+' else '-') ::
          decimalRepr (n - 1).natAbs) ++ rest
        = ds.take 1 ++ '.' :: (ds.drop 1 ++ 'e' :: (if 0 ≤ n - 1 then '+' else '-') ::
          (decimalRepr (n - 1).natAbs ++ rest)) := by simp
    rw [hassoc, h, List.take_append_drop, hval, List.length_drop]
    have he : n - 1 - ((ds.length - 1 : Nat) : Int) = j := by omega
    rw [he]

theorem JSNum.isCanonical_fin_iff (neg : Bool) (m : Nat) (e : Int) :
    JSNum.isCanonical (.fin neg m e) = true ↔ (m = 0 ∧ e = 0) ∨ (0 < m ∧ JSNum.Canon m e) := by
  unfold JSNum.isCanonical JSNum.Canon
  simp only [Bool.or_eq_true, Bool.and_eq_true, decide_eq_true_eq]
  constructor
  · rintro ((h | h) | h)
    · exact Or.inl h
    · exact Or.inr ⟨h.1.1, Or.inl ⟨h.1.2, h.2⟩⟩
    · exact Or.inr ⟨lt_of_lt_of_le (by norm_num) h.1.1.1, Or.inr ⟨h.1.1.1, h.1.1.2, h.1.2, h.2⟩⟩
  · rintro (h | ⟨hm, h | h⟩)
    · exact Or.inl (Or.inl h)
    · exact Or.inl (Or.inr ⟨⟨hm, h.1⟩, h.2⟩)
    · exact Or.inr ⟨⟨⟨h.1, h.2.1⟩, h.2.2.1⟩, h.2.2.2⟩

theorem JSNum.round_sign (neg : Bool) (M : Nat) (E : Int) (m : Nat) (t : Int)
    (h : JSNum.round false M E = .fin false m t) : JSNum.round neg M E = .fin neg m t := by
  unfold JSNum.round at h ⊢
  simp only at h ⊢
  split_ifs at h ⊢ <;> (injection h with _ h1 h2; subst h1; subst h2; rfl)

theorem JSNum.ofDecimal_sign (neg : Bool) (s : Nat) (j : Int) (m : Nat) (t : Int)
    (h : JSNum.ofDecimal false s j = .fin false m t) :
    JSNum.ofDecimal neg s j = .fin neg m t := by
  unfold JSNum.ofDecimal at h ⊢
  split_ifs at h ⊢
  · exact JSNum.round_sign neg _ _ m t h
  · unfold JSNum.roundRatio at h ⊢
    simp only at h ⊢
    split_ifs at h ⊢
    · injection h with _ h1 h2
      rw [← h1, ← h2]
    · exact JSNum.round_sign neg _ _ m t h
    · exact JSNum.round_sign neg _ _ m t h

/-- Rounding is exact on a value that is a binary64 value: the result is its normal
form. -/
theorem JSNum.round_of_isDouble (neg : Bool) (m : Nat) (e : Int) (hm : 0 < m)
    (hlt : m < 2 ^ 53) (hge : -1074 ≤ e) (hle : e ≤ 971) :
    ∃ m' t', JSNum.round neg m e = .fin neg m' t' ∧ 0 < m' ∧ JSNum.Canon m' t' ∧
      (m' : ℚ) * 2 ^ t' = (m : ℚ) * 2 ^ e := by
  have hypos : (0 : ℚ) < (m : ℚ) * 2 ^ e := by positivity
  have hmq : (1 : ℚ) ≤ (m : ℚ) := by exact_mod_cast hm
  rcases JSNum.round_spec neg m e hm with ⟨_, hov⟩ | ⟨_, hun⟩ | ⟨m', t', hr, hm', hC, hup, _, hlow, _⟩
  · exfalso
    have h1 : (m : ℚ) * 2 ^ e ≤ (2 ^ 53 - 1) * 2 ^ (971 : ℤ) := by
      have hmq2 : (m : ℚ) ≤ 2 ^ 53 - 1 := by
        have : m ≤ 2 ^ 53 - 1 := by omega
        have h2 : ((m : Nat) : ℚ) ≤ ((2 ^ 53 - 1 : Nat) : ℚ) := by exact_mod_cast this
        push_cast at h2
        norm_num at h2 ⊢
        linarith
      have hpw : (2 : ℚ) ^ e ≤ 2 ^ (971 : ℤ) := two_zpow_mono hle
      exact mul_le_mul hmq2 hpw (by positivity) (by norm_num)
    have h2 : ((2 : ℚ) ^ 53 - 1) * 2 ^ (971 : ℤ) < 2 ^ (1024 : ℤ) - 2 ^ (970 : ℤ) := by
      norm_num
    linarith
  · exfalso
    have hpw : (2 : ℚ) ^ (-1074 : ℤ) ≤ 2 ^ e := two_zpow_mono hge
    have h1 : (2 : ℚ) ^ (-1074 : ℤ) ≤ (m : ℚ) * 2 ^ e := by
      have hp : (0 : ℚ) < 2 ^ e := by positivity
      nlinarith
    have h2 : (2 : ℚ) ^ (-1075 : ℤ) < 2 ^ (-1074 : ℤ) := by
      have := two_zpow_pred (-1074)
      have hp : (0 : ℚ) < 2 ^ (-1075 : ℤ) := by positivity
      have e1 : (-1074 : ℤ) - 1 = -1075 := by norm_num
      rw [e1] at this
      linarith
    linarith
  · refine ⟨m', t', hr, hm', hC, ?_⟩
    have hnear := JSNum.nearest_of_interval _ m' t' hC hup hlow m e hlt hge
    rw [sub_self, abs_zero] at hnear
    have := abs_nonneg ((m' : ℚ) * 2 ^ t' - (m : ℚ) * 2 ^ e)
    have h0 : |(m' : ℚ) * 2 ^ t' - (m : ℚ) * 2 ^ e| = 0 := le_antisymm hnear this
    have := abs_eq_zero.1 h0
    linarith

theorem JSNum.round_of_canon (neg : Bool) (m : Nat) (t : Int) (hm : 0 < m)
    (hC : JSNum.Canon m t) : JSNum.round neg m t = .fin neg m t := by
  obtain ⟨m', t', hr, hm', hC', hv⟩ := JSNum.round_of_isDouble neg m t hm
    (JSNum.canon_lt m t hC) (JSNum.canon_ge m t hC) (JSNum.canon_le m t hC)
  obtain ⟨h1, h2⟩ := JSNum.canon_unique m' m t' t hC' hC hm' hm hv
  rw [hr, h1, h2]

theorem JSNum.formatDecimal_head (s : Nat) (j : Int) :
    ∃ c r, JSNum.formatDecimal s j = c :: r ∧ isDecimalDigit c = true := by
  have hall := decimalRepr_all_digits s
  have hne := decimalRepr_ne_nil s
  unfold JSNum.formatDecimal
  simp only
  cases hds : decimalRepr s with
  | nil => exact absurd hds hne
  | cons d ds =>
    have hd : isDecimalDigit d = true := hall d (by rw [hds]; exact List.mem_cons_self _ _)
    by_cases hA : (((d :: ds).length : Nat) : Int) ≤ j + ((d :: ds).length : Int) ∧
        j + ((d :: ds).length : Int) ≤ 21
    · rw [if_pos hA]
      exact ⟨d, _, rfl, hd⟩
    rw [if_neg hA]
    by_cases hB : 0 < j + ((d :: ds).length : Int) ∧ j + ((d :: ds).length : Int) ≤ 21
    · rw [if_pos hB]
      obtain ⟨i, hi⟩ : ∃ i : Nat, (j + ((d :: ds).length : Int)).toNat = i + 1 :=
        ⟨(j + ((d :: ds).length : Int)).toNat - 1, by omega⟩
      rw [hi]
      exact ⟨d, _, rfl, hd⟩
    rw [if_neg hB]
    by_cases hC : -6 < j + ((d :: ds).length : Int) ∧ j + ((d :: ds).length : Int) ≤ 0
    · rw [if_pos hC]
      exact ⟨'0', _, rfl, rfl⟩
    rw [if_neg hC]
    by_cases hD : (d :: ds).length = 1
    · rw [if_pos hD]
      exact ⟨d, _, rfl, hd⟩
    · rw [if_neg hD]
      exact ⟨d, _, rfl, hd⟩

theorem JSON.parseNumber_of_digit (c : Char) (r : List Char) (hc : isDecimalDigit c = true) :
    JSON.parseNumber (c :: r) = JSON.parseUnsignedNumber false (c :: r) := by
  unfold JSON.parseNumber
  split
  · rename_i r2 heq
    injection heq with h1 _
    subst h1
    exact absurd hc (by decide)
  · rfl

/-- The JSON number parser reads the text of `Number::toString` back as the same
Number: the value in normal form, with a negative zero read back as zero. -/
theorem JSON.parseNumber_numberToString (neg : Bool) (m : Nat) (e : Int)
    (hlt : m < 2 ^ 53) (hge : -1074 ≤ e) (hle : e ≤ 971)
    (rest : List Char) (hend : JSON.NumberEnd rest) :
    ∃ b, JSON.parseNumber (JSNum.numberToString (.fin neg m e) ++ rest) = some (b, rest) ∧
      JSNum.isFinite b = true ∧ JSNum.isCanonical b = true ∧
      JSNum.isFinite (JSNum.normalize (.fin neg m e)) = true ∧
      JSNum.toRat b = JSNum.toRat (.fin neg m e) ∧
      (JSNum.isCanonical (.fin neg m e) = true → ¬ (neg = true ∧ m = 0) →
        b = .fin neg m e) := by
  rcases Nat.eq_zero_or_pos m with h0 | hm
  · subst h0
    have hnorm : JSNum.normalize (.fin neg 0 e) = .fin neg 0 0 := by
      simp [JSNum.normalize, JSNum.round]
    have htext : JSNum.numberToString (.fin neg 0 e) = ['0'] := by
      simp [JSNum.numberToString, hnorm]
    refine ⟨.fin false 0 0, ?_, rfl, by decide, by rw [hnorm]; rfl, ?_, ?_⟩
    · rw [htext]
      show JSON.parseNumber ('0' :: rest) = _
      rw [JSON.parseNumber_of_digit '0' rest rfl]
      have h := JSON.parseUnsignedNumber_int false ['0'] rest rest 0
        (by intro c hc; simp at hc; subst hc; rfl) (by simp) (Or.inl rfl)
        (fun c hc => ⟨(hend c hc).1, (hend c hc).2.1⟩) (JSON.parseExponentPart_end rest hend)
      simp only [List.singleton_append] at h
      rw [h]
      have : digitsValue ['0'] = 0 := rfl
      rw [this, JSNum.ofDecimal_zero]
    · simp [JSNum.toRat]
    · intro hcan hnz
      rw [JSNum.isCanonical_fin_iff] at hcan
      rcases hcan with ⟨_, he0⟩ | ⟨hpos, _⟩
      · subst he0
        cases neg
        · rfl
        · exact absurd ⟨rfl, rfl⟩ hnz
      · omega
  · obtain ⟨m', t', hr, hm', hC, hv⟩ := JSNum.round_of_isDouble neg m e hm hlt hge hle
    obtain ⟨hsd, hspos⟩ := JSNum.shortestDigits_spec m' t' hC hm'
    have hnorm : JSNum.normalize (.fin neg m e) = .fin neg m' t' := by
      simp [JSNum.normalize, hr]
    have hm0 : m' ≠ 0 := by omega
    have htext : JSNum.numberToString (.fin neg m e) =
        (if neg then ['-'] else []) ++
          JSNum.formatDecimal (JSNum.shortestDigits m' t').1 (JSNum.shortestDigits m' t').2 := by
      simp [JSNum.numberToString, hnorm, hm0]
    have hparse := JSON.parseUnsignedNumber_format neg (JSNum.shortestDigits m' t').1
      (JSNum.shortestDigits m' t').2 rest hspos hend
    rw [JSNum.ofDecimal_sign neg _ _ m' t' hsd] at hparse
    refine ⟨.fin neg m' t', ?_, rfl, ?_, by rw [hnorm]; rfl, ?_, ?_⟩
    · rw [htext]
      cases neg
      · obtain ⟨c, r, hcr, hc⟩ := JSNum.formatDecimal_head (JSNum.shortestDigits m' t').1
          (JSNum.shortestDigits m' t').2
        simp only [Bool.false_eq_true, if_false, List.nil_append]
        rw [hcr] at hparse ⊢
        rw [List.cons_append, JSON.parseNumber_of_digit c _ hc]
        exact hparse
      · simp only [if_true, List.singleton_append, List.cons_append]
        exact hparse
    · rw [JSNum.isCanonical_fin_iff]
      exact Or.inr ⟨hm', hC⟩
    · simp only [JSNum.toRat]
      rw [hv]
    · intro hcan _
      rw [JSNum.isCanonical_fin_iff] at hcan
      rcases hcan with ⟨h0, _⟩ | ⟨_, hCa⟩
      · omega
      · obtain ⟨h1, h2⟩ := JSNum.canon_unique m' m t' e hC hCa hm' hm hv
        rw [h1, h2]

/-! ## `JSON.stringify` and `JSON.parse` on a profile -/

theorem char_eq_of_toNat (c d : Char) (h : c.toNat = d.toNat) : c = d := by
  rw [← Char.ofNat_toNat c, ← Char.ofNat_toNat d, h]

theorem JSON.hexValue_hexDigit (d : Nat) (h : d < 16) :
    JSON.hexValue (JSON.hexDigit d) = some d := by
  interval_cases d <;> rfl

theorem JSON.parseStringBody_quoteBody (cs : List Char) (rest acc : List Char) (fuel : Nat)
    (hfuel : (JSON.quoteBody cs).length < fuel) :
    JSON.parseStringBody fuel (JSON.quoteBody cs ++ JSON.quote :: rest) acc
      = .ok (String.mk (acc ++ cs), rest) := by
  induction cs generalizing fuel acc with
  | nil =>
    obtain ⟨f, rfl⟩ : ∃ f, fuel = f + 1 := ⟨fuel - 1, by omega⟩
    simp [JSON.quoteBody, JSON.parseStringBody]
  | cons c cs ih =>
    obtain ⟨f, rfl⟩ : ∃ f, fuel = f + 1 := ⟨fuel - 1, by omega⟩
    have hbq : JSON.backslash ≠ JSON.quote := by decide
    have hstep : ∀ x : Char, x ≠ 'u' → JSON.unescape x = some c →
        JSON.quoteChar c = [JSON.backslash, x] →
        JSON.parseStringBody (f + 1)
          (JSON.quoteBody (c :: cs) ++ JSON.quote :: rest) acc
          = .ok (String.mk (acc ++ c :: cs), rest) := by
      intro x hxu hun hq
      have hlen : (JSON.quoteBody cs).length < f := by
        simp only [JSON.quoteBody, hq, List.length_append, List.length_cons,
          List.length_nil] at hfuel
        omega
      simp only [JSON.quoteBody, hq, List.cons_append, List.nil_append]
      unfold JSON.parseStringBody
      simp only [hbq, if_false, if_true, hxu, hun]
      rw [ih (acc ++ [c]) f hlen]
      simp
    unfold JSON.quoteChar at hstep
    by_cases h8 : c.toNat = 8
    · exact hstep 'b' (by decide)
        (by rw [char_eq_of_toNat c (Char.ofNat 8) (by rw [h8]; rfl)]; rfl) (by simp [h8])
    by_cases h9 : c.toNat = 9
    · exact hstep 't' (by decide)
        (by rw [char_eq_of_toNat c (Char.ofNat 9) (by rw [h9]; rfl)]; rfl) (by simp [h8, h9])
    by_cases h10 : c.toNat = 10
    · exact hstep 'n' (by decide)
        (by rw [char_eq_of_toNat c (Char.ofNat 10) (by rw [h10]; rfl)]; rfl)
        (by simp [h8, h9, h10])
    by_cases h12 : c.toNat = 12
    · exact hstep 'f' (by decide)
        (by rw [char_eq_of_toNat c (Char.ofNat 12) (by rw [h12]; rfl)]; rfl)
        (by simp [h8, h9, h10, h12])
    by_cases h13 : c.toNat = 13
    · exact hstep 'r' (by decide)
        (by rw [char_eq_of_toNat c (Char.ofNat 13) (by rw [h13]; rfl)]; rfl)
        (by simp [h8, h9, h10, h12, h13])
    by_cases h34 : c.toNat = 34
    · exact hstep JSON.quote (by decide)
        (by rw [char_eq_of_toNat c JSON.quote (by rw [h34]; rfl)]; rfl)
        (by simp [h8, h9, h10, h12, h13, h34])
    by_cases h92 : c.toNat = 92
    · exact hstep JSON.backslash (by decide)
        (by rw [char_eq_of_toNat c JSON.backslash (by rw [h92]; rfl)]; rfl)
        (by simp [h8, h9, h10, h12, h13, h34, h92])
    clear hstep
    by_cases h32 : c.toNat < 32
    · -- a control character, written `\\u00XX`
      have hq : JSON.quoteChar c = [JSON.backslash, 'u', '0', '0',
          JSON.hexDigit (c.toNat / 16), JSON.hexDigit (c.toNat % 16)] := by
        simp [JSON.quoteChar, h8, h9, h10, h12, h13, h34, h92, h32]
      have hlen : (JSON.quoteBody cs).length < f := by
        simp only [JSON.quoteBody, hq, List.length_append, List.length_cons,
          List.length_nil] at hfuel
        omega
      have hhex : JSON.hex4 '0' '0' (JSON.hexDigit (c.toNat / 16))
          (JSON.hexDigit (c.toNat % 16)) = some c.toNat := by
        unfold JSON.hex4
        rw [JSON.hexValue_hexDigit _ (by omega), JSON.hexValue_hexDigit _ (by omega)]
        have h0 : JSON.hexValue '0' = some 0 := rfl
        rw [h0]
        simp only [Option.some.injEq]
        omega
      simp only [JSON.quoteBody, hq, List.cons_append, List.nil_append]
      unfold JSON.parseStringBody
      have hs1 : ¬ (55296 ≤ c.toNat ∧ c.toNat < 56320) := by omega
      have hs2 : ¬ (56320 ≤ c.toNat ∧ c.toNat < 57344) := by omega
      simp only [hbq, if_false, if_true, hhex, hs1, hs2]
      rw [Char.ofNat_toNat, ih (acc ++ [c]) f hlen]
      simp
    · -- written as it is
      have hq : JSON.quoteChar c = [c] := by
        simp [JSON.quoteChar, h8, h9, h10, h12, h13, h34, h92, h32]
      have hlen : (JSON.quoteBody cs).length < f := by
        simp only [JSON.quoteBody, hq, List.length_append, List.length_cons,
          List.length_nil] at hfuel
        omega
      have hcq : c ≠ JSON.quote := by
        intro h; apply h34; rw [h]; rfl
      have hcb : c ≠ JSON.backslash := by
        intro h; apply h92; rw [h]; rfl
      simp only [JSON.quoteBody, hq, List.cons_append, List.nil_append]
      unfold JSON.parseStringBody
      simp only [hcq, hcb, h32, if_false]
      rw [ih (acc ++ [c]) f hlen]
      simp

theorem JSON.skipWhitespace_cons (c : Char) (r : List Char) (h : JSON.isWhitespace c = false) :
    JSON.skipWhitespace (c :: r) = c :: r := by
  simp [JSON.skipWhitespace, List.dropWhile, h]

theorem JSON.parseValue_string (fuel : Nat) (s rest : List Char) :
    JSON.parseValue (fuel + 1) (JSON.quote :: (JSON.quoteBody s ++ JSON.quote :: rest))
      = .ok (.str (String.mk s), rest) := by
  unfold JSON.parseValue
  rw [JSON.skipWhitespace_cons _ _ (by decide)]
  have h1 : JSON.quote ≠ JSON.openBrace := by decide
  have h2 : JSON.quote ≠ '[' := by decide
  simp only [h1, h2, if_false, if_true]
  rw [JSON.parseStringBody_quoteBody s rest [] _ (by simp)]
  simp

theorem JSON.parseValue_number (fuel : Nat) (neg : Bool) (m : Nat) (e : Int)
    (hlt : m < 2 ^ 53) (hge : -1074 ≤ e) (hle : e ≤ 971)
    (rest : List Char) (hend : JSON.NumberEnd rest) :
    ∃ b, JSON.parseValue (fuel + 1) (JSNum.numberToString (.fin neg m e) ++ rest)
        = .ok (.num b, rest) ∧
      JSNum.isFinite b = true ∧ JSNum.isCanonical b = true ∧
      JSNum.isFinite (JSNum.normalize (.fin neg m e)) = true ∧
      JSNum.toRat b = JSNum.toRat (.fin neg m e) ∧
      (JSNum.isCanonical (.fin neg m e) = true → ¬ (neg = true ∧ m = 0) →
        b = .fin neg m e) := by
  obtain ⟨b, hb, h1, h2, h3, h4, h5⟩ :=
    JSON.parseNumber_numberToString neg m e hlt hge hle rest hend
  refine ⟨b, ?_, h1, h2, h3, h4, h5⟩
  -- the text starts with a digit or a sign
  have hhead : ∃ c r, JSNum.numberToString (.fin neg m e) ++ rest = c :: r ∧
      (isDecimalDigit c = true ∨ c = '-') := by
    unfold JSNum.numberToString
    cases hn : JSNum.normalize (.fin neg m e) with
    | nan => rw [hn] at h3; cases h3
    | inf s => rw [hn] at h3; cases h3
    | fin s m1 e1 =>
      simp only
      by_cases h0 : m1 = 0
      · rw [if_pos h0]
        exact ⟨'0', rest, rfl, Or.inl rfl⟩
      · rw [if_neg h0]
        obtain ⟨c, r, hcr, hc⟩ := JSNum.formatDecimal_head (JSNum.shortestDigits m1 e1).1
          (JSNum.shortestDigits m1 e1).2
        cases s
        · exact ⟨c, r ++ rest, by simp [hcr], Or.inl hc⟩
        · exact ⟨'-', (c :: r) ++ rest, by simp [hcr], Or.inr rfl⟩
  obtain ⟨c, r, hcr, hc⟩ := hhead
  rw [hcr] at hb ⊢
  have hws : JSON.isWhitespace c = false := by
    rcases hc with hc | hc
    · unfold isDecimalDigit at hc
      simp only [Bool.and_eq_true, decide_eq_true_eq] at hc
      unfold JSON.isWhitespace
      simp
      omega
    · subst hc; rfl
  have hne : ∀ d : Char, isDecimalDigit d = false → d ≠ '-' → c ≠ d := by
    intro d hd hd2 hcd
    subst hcd
    rcases hc with hc | hc
    · rw [hc] at hd; cases hd
    · exact hd2 hc
  unfold JSON.parseValue
  rw [JSON.skipWhitespace_cons _ _ hws]
  have h1 : c ≠ JSON.openBrace := hne _ (by decide) (by decide)
  have h2 : c ≠ '[' := hne _ (by decide) (by decide)
  have h3 : c ≠ JSON.quote := hne _ (by decide) (by decide)
  have h4 : c ≠ 't' := hne _ (by decide) (by decide)
  have h5 : c ≠ 'f' := hne _ (by decide) (by decide)
  have h6 : c ≠ 'n' := hne _ (by decide) (by decide)
  have p1 : "true".data.isPrefixOf (c :: r) = false := by
    simp [List.isPrefixOf, h4.symm]
  have p2 : "false".data.isPrefixOf (c :: r) = false := by
    simp [List.isPrefixOf, h5.symm]
  have p3 : "null".data.isPrefixOf (c :: r) = false := by
    simp [List.isPrefixOf, h6.symm]
  simp only [h1, h2, h3, if_false, p1, p2, p3, Bool.false_eq_true, hb]

theorem JSON.parseValue_object (fuel : Nat) (c : Char) (r : List Char)
    (hws : JSON.isWhitespace c = false) (hc : c ≠ JSON.closeBrace) :
    JSON.parseValue (fuel + 1) (JSON.openBrace :: c :: r)
      = JSON.parseMembers (JSON.parseValue fuel) fuel (c :: r) [] := by
  unfold JSON.parseValue
  rw [JSON.skipWhitespace_cons _ _ (by decide)]
  simp only [if_true]
  rw [JSON.skipWhitespace_cons _ _ hws]
  simp only [hc, if_false]

theorem JSON.parseMembers_step (pv : List Char → Except String (JSVal × List Char))
    (fuel : Nat) (key : String) (valueText more : List Char) (v : JSVal) (d : Char)
    (hd : JSON.isWhitespace d = false)
    (hpv : pv (valueText ++ d :: more) = .ok (v, d :: more)) (acc : List (String × JSVal)) :
    JSON.parseMembers pv (fuel + 1)
        (JSON.quoteJSONString key ++ ':' :: (valueText ++ d :: more)) acc
      = if d = ',' then JSON.parseMembers pv fuel more (JSON.setField acc key v)
        else if d = JSON.closeBrace then .ok (.obj (JSON.setField acc key v), more)
        else .error "SyntaxError" := by
  have hshape : JSON.quoteJSONString key ++ ':' :: (valueText ++ d :: more)
      = JSON.quote :: (JSON.quoteBody key.data ++
          JSON.quote :: ':' :: (valueText ++ d :: more)) := by
    simp [JSON.quoteJSONString]
  rw [hshape]
  conv_lhs => unfold JSON.parseMembers
  rw [JSON.skipWhitespace_cons _ _ (by decide)]
  simp only [if_true]
  rw [JSON.parseStringBody_quoteBody key.data _ [] _ (by simp)]
  simp only [List.nil_append]
  rw [JSON.skipWhitespace_cons _ _ (by decide)]
  simp only [hpv]
  rw [JSON.skipWhitespace_cons _ _ hd]

theorem JSON.parseValue_quoted (fuel : Nat) (s : String) (rest : List Char) :
    JSON.parseValue (fuel + 1) (JSON.quoteJSONString s ++ rest) = .ok (.str s, rest) := by
  have hshape : JSON.quoteJSONString s ++ rest
      = JSON.quote :: (JSON.quoteBody s.data ++ JSON.quote :: rest) := by
    simp [JSON.quoteJSONString]
  rw [hshape, JSON.parseValue_string]

theorem JSON.setField_new (acc : List (String × JSVal)) (key : String) (v : JSVal)
    (hnew : acc.lookup key = none) (hidx : JSON.arrayIndex key = none) :
    JSON.setField acc key v = acc ++ [(key, v)] := by
  unfold JSON.setField
  simp only [hnew, Option.isSome_none, Bool.false_eq_true, if_false]
  clear hnew
  induction acc with
  | nil => rfl
  | cons kv rest ih =>
    obtain ⟨k, w⟩ := kv
    simp only [JSON.insertField, JSON.keyBefore, hidx, Bool.false_eq_true, if_false,
      List.cons_append, ih]

theorem JSON.serialize_profile (u : UserProfile)
    (hfin : ∀ a, u.landArea = some a → JSNum.isFinite (JSNum.normalize a) = true) :
    JSON.serialize u.toJS = some (JSON.profileText u) := by
  obtain ⟨uid, fullName, phoneNumber, userType, landArea⟩ := u
  cases landArea with
  | none =>
    simp [UserProfile.toJS, JSON.serialize, JSON.serializeMembers, JSON.profileText,
      JSON.profileTail]
  | some a =>
    have := hfin a rfl
    simp [UserProfile.toJS, JSON.serialize, JSON.serializeMembers, JSON.profileText,
      JSON.profileTail, this]

theorem JSON.profileText_length (u : UserProfile) : 6 ≤ (JSON.profileText u).length := by
  simp only [JSON.profileText, JSON.quoteJSONString, List.length_cons, List.length_append]
  omega

theorem JSON.parseValue_object_quoted (fuel : Nat) (key : String) (rest : List Char) :
    JSON.parseValue (fuel + 1) (JSON.openBrace :: (JSON.quoteJSONString key ++ rest))
      = JSON.parseMembers (JSON.parseValue fuel) fuel (JSON.quoteJSONString key ++ rest) [] := by
  have hshape : JSON.quoteJSONString key ++ rest
      = JSON.quote :: (JSON.quoteBody key.data ++ JSON.quote :: rest) := by
    simp [JSON.quoteJSONString]
  rw [hshape]
  exact JSON.parseValue_object fuel JSON.quote _ (by decide) (by decide)

theorem JSON.parseMembers_string_comma (fuel vfuel : Nat) (key value : String)
    (more : List Char) (acc : List (String × JSVal)) :
    JSON.parseMembers (JSON.parseValue (vfuel + 1)) (fuel + 1)
        (JSON.quoteJSONString key ++ ':' :: (JSON.quoteJSONString value ++ ',' :: more)) acc
      = JSON.parseMembers (JSON.parseValue (vfuel + 1)) fuel more
          (JSON.setField acc key (.str value)) := by
  rw [JSON.parseMembers_step _ fuel key _ more (.str value) ',' (by decide)
    (JSON.parseValue_quoted vfuel value _) acc]
  simp

theorem JSON.parseMembers_string_close (fuel vfuel : Nat) (key value : String)
    (more : List Char) (acc : List (String × JSVal)) :
    JSON.parseMembers (JSON.parseValue (vfuel + 1)) (fuel + 1)
        (JSON.quoteJSONString key ++ ':' ::
          (JSON.quoteJSONString value ++ JSON.closeBrace :: more)) acc
      = .ok (.obj (JSON.setField acc key (.str value)), more) := by
  rw [JSON.parseMembers_step _ fuel key _ more (.str value) JSON.closeBrace (by decide)
    (JSON.parseValue_quoted vfuel value _) acc]
  have : JSON.closeBrace ≠ ',' := by decide
  simp [this]

theorem JSON.numberEnd_closeBrace (more : List Char) :
    JSON.NumberEnd (JSON.closeBrace :: more) := by
  intro c hc
  simp at hc
  subst hc
  exact ⟨by decide, by decide, by decide, by decide⟩

/-- Reading back the text of a profile gives the profile, with the land area as the
JSON number parser reads the text of `Number::toString`. -/
theorem JSON.parseValue_profile (u : UserProfile)
    (hland : ∀ neg m e, u.landArea = some (.fin neg m e) → m < 2 ^ 53 ∧ -1074 ≤ e ∧ e ≤ 971)
    (hfin : ∀ a, u.landArea = some a → JSNum.isFinite a = true) :
    ∃ land : Option JSNum,
      JSON.parseValue ((JSON.profileText u).length + 1) (JSON.profileText u)
        = .ok (UserProfile.toJS { u with landArea := land }, []) ∧
      (u.landArea = none → land = none) ∧
      (∀ a, u.landArea = some a →
        JSNum.isFinite (JSNum.normalize a) = true ∧
        ∃ b, land = some b ∧ JSNum.isFinite b = true ∧ JSNum.isCanonical b = true ∧
          JSNum.toRat b = JSNum.toRat a ∧
          (JSNum.isCanonical a = true → a ≠ .fin true 0 0 → b = a)) := by
  obtain ⟨G, hG⟩ : ∃ G, (JSON.profileText u).length = G + 6 :=
    ⟨(JSON.profileText u).length - 6, by have := JSON.profileText_length u; omega⟩
  rw [hG]
  obtain ⟨uid, fullName, phoneNumber, userType, landArea⟩ := u
  simp only [JSON.profileText]
  rw [JSON.parseValue_object_quoted, JSON.parseMembers_string_comma (G + 5) (G + 5),
    JSON.parseMembers_string_comma (G + 4) (G + 5),
    JSON.parseMembers_string_comma (G + 3) (G + 5)]
  have hacc : JSON.setField (JSON.setField (JSON.setField [] "id" (.str uid))
      "fullName" (.str fullName)) "phoneNumber" (.str phoneNumber)
      = [("id", .str uid), ("fullName", .str fullName), ("phoneNumber", .str phoneNumber)] := by
    rw [JSON.setField_new [] "id" _ rfl (by decide),
      JSON.setField_new _ "fullName" _ (by simp [List.lookup]) (by decide),
      JSON.setField_new _ "phoneNumber" _ (by simp [List.lookup]) (by decide)]
    rfl
  rw [hacc]
  cases landArea with
  | none =>
    refine ⟨none, ?_, fun _ => rfl, fun a ha => by cases ha⟩
    simp only [JSON.profileTail]
    rw [JSON.parseMembers_string_close (G + 2) (G + 5),
      JSON.setField_new _ "userType" _ (by simp [List.lookup]) (by decide)]
    rfl
  | some a =>
    have hafin := hfin a rfl
    cases a with
    | nan => cases hafin
    | inf s => cases hafin
    | fin neg m e =>
      obtain ⟨hlt, hge, hle⟩ := hland neg m e rfl
      obtain ⟨b, hb, h1, h2, h3, h4, h5⟩ := JSON.parseValue_number (G + 5) neg m e hlt hge hle
        [JSON.closeBrace] (JSON.numberEnd_closeBrace [])
      refine ⟨some b, ?_, (fun h => by cases h), ?_⟩
      · simp only [JSON.profileTail]
        rw [JSON.parseMembers_string_comma (G + 2) (G + 5),
          JSON.setField_new _ "userType" _ (by simp [List.lookup]) (by decide)]
        rw [JSON.parseMembers_step _ (G + 1) "landArea" _ [] (.num b) JSON.closeBrace
          (by decide) hb]
        have : JSON.closeBrace ≠ ',' := by decide
        simp only [this, if_false, if_true]
        rw [JSON.setField_new _ "landArea" _ (by simp [List.lookup]) (by decide)]
        rfl
      · intro a' ha'
        injection ha' with ha'
        subst ha'
        refine ⟨h3, b, rfl, h1, h2, h4, ?_⟩
        intro hcan hnz
        apply h5 hcan
        rintro ⟨hn, hm0⟩
        subst hn; subst hm0
        rw [JSNum.isCanonical_fin_iff] at hcan
        rcases hcan with ⟨_, he0⟩ | ⟨hpos, _⟩
        · subst he0; exact hnz rfl
        · omega

/-! ## Order calculation preview: the previewed quantity -/

theorem JSNum.interval_lt_threshold (y : ℚ) (m : Nat) (t : Int) (hC : JSNum.Canon m t)
    (hup : y ≤ (m : ℚ) * 2 ^ t + 2 ^ (t - 1))
    (huptie : y = (m : ℚ) * 2 ^ t + 2 ^ (t - 1) → m % 2 = 0) :
    y < (2 : ℚ) ^ (1024 : ℤ) - 2 ^ (970 : ℤ) := by
  have hmlt := JSNum.canon_lt m t hC
  have htle := JSNum.canon_le m t hC
  have h2t := two_zpow_pred t
  have hpos : (0 : ℚ) < 2 ^ (t - 1) := by positivity
  have hthr : (2 : ℚ) ^ (1024 : ℤ) - 2 ^ (970 : ℤ) = (2 ^ 54 - 1) * 2 ^ (970 : ℤ) := by
    norm_num
  have hval : (m : ℚ) * 2 ^ t + 2 ^ (t - 1) = (2 * m + 1) * 2 ^ (t - 1) := by
    rw [h2t]; ring
  have hmq : (2 : ℚ) * m + 1 ≤ 2 ^ 54 - 1 := by
    have : 2 * m + 1 ≤ 2 ^ 54 - 1 := by omega
    have h2 : ((2 * m + 1 : Nat) : ℚ) ≤ ((2 ^ 54 - 1 : Nat) : ℚ) := by exact_mod_cast this
    push_cast at h2
    norm_num at h2 ⊢
    linarith
  have hmpos : (0 : ℚ) < 2 * m + 1 := by positivity
  rw [hthr]
  by_cases ht : t ≤ 970
  · have hpw : (2 : ℚ) ^ (t - 1) ≤ 2 ^ (969 : ℤ) := two_zpow_mono (by omega)
    have h970 : (2 : ℚ) ^ (970 : ℤ) = 2 * 2 ^ (969 : ℤ) := by
      have := two_zpow_pred 970
      norm_num at this ⊢
    have h969 : (0 : ℚ) < 2 ^ (969 : ℤ) := by positivity
    have h1 : (2 * (m : ℚ) + 1) * 2 ^ (t - 1) ≤ (2 ^ 54 - 1) * 2 ^ (969 : ℤ) :=
      mul_le_mul hmq hpw hpos.le (by norm_num)
    rw [hval] at hup
    rw [h970]
    nlinarith
  · have ht971 : t = 971 := by omega
    subst ht971
    have he : (971 : ℤ) - 1 = 970 := by norm_num
    rw [he] at hup huptie hval hpos
    by_cases hm : m = 2 ^ 53 - 1
    · rcases lt_or_eq_of_le hup with h | h
      · rw [hval] at h
        have : (2 * (m : ℚ) + 1) = 2 ^ 54 - 1 := by
          rw [hm]; norm_num
        rw [this] at h
        exact h
      · exfalso
        have := huptie h
        rw [hm] at this
        norm_num at this
    · have hm2 : 2 * m + 1 ≤ 2 ^ 54 - 3 := by omega
      have hmq2 : (2 : ℚ) * m + 1 ≤ 2 ^ 54 - 3 := by
        have h2 : ((2 * m + 1 : Nat) : ℚ) ≤ ((2 ^ 54 - 3 : Nat) : ℚ) := by exact_mod_cast hm2
        push_cast at h2
        norm_num at h2 ⊢
        linarith
      rw [hval] at hup
      nlinarith

/-- Rounding overflows exactly from `2^1024 - 2^970` on; below it the result is zero
(for an argument up to `2^-1075`) or the value in normal form whose rounding interval
holds the argument. -/
theorem JSNum.round_cases (neg : Bool) (M : Nat) (E : Int) (hM : 0 < M) :
    ((2 : ℚ) ^ (1024 : ℤ) - 2 ^ (970 : ℤ) ≤ (M : ℚ) * 2 ^ E →
      JSNum.round neg M E = .inf neg) ∧
    ((M : ℚ) * 2 ^ E < (2 : ℚ) ^ (1024 : ℤ) - 2 ^ (970 : ℤ) →
      (JSNum.round neg M E = .fin neg 0 0 ∧ (M : ℚ) * 2 ^ E ≤ 2 ^ (-1075 : ℤ)) ∨
      (∃ m t, JSNum.round neg M E = .fin neg m t ∧ 0 < m ∧ JSNum.Canon m t ∧
        (M : ℚ) * 2 ^ E ≤ (m : ℚ) * 2 ^ t + 2 ^ (t - 1) ∧
        ((M : ℚ) * 2 ^ E = (m : ℚ) * 2 ^ t + 2 ^ (t - 1) → m % 2 = 0) ∧
        (m : ℚ) * 2 ^ t - JSNum.halfGapBelow m t ≤ (M : ℚ) * 2 ^ E ∧
        ((M : ℚ) * 2 ^ E = (m : ℚ) * 2 ^ t - JSNum.halfGapBelow m t → m % 2 = 0))) := by
  have hsmall : (2 : ℚ) ^ (-1075 : ℤ) < (2 : ℚ) ^ (1024 : ℤ) - 2 ^ (970 : ℤ) := by
    have h1 : (2 : ℚ) ^ (-1075 : ℤ) ≤ 2 ^ (0 : ℤ) := two_zpow_mono (by norm_num)
    have h2 : (2 : ℚ) ^ (1024 : ℤ) - 2 ^ (970 : ℤ) = (2 ^ 54 - 1) * 2 ^ (970 : ℤ) := by
      norm_num
    have h3 : (2 : ℚ) ^ (0 : ℤ) ≤ 2 ^ (970 : ℤ) := two_zpow_mono (by norm_num)
    rw [h2]
    have h970 : (0 : ℚ) < 2 ^ (970 : ℤ) := by positivity
    nlinarith
  rcases JSNum.round_spec neg M E hM with ⟨hr, hov⟩ | ⟨hr, hun⟩ |
      ⟨m, t, hr, hm, hC, hup, huptie, hlow, hlowtie⟩
  · exact ⟨fun _ => hr, fun h => absurd hov (not_le.2 h)⟩
  · refine ⟨fun h => ?_, fun _ => Or.inl ⟨hr, hun⟩⟩
    exfalso
    linarith
  · have hlt := JSNum.interval_lt_threshold _ m t hC hup huptie
    refine ⟨fun h => ?_, fun _ => Or.inr ⟨m, t, hr, hm, hC, hup, huptie, hlow, hlowtie⟩⟩
    exfalso
    linarith

/-- Zero is at least as near to a value up to `2^-1075` as any other binary64 value. -/
theorem JSNum.nearest_zero (y : ℚ) (hy0 : 0 ≤ y) (hy : y ≤ 2 ^ (-1075 : ℤ))
    (m' : Nat) (e' : Int) (he' : -1074 ≤ e') :
    |(0 : ℚ) - y| ≤ |(m' : ℚ) * 2 ^ e' - y| := by
  rw [zero_sub, abs_neg, abs_of_nonneg hy0]
  rcases Nat.eq_zero_or_pos m' with h0 | hpos
  · subst h0
    simp [abs_of_nonneg hy0]
  · have h1 : (2 : ℚ) ^ (-1074 : ℤ) ≤ (m' : ℚ) * 2 ^ e' := by
      have hpw : (2 : ℚ) ^ (-1074 : ℤ) ≤ 2 ^ e' := two_zpow_mono he'
      have hm : (1 : ℚ) ≤ (m' : ℚ) := by exact_mod_cast hpos
      have hp : (0 : ℚ) < 2 ^ e' := by positivity
      nlinarith
    have h2 : (2 : ℚ) ^ (-1074 : ℤ) = 2 * 2 ^ (-1075 : ℤ) := by
      have := two_zpow_pred (-1074)
      norm_num at this ⊢
    have h3 : y ≤ (m' : ℚ) * 2 ^ e' - y := by linarith
    exact h3.trans (le_abs_self _)

/-- C10, amended: for every finite land area `L > 0` and rate `R > 0` the box
previewed for the selected fertilizer carries the binary64 product of `L` and `R`.
With `x` the exact product: from `2^1024 - 2^970` on the quantity is `+Infinity` and
the total line reads `Total Required: Infinity` and the unit. Below that bound the
quantity is finite, not negative and in normal form; it is the binary64 value nearest
to `x` (no value `m' * 2^e'` with `m' < 2^53` and `e' ≥ -1074`, as every binary64
value is, is nearer), with an even significand when another value is equally near;
it is zero only for `x ≤ 2^-1075`, and otherwise within half a unit of its last
place of `x`. Whenever the quantity is below `10^21` the total line reads
`Total Required: `, the quantity rounded to the nearest hundredth (ties upward)
written with exactly two decimals, a space, and the unit of the fertilizer; from
`10^21` on the quantity is written as `Number::toString` writes it. For `L = 2.5`,
`R = 40` and unit `kg` the total line reads `Total Required: 100.00 kg`. -/
theorem calculationPreview_quantity (user : UserProfile) (fertilizers : List Fertilizer)
    (fert : Fertilizer) (mL mR : Nat) (eL eR : Int)
    (hL : user.landArea = some (.fin false mL eL))
    (hR : fert.ratePerHectare = .fin false mR eR)
    (hLpos : 0 < mL) (hRpos : 0 < mR)
    (hmem : fert ∈ fertilizers) (hsel : fert.id ≠ "") :
    (∃ quantity total,
      some { key := fert.id, quantity := quantity, total := total }
        ∈ calculationPreview (some user) fertilizers fert.id ∧
      ((2 : ℚ) ^ (1024 : ℤ) - 2 ^ (970 : ℤ)
          ≤ ((mL : ℚ) * (2 : ℚ) ^ eL) * ((mR : ℚ) * (2 : ℚ) ^ eR) →
        quantity = .inf false ∧
        total = some ("Total Required: Infinity " ++ fert.unit)) ∧
      (((mL : ℚ) * (2 : ℚ) ^ eL) * ((mR : ℚ) * (2 : ℚ) ^ eR)
          < (2 : ℚ) ^ (1024 : ℤ) - 2 ^ (970 : ℤ) →
        ∃ m e, quantity = .fin false m e ∧
          JSNum.isCanonical (.fin false m e) = true ∧
          (m = 0 → ((mL : ℚ) * (2 : ℚ) ^ eL) * ((mR : ℚ) * (2 : ℚ) ^ eR)
            ≤ 2 ^ (-1075 : ℤ)) ∧
          (0 < m →
            |(m : ℚ) * (2 : ℚ) ^ e - ((mL : ℚ) * (2 : ℚ) ^ eL) * ((mR : ℚ) * (2 : ℚ) ^ eR)|
              ≤ (2 : ℚ) ^ (e - 1)) ∧
          (∀ (m' : Nat) (e' : Int), m' < 2 ^ 53 → -1074 ≤ e' →
            |(m : ℚ) * (2 : ℚ) ^ e - ((mL : ℚ) * (2 : ℚ) ^ eL) * ((mR : ℚ) * (2 : ℚ) ^ eR)|
              ≤ |(m' : ℚ) * (2 : ℚ) ^ e'
                  - ((mL : ℚ) * (2 : ℚ) ^ eL) * ((mR : ℚ) * (2 : ℚ) ^ eR)|) ∧
          (∀ (m' : Nat) (e' : Int), m' < 2 ^ 53 → -1074 ≤ e' →
            (m' : ℚ) * (2 : ℚ) ^ e' ≠ (m : ℚ) * (2 : ℚ) ^ e →
            |(m : ℚ) * (2 : ℚ) ^ e - ((mL : ℚ) * (2 : ℚ) ^ eL) * ((mR : ℚ) * (2 : ℚ) ^ eR)|
              = |(m' : ℚ) * (2 : ℚ) ^ e'
                  - ((mL : ℚ) * (2 : ℚ) ^ eL) * ((mR : ℚ) * (2 : ℚ) ^ eR)| →
            m % 2 = 0) ∧
          ((m : ℚ) * (2 : ℚ) ^ e < 10 ^ 21 →
            ∃ n : Nat,
              (n : ℚ) ≤ 100 * ((m : ℚ) * (2 : ℚ) ^ e) + 1 / 2 ∧
              100 * ((m : ℚ) * (2 : ℚ) ^ e) + 1 / 2 < (n : ℚ) + 1 ∧
              total = some ("Total Required: " ++
                String.mk (decimalRepr (n / 100) ++
                  ['.', digitChar (n / 10 % 10), digitChar (n % 10)]) ++
                " " ++ fert.unit)) ∧
          ((10 : ℚ) ^ 21 ≤ (m : ℚ) * (2 : ℚ) ^ e →
            total = some ("Total Required: " ++
              String.mk (JSNum.numberToString (.fin false m e)) ++ " " ++ fert.unit)))) ∧
    calculationPreview (some exampleProfile)
        [{ id := "f1", name := "Urea", ratePerHectare := .fin false 40 0, unit := "kg" }]
        "f1"
      = [some { key := "f1", quantity := .fin false 7036874417766400 (-46),
                total := some "Total Required: 100.00 kg" }] := by
  have hMpos : 0 < mL * mR := Nat.mul_pos hLpos hRpos
  have hexact : ((mL * mR : Nat) : ℚ) * (2 : ℚ) ^ (eL + eR)
      = ((mL : ℚ) * (2 : ℚ) ^ eL) * ((mR : ℚ) * (2 : ℚ) ^ eR) := by
    rw [zpow_add₀ (by norm_num : (2 : ℚ) ≠ 0)]
    push_cast
    ring
  have hx0 : (0 : ℚ) ≤ ((mL : ℚ) * (2 : ℚ) ^ eL) * ((mR : ℚ) * (2 : ℚ) ^ eR) := by positivity
  have hmul : JSNum.mul (.fin false mL eL) (.fin false mR eR)
      = JSNum.round false (mL * mR) (eL + eR) := by
    simp [JSNum.mul]
  obtain ⟨hov, hfin⟩ := JSNum.round_cases false (mL * mR) (eL + eR) hMpos
  rw [hexact] at hov hfin
  refine ⟨⟨JSNum.mul (.fin false mL eL) (.fin false mR eR),
    (toFixed (JSNum.mul (.fin false mL eL) (.fin false mR eR)) 2).map
      (fun t => "Total Required: " ++ t ++ " " ++ fert.unit), ?_, ?_, ?_⟩, by decide⟩
  · have htr : truthyStr fert.id = true := (truthyStr_eq_true_iff _).2 hsel
    simp only [calculationPreview, htr, if_true]
    refine List.mem_map.2 ⟨fert, hmem, ?_⟩
    simp [landAreaNumber, hL, hR]
  · intro hx
    rw [hmul, hov hx]
    refine ⟨rfl, ?_⟩
    simp [toFixed, String.append_assoc]
    rfl
  · intro hx
    rw [hmul]
    rcases hfin hx with ⟨hr, hun⟩ | ⟨m, t, hr, hm, hC, hup, huptie, hlow, hlowtie⟩
    · refine ⟨0, 0, hr, by decide, fun _ => hun, fun h => absurd h (lt_irrefl 0), ?_, ?_, ?_,
        ?_⟩
      · intro m' e' _ he'
        have := JSNum.nearest_zero _ hx0 hun m' e' he'
        simpa using this
      · intro _ _ _ _ _ _
        rfl
      · intro hlt
        obtain ⟨n, h1, h2, h3⟩ := toFixed_two_of_lt 0 0 hlt
        refine ⟨n, h1, h2, ?_⟩
        rw [hr, h3]
        simp [String.append_assoc]
      · intro hge
        rw [hr]
        simp [toFixed, atLeast1e21_eq_true 0 0 hge, String.append_assoc]
    · refine ⟨m, t, hr, (JSNum.isCanonical_fin_iff false m t).2 (Or.inr ⟨hm, hC⟩),
        fun h => by omega, fun _ => ?_, ?_, ?_, ?_, ?_⟩
      · have hg := JSNum.halfGapBelow_le m t
        exact abs_le.2 ⟨by linarith, by linarith⟩
      · intro m' e' hm' he'
        exact JSNum.nearest_of_interval _ m t hC hup hlow m' e' hm' he'
      · intro m' e' hm' he' hne htie
        exact JSNum.even_of_tie _ m t hC hup huptie hlow hlowtie m' e' hm' he' hne htie
      · intro hlt
        obtain ⟨n, h1, h2, h3⟩ := toFixed_two_of_lt m t hlt
        refine ⟨n, h1, h2, ?_⟩
        rw [hr, h3]
        simp [String.append_assoc]
      · intro hge
        rw [hr]
        simp [toFixed, atLeast1e21_eq_true m t hge, String.append_assoc]

/-- For 2.5 hectares and 40 kg per hectare the preview reads `100.00 kg`. -/
theorem calculationPreview_quantity_witness :
    (∃ quantity total,
      some { key := "f1", quantity := quantity, total := total }
        ∈ calculationPreview (some exampleProfile)
            [{ id := "f1", name := "Urea", ratePerHectare := .fin false 40 0, unit := "kg" }]
            "f1") ∧
    calculationPreview (some exampleProfile)
        [{ id := "f1", name := "Urea", ratePerHectare := .fin false 40 0, unit := "kg" }]
        "f1"
      = [some { key := "f1", quantity := .fin false 7036874417766400 (-46),
                total := some "Total Required: 100.00 kg" }] :=
  have h := calculationPreview_quantity exampleProfile
    [{ id := "f1", name := "Urea", ratePerHectare := .fin false 40 0, unit := "kg" }]
    { id := "f1", name := "Urea", ratePerHectare := .fin false 40 0, unit := "kg" }
    5 40 (-1) 0 rfl rfl (by decide) (by decide) (by simp) (by decide)
  match h with
  | ⟨⟨quantity, total, hbox, _⟩, hexample⟩ => ⟨⟨quantity, total, hbox⟩, hexample⟩

/-! ## The stored profile, read back -/

/-- Rounding a Number that is already rounded changes nothing. -/
theorem JSNum.normalize_normalize (a : JSNum) :
    JSNum.normalize (JSNum.normalize a) = JSNum.normalize a := by
  cases a with
  | nan => rfl
  | inf s => rfl
  | fin neg M E =>
    show JSNum.normalize (JSNum.round neg M E) = JSNum.round neg M E
    rcases Nat.eq_zero_or_pos M with h0 | hM
    · subst h0
      have : JSNum.round neg 0 E = .fin neg 0 0 := by simp [JSNum.round]
      rw [this]
      simp [JSNum.normalize, JSNum.round]
    · rcases JSNum.round_spec neg M E hM with ⟨hr, _⟩ | ⟨hr, _⟩ | ⟨m, t, hr, hm, hC, _⟩
      · rw [hr]; rfl
      · rw [hr]
        simp [JSNum.normalize, JSNum.round]
      · rw [hr]
        exact JSNum.round_of_canon neg m t hm hC

/-- A rounded finite Number is a binary64 value. -/
theorem JSNum.normalize_isDouble (a : JSNum)
    (h : JSNum.isFinite (JSNum.normalize a) = true) :
    JSNum.isDouble (JSNum.normalize a) = true := by
  cases a with
  | nan => rfl
  | inf s => rfl
  | fin neg M E =>
    show JSNum.isDouble (JSNum.round neg M E) = true
    rcases Nat.eq_zero_or_pos M with h0 | hM
    · subst h0
      have : JSNum.round neg 0 E = .fin neg 0 0 := by simp [JSNum.round]
      rw [this]
      simp [JSNum.isDouble]
    · rcases JSNum.round_spec neg M E hM with ⟨hr, _⟩ | ⟨hr, _⟩ | ⟨m, t, hr, hm, hC, _⟩
      · rw [hr]; rfl
      · rw [hr]
        simp [JSNum.isDouble]
      · rw [hr]
        have h1 := JSNum.canon_lt m t hC
        have h2 := JSNum.canon_ge m t hC
        have h3 := JSNum.canon_le m t hC
        simp only [JSNum.isDouble, h1, h2, h3, decide_True, Bool.and_self]

theorem JSNum.numberToString_normalize (a : JSNum) :
    JSNum.numberToString (JSNum.normalize a) = JSNum.numberToString a := by
  unfold JSNum.numberToString
  rw [JSNum.normalize_normalize]

/-- The text written by `JSON.stringify` for a profile depends on the land area through its
binary64 value only. -/
theorem JSON.stringify_profile_normalize (u : UserProfile) (a : JSNum)
    (ha : u.landArea = some a) :
    JSON.stringify u.toJS
      = JSON.stringify (UserProfile.toJS { u with landArea := some (JSNum.normalize a) }) := by
  obtain ⟨uid, fullName, phoneNumber, userType, landArea⟩ := u
  simp only at ha
  subst ha
  simp [JSON.stringify, UserProfile.toJS, JSON.serialize, JSON.serializeMembers,
    JSNum.normalize_normalize, JSNum.numberToString_normalize]

theorem JSON.parseValue_null (fuel : Nat) (d : Char) (more : List Char) :
    JSON.parseValue (fuel + 1) ("null".data ++ d :: more) = .ok (.null, d :: more) := by
  show JSON.parseValue (fuel + 1) ('n' :: 'u' :: 'l' :: 'l' :: d :: more) = _
  conv_lhs => unfold JSON.parseValue
  rw [JSON.skipWhitespace_cons _ _ (by decide)]
  have h1 : ('n' : Char) ≠ JSON.openBrace := by decide
  have h2 : ('n' : Char) ≠ '[' := by decide
  have h3 : ('n' : Char) ≠ JSON.quote := by decide
  simp [h1, h2, h3, List.isPrefixOf]

/-- A profile whose land area is not finite is written with `null` for the land
area, and read back so. -/
theorem JSON.parseValue_profile_null (u : UserProfile) (a : JSNum)
    (ha : u.landArea = some a) (hnf : JSNum.isFinite (JSNum.normalize a) = false) :
    ∃ text, JSON.serialize u.toJS = some text ∧ text ≠ [] ∧
      JSON.parseValue (text.length + 1) text
        = .ok (.obj [("id", .str u.id), ("fullName", .str u.fullName),
            ("phoneNumber", .str u.phoneNumber), ("userType", .str u.userType),
            ("landArea", .null)], []) := by
  obtain ⟨uid, fullName, phoneNumber, userType, landArea⟩ := u
  simp only at ha
  subst ha
  refine ⟨JSON.openBrace :: (JSON.quoteJSONString "id" ++ ':' :: (JSON.quoteJSONString uid ++
    ',' :: (JSON.quoteJSONString "fullName" ++ ':' :: (JSON.quoteJSONString fullName ++
    ',' :: (JSON.quoteJSONString "phoneNumber" ++ ':' :: (JSON.quoteJSONString phoneNumber ++
    ',' :: (JSON.quoteJSONString "userType" ++ ':' :: (JSON.quoteJSONString userType ++
    ',' :: (JSON.quoteJSONString "landArea" ++ ':' ::
      ("null".data ++ [JSON.closeBrace])))))))))), ?_, by simp, ?_⟩
  · simp [UserProfile.toJS, JSON.serialize, JSON.serializeMembers, hnf]
  · generalize hlen : (JSON.openBrace :: (JSON.quoteJSONString "id" ++ ':' ::
      (JSON.quoteJSONString uid ++
      ',' :: (JSON.quoteJSONString "fullName" ++ ':' :: (JSON.quoteJSONString fullName ++
      ',' :: (JSON.quoteJSONString "phoneNumber" ++ ':' :: (JSON.quoteJSONString phoneNumber ++
      ',' :: (JSON.quoteJSONString "userType" ++ ':' :: (JSON.quoteJSONString userType ++
      ',' :: (JSON.quoteJSONString "landArea" ++ ':' ::
        ("null".data ++ [JSON.closeBrace]))))))))))).length = len
    obtain ⟨G, hG⟩ : ∃ G, len = G + 6 := by
      refine ⟨len - 6, ?_⟩
      simp only [JSON.quoteJSONString, List.length_cons, List.length_append] at hlen
      omega
    rw [hG]
    rw [JSON.parseValue_object_quoted, JSON.parseMembers_string_comma (G + 5) (G + 5),
      JSON.parseMembers_string_comma (G + 4) (G + 5),
      JSON.parseMembers_string_comma (G + 3) (G + 5),
      JSON.parseMembers_string_comma (G + 2) (G + 5)]
    rw [JSON.setField_new [] "id" _ rfl (by decide),
      JSON.setField_new _ "fullName" _ (by simp [List.lookup]) (by decide),
      JSON.setField_new _ "phoneNumber" _ (by simp [List.lookup]) (by decide),
      JSON.setField_new _ "userType" _ (by simp [List.lookup]) (by decide)]
    rw [JSON.parseMembers_step _ (G + 1) "landArea" _ [] .null JSON.closeBrace
      (by decide) (JSON.parseValue_null (G + 5) JSON.closeBrace [])]
    have : JSON.closeBrace ≠ ',' := by decide
    simp only [this, if_false, if_true]
    rw [JSON.setField_new _ "landArea" _ (by simp [List.lookup]) (by decide)]
    rfl

/-- What `getUser` reads after `setAuthToken` stored a profile with a finite land
area: the text written by `JSON.stringify`, parsed by `JSON.parse`. -/
theorem getUser_setAuthToken_profile (token : String) (user : UserProfile) (ls : Storage)
    (hland : ∀ a, user.landArea = some a →
      JSNum.isFinite a = true ∧ JSNum.isDouble a = true) :
    ∃ land : Option JSNum,
      getUser builtinJSON (setAuthToken builtinJSON token user.toJS ls)
        = .ok (UserProfile.toJS { user with landArea := land }) ∧
      (user.landArea = none → land = none) ∧
      (∀ a, user.landArea = some a →
        ∃ b, land = some b ∧ JSNum.isFinite b = true ∧ JSNum.isCanonical b = true ∧
          JSNum.toRat b = JSNum.toRat a ∧
          (JSNum.isCanonical a = true → a ≠ .fin true 0 0 → b = a)) := by
  have hbounds : ∀ neg m e, user.landArea = some (.fin neg m e) →
      m < 2 ^ 53 ∧ -1074 ≤ e ∧ e ≤ 971 := by
    intro neg m e h
    have := (hland _ h).2
    simpa [JSNum.isDouble, and_assoc] using this
  obtain ⟨land, hparse, hnone, hsome⟩ :=
    JSON.parseValue_profile user hbounds (fun a h => (hland a h).1)
  have hser : JSON.serialize user.toJS = some (JSON.profileText user) :=
    JSON.serialize_profile user (fun a h => (hsome a h).1)
  have hne : String.mk (JSON.profileText user) ≠ "" := by
    intro h
    have hlen := JSON.profileText_length user
    have h2 : (String.mk (JSON.profileText user)).data = "".data := by rw [h]
    simp at h2
    rw [h2] at hlen
    simp at hlen
  refine ⟨land, ?_, hnone, fun a h => (hsome a h).2⟩
  simp only [getUser, getItem_user_setAuthToken, builtinJSON, JSON.stringify, hser,
    Option.map_some', storedText, (truthyStr_eq_true_iff _).2 hne, if_true, JSON.parse,
    hparse]
  rfl

/-- Whatever its land area, a profile stored by `setAuthToken` is read back by
`getUser` as an object that starts with its four strings. -/
theorem getUser_setAuthToken_strings (token : String) (user : UserProfile) (ls : Storage) :
    ∃ extra : List (String × JSVal),
      getUser builtinJSON (setAuthToken builtinJSON token user.toJS ls)
        = .ok (.obj ([("id", .str user.id), ("fullName", .str user.fullName),
            ("phoneNumber", .str user.phoneNumber), ("userType", .str user.userType)]
            ++ extra)) ∧
      (∀ a, user.landArea = some a → JSNum.isFinite (JSNum.normalize a) = false →
        extra = [("landArea", .null)]) := by
  cases hl : user.landArea with
  | none =>
    obtain ⟨land, hget, _, _⟩ := getUser_setAuthToken_profile token user ls
      (fun a h => by rw [hl] at h; cases h)
    exact ⟨_, hget, fun a h => by cases h⟩
  | some a =>
    by_cases hfin : JSNum.isFinite (JSNum.normalize a) = true
    · have hst := JSON.stringify_profile_normalize user a hl
      have hset : setAuthToken builtinJSON token user.toJS ls
          = setAuthToken builtinJSON token
              (UserProfile.toJS { user with landArea := some (JSNum.normalize a) }) ls := by
        simp only [setAuthToken, builtinJSON, hst]
      obtain ⟨land, hget, _, _⟩ := getUser_setAuthToken_profile token
        { user with landArea := some (JSNum.normalize a) } ls
        (fun b h => by
          simp only [Option.some.injEq] at h
          subst h
          exact ⟨hfin, JSNum.normalize_isDouble a hfin⟩)
      rw [hset]
      refine ⟨_, hget, fun a' h hnf => ?_⟩
      injection h with h
      subst h
      rw [hfin] at hnf
      cases hnf
    · have hnf : JSNum.isFinite (JSNum.normalize a) = false := by
        simpa using hfin
      obtain ⟨text, hser, hne, hparse⟩ := JSON.parseValue_profile_null user a hl hnf
      have hne2 : String.mk text ≠ "" := by
        intro h
        have h2 : (String.mk text).data = "".data := by rw [h]
        exact hne (by simpa using h2)
      refine ⟨[("landArea", .null)], ?_, fun _ _ _ => rfl⟩
      simp only [getUser, getItem_user_setAuthToken, builtinJSON, JSON.stringify, hser,
        Option.map_some', storedText, (truthyStr_eq_true_iff _).2 hne2, if_true, JSON.parse,
        hparse]
      rfl

theorem JSNum.isDouble_of_isCanonical (a : JSNum) (h : JSNum.isCanonical a = true) :
    JSNum.isDouble a = true := by
  cases a with
  | nan => rfl
  | inf s => rfl
  | fin neg m e =>
    rcases (JSNum.isCanonical_fin_iff neg m e).1 h with ⟨hm, he⟩ | ⟨_, hC⟩
    · subst hm; subst he
      simp [JSNum.isDouble]
    · have h1 := JSNum.canon_lt m e hC
      have h2 := JSNum.canon_ge m e hC
      have h3 := JSNum.canon_le m e hC
      simp only [JSNum.isDouble, h1, h2, h3, decide_True, Bool.and_self]

/-! ## Round trip through the session store -/

/-- C7, as stated, fails: for the profile of a farmer whose land area is `Infinity`,
a Number greater than 0, `setAuthToken` stores the text that `JSON.stringify` writes,
with `null` for the land area, and `getUser()` then returns a profile whose
`landArea` is `null`, not the land area of the profile that was stored. -/
theorem session_round_trip_infinite_land_counterexample :
    JSNum.isPos (.inf false) = true ∧
    (UserProfile.toJS { exampleProfile with landArea := some (.inf false) }).getProp "landArea"
      = .num (.inf false) ∧
    (setAuthToken builtinJSON "tok"
        (UserProfile.toJS { exampleProfile with landArea := some (.inf false) })
        []).getItem "user"
      = some ("\x7b\"id\":\"u1\",\"fullName\":\"Jane Farmer\"," ++
          "\"phoneNumber\":\"0788000000\",\"userType\":\"farmer\",\"landArea\":null\x7d") ∧
    getUser builtinJSON
        (setAuthToken builtinJSON "tok"
          (UserProfile.toJS { exampleProfile with landArea := some (.inf false) }) [])
      = .ok (.obj [("id", .str "u1"), ("fullName", .str "Jane Farmer"),
          ("phoneNumber", .str "0788000000"), ("userType", .str "farmer"),
          ("landArea", .null)]) ∧
    JSVal.null ≠ JSVal.num (.inf false) :=
  ⟨rfl, rfl, by decide, rfl, fun h => JSVal.noConfusion h⟩

/-- C7, amended: for every token string and every user profile, after
`setAuthToken(token, user)` with the built-in `JSON` the getter `getAuthToken()`
returns `token`, `getUserType()` returns `user.userType`, and `getUser()` returns an
object whose `id`, `fullName`, `phoneNumber` and `userType` are the strings of
`user`. Its `landArea` is absent when `user` has none; for a land area that is a
finite Number it is a finite Number of the same value (the very same Number, when
`user.landArea` is in normal form and not `-0`, and then the object read back is the
object stored); for a land area that is `NaN` or infinite it is `null`. -/
theorem session_round_trip (token : String) (user : UserProfile) (ls : Storage) :
    getAuthToken (setAuthToken builtinJSON token user.toJS ls) = some token ∧
    (∃ v, getUser builtinJSON (setAuthToken builtinJSON token user.toJS ls) = .ok v ∧
      v.getProp "id" = .str user.id ∧
      v.getProp "fullName" = .str user.fullName ∧
      v.getProp "phoneNumber" = .str user.phoneNumber ∧
      v.getProp "userType" = .str user.userType ∧
      (user.landArea = none → v.getProp "landArea" = .undefined) ∧
      (∀ a, user.landArea = some a → JSNum.isFinite a = true → JSNum.isDouble a = true →
        ∃ b, v.getProp "landArea" = .num b ∧ JSNum.isFinite b = true ∧
          JSNum.toRat b = JSNum.toRat a ∧
          (JSNum.isCanonical a = true → a ≠ .fin true 0 0 → b = a)) ∧
      (∀ a, user.landArea = some a → JSNum.isFinite a = false →
        v.getProp "landArea" = .null) ∧
      ((∀ a, user.landArea = some a →
          JSNum.isFinite a = true ∧ JSNum.isCanonical a = true ∧ a ≠ .fin true 0 0) →
        v = user.toJS)) ∧
    getUserType builtinJSON (setAuthToken builtinJSON token user.toJS ls)
      = .ok (.str user.userType) := by
  obtain ⟨extra, hstr, hnull⟩ := getUser_setAuthToken_strings token user ls
  have hfields : ∀ land : Option JSNum,
      (UserProfile.toJS { user with landArea := land }).getProp "landArea"
        = (match land with
           | some b => JSVal.num b
           | none => JSVal.undefined) := by
    intro land
    cases land <;> simp [UserProfile.toJS, JSVal.getProp, List.lookup_cons]
  refine ⟨getItem_token_setAuthToken builtinJSON token user.toJS ls,
    ⟨_, hstr, ?_, ?_, ?_, ?_, ?_, ?_, ?_, ?_⟩, ?_⟩
  · simp [JSVal.getProp, List.lookup_cons]
  · simp [JSVal.getProp, List.lookup_cons]
  · simp [JSVal.getProp, List.lookup_cons]
  · simp [JSVal.getProp, List.lookup_cons]
  · intro hnone
    obtain ⟨land, hget, hl, _⟩ := getUser_setAuthToken_profile token user ls
      (fun a h => by rw [hnone] at h; cases h)
    rw [hstr] at hget
    injection hget with hv
    rw [hv, hfields, hl hnone]
  · intro a ha hfin hdbl
    obtain ⟨land, hget, _, hsome⟩ := getUser_setAuthToken_profile token user ls
      (fun a' h => by
        rw [ha] at h
        injection h with h
        subst h
        exact ⟨hfin, hdbl⟩)
    obtain ⟨b, hb, hbfin, _, hval, hsame⟩ := hsome a ha
    rw [hstr] at hget
    injection hget with hv
    refine ⟨b, ?_, hbfin, hval, hsame⟩
    rw [hv, hfields, hb]
  · intro a ha hnf
    have hnorm : JSNum.normalize a = a := by
      cases a with
      | nan => rfl
      | inf s => rfl
      | fin neg m e => cases hnf
    rw [hnull a ha (by rw [hnorm]; exact hnf)]
    simp [JSVal.getProp, List.lookup_cons]
  · intro hall
    obtain ⟨land, hget, hnone, hsome⟩ := getUser_setAuthToken_profile token user ls
      (fun a h => ⟨(hall a h).1, JSNum.isDouble_of_isCanonical a (hall a h).2.1⟩)
    rw [hstr] at hget
    injection hget with hv
    rw [hv]
    obtain ⟨uid, fullName, phoneNumber, userType, landArea⟩ := user
    cases landArea with
    | none => rw [hnone rfl]
    | some a =>
      obtain ⟨b, hb, _, _, _, hsame⟩ := hsome a rfl
      rw [hb, hsame (hall a rfl).2.1 (hall a rfl).2.2]
  · unfold getUserType
    rw [hstr]
    simp [JSVal.optChain, JSVal.getProp, List.lookup_cons]

set_option maxRecDepth 100000 in
set_option exponentiation.threshold 2000 in
/-- The session of the example farmer, with 2.5 hectares, read back. -/
theorem session_round_trip_witness :
    getAuthToken (setAuthToken builtinJSON "tok" exampleProfile.toJS [("theme", "dark")])
      = some "tok" ∧
    getUserType builtinJSON
      (setAuthToken builtinJSON "tok" exampleProfile.toJS [("theme", "dark")])
      = .ok (.str "farmer") ∧
    (∃ v b, getUser builtinJSON
        (setAuthToken builtinJSON "tok" exampleProfile.toJS [("theme", "dark")]) = .ok v ∧
      v.getProp "landArea" = .num b ∧
      JSNum.toRat b = JSNum.toRat (.fin false 5 (-1))) ∧
    (setAuthToken builtinJSON "tok" exampleProfile.toJS [("theme", "dark")]).getItem "user"
      = some exampleProfileText ∧
    getUser builtinJSON
      (setAuthToken builtinJSON "tok" exampleProfile.toJS [("theme", "dark")])
      = .ok (UserProfile.toJS
          { exampleProfile with landArea := some (.fin false 5629499534213120 (-51)) }) :=
  have h := session_round_trip "tok" exampleProfile [("theme", "dark")]
  match h with
  | ⟨htoken, ⟨v, hget, _, _, _, _, _, hland, _, _⟩, htype⟩ =>
    match hland (.fin false 5 (-1)) rfl rfl (by decide) with
    | ⟨b, hb, _, hval, _⟩ => ⟨htoken, htype, ⟨v, b, hget, hb, hval⟩, rfl, rfl⟩

/-! ## Admin login -/

/-- C18: with phone and OTP both non-empty (for example phone `25078815000` with OTP
`0001`) `handleSubmit` issues the admin-login call for them. Whenever that call
succeeds, answering as the endpoint does with a token and the profile of an admin,
the handler stores both: then `getAuthToken()` returns the token,
`isAuthenticated()` holds for a non-empty token, `getUser()` returns an object with
the strings of the profile, its `userType` being `admin`, `getUserType()` returns
`admin`, and the handler navigates to `/admin-dashboard`. Whatever the successful
response carries, the handler stores its token under `token` and the `JSON` text of
its user under `user` and navigates to `/admin-dashboard`. When the call fails,
storage is left as it was, nothing is navigated to and an error message is shown;
when phone or OTP is empty no call is issued, storage is left as it was and nothing
is navigated to. -/
theorem adminLogin_handleSubmit_spec (st : AdminLogin.State) (w : Browser)
    (token : String) (admin : UserProfile) (err : AxiosError)
    (hadmin : admin.userType = "admin") :
    (st.phoneNumber ≠ "" ∧ st.otp ≠ "" →
      (AdminLogin.handleSubmit st w).requests
        = [authAPI.adminLogin st.phoneNumber st.otp] ∧
      (AdminLogin.handleSubmit st w).browser = w ∧
      (AdminLogin.handleSubmit st w).navigate = none) ∧
    (getAuthToken (AdminLogin.handleSubmitResolved builtinJSON st w
        { token := some token, user := admin.toJS }).browser.localStorage = some token ∧
     (token ≠ "" →
       isAuthenticated (AdminLogin.handleSubmitResolved builtinJSON st w
         { token := some token, user := admin.toJS }).browser.localStorage = true) ∧
     (∃ v, getUser builtinJSON (AdminLogin.handleSubmitResolved builtinJSON st w
         { token := some token, user := admin.toJS }).browser.localStorage = .ok v ∧
       v.getProp "userType" = .str "admin" ∧
       v.getProp "id" = .str admin.id ∧
       v.getProp "fullName" = .str admin.fullName ∧
       v.getProp "phoneNumber" = .str admin.phoneNumber) ∧
     getUserType builtinJSON (AdminLogin.handleSubmitResolved builtinJSON st w
         { token := some token, user := admin.toJS }).browser.localStorage
       = .ok (.str "admin") ∧
     (AdminLogin.handleSubmitResolved builtinJSON st w
         { token := some token, user := admin.toJS }).navigate = some "/admin-dashboard") ∧
    (∀ payload : SessionPayload,
      (AdminLogin.handleSubmitResolved builtinJSON st w payload).browser.localStorage.getItem
          "token" = some (storedText payload.token) ∧
      (AdminLogin.handleSubmitResolved builtinJSON st w payload).browser.localStorage.getItem
          "user" = some (storedText (JSON.stringify payload.user)) ∧
      (AdminLogin.handleSubmitResolved builtinJSON st w payload).navigate
        = some "/admin-dashboard") ∧
    ((AdminLogin.handleSubmitRejected st w err).browser = w ∧
     (AdminLogin.handleSubmitRejected st w err).navigate = none ∧
     (AdminLogin.handleSubmitRejected st w err).requests = [] ∧
     (AdminLogin.handleSubmitRejected st w err).state.error.truthy = true) ∧
    (st.phoneNumber = "" ∨ st.otp = "" →
      (AdminLogin.handleSubmit st w).requests = [] ∧
      (AdminLogin.handleSubmit st w).browser = w ∧
      (AdminLogin.handleSubmit st w).navigate = none ∧
      (AdminLogin.handleSubmit st w).state.error
        = .str "Phone number and OTP are required") := by
  obtain ⟨extra, hget, _⟩ := getUser_setAuthToken_strings token admin w.localStorage
  have htok : getAuthToken (setAuthToken builtinJSON token admin.toJS w.localStorage)
      = some token := getItem_token_setAuthToken builtinJSON token admin.toJS w.localStorage
  refine ⟨?_, ⟨htok, ?_, ⟨_, hget, ?_, ?_, ?_, ?_⟩, ?_, rfl⟩, ?_,
    ⟨rfl, rfl, rfl, jsOr_truthy _ _ (by decide)⟩, ?_⟩
  · rintro ⟨h1, h2⟩
    simp [AdminLogin.handleSubmit, truthyStr, h1, h2, Outcome.send]
  · intro hne
    show isAuthenticated (setAuthToken builtinJSON token admin.toJS w.localStorage) = true
    simp only [isAuthenticated, htok, truthyOpt, (truthyStr_eq_true_iff _).2 hne]
    rfl
  · simp [JSVal.getProp, List.lookup_cons, hadmin]
  · simp [JSVal.getProp, List.lookup_cons]
  · simp [JSVal.getProp, List.lookup_cons]
  · simp [JSVal.getProp, List.lookup_cons]
  · show getUserType builtinJSON
      (setAuthToken builtinJSON token admin.toJS w.localStorage) = _
    unfold getUserType
    rw [hget]
    simp [JSVal.optChain, JSVal.getProp, List.lookup_cons, hadmin]
  · intro payload
    exact ⟨getItem_token_setAuthToken builtinJSON _ _ _,
      getItem_user_setAuthToken builtinJSON _ _ _, rfl⟩
  · rintro (h | h) <;>
      simp [AdminLogin.handleSubmit, truthyStr, h, Outcome.stay]

/-- The demonstration credentials, answered with a token and an administrator. -/
theorem adminLogin_handleSubmit_spec_witness :
    exampleAdminProfile.userType = "admin" ∧
    (AdminLogin.handleSubmit
        { phoneNumber := "25078815000", otp := "0001", error := .str "", loading := false }
        { localStorage := [], href := "/admin-login" }).requests
      = [authAPI.adminLogin "25078815000" "0001"] ∧
    getUserType builtinJSON
      (AdminLogin.handleSubmitResolved builtinJSON
        { phoneNumber := "25078815000", otp := "0001", error := .str "", loading := true }
        { localStorage := [], href := "/admin-login" }
        { token := some "tok", user := exampleAdminProfile.toJS }).browser.localStorage
      = .ok (.str "admin") ∧
    (AdminLogin.handleSubmitResolved builtinJSON
        { phoneNumber := "25078815000", otp := "0001", error := .str "", loading := true }
        { localStorage := [], href := "/admin-login" }
        { token := some "tok", user := exampleAdminProfile.toJS }).browser.localStorage
      = [("user", "\x7b\"id\":\"a1\",\"fullName\":\"Site Admin\"," ++
            "\"phoneNumber\":\"25078815000\",\"userType\":\"admin\"\x7d"),
         ("token", "tok")] ∧
    (AdminLogin.handleSubmit AdminLogin.initial
        { localStorage := [], href := "/admin-login" }).requests = [] :=
  have h := adminLogin_handleSubmit_spec
    { phoneNumber := "25078815000", otp := "0001", error := .str "", loading := true }
    { localStorage := [], href := "/admin-login" } "tok" exampleAdminProfile
    exampleRejectedLogin rfl
  have h1 := adminLogin_handleSubmit_spec
    { phoneNumber := "25078815000", otp := "0001", error := .str "", loading := false }
    { localStorage := [], href := "/admin-login" } "tok" exampleAdminProfile
    exampleRejectedLogin rfl
  have h0 := adminLogin_handleSubmit_spec AdminLogin.initial
    { localStorage := [], href := "/admin-login" } "tok" exampleAdminProfile
    exampleRejectedLogin rfl
  ⟨rfl, (h1.1 ⟨by decide, by decide⟩).1, h.2.1.2.2.2.1, by decide,
   (h0.2.2.2.2 (Or.inl rfl)).1⟩

end FosFrontend
